import Mathlib

/-!
# Teltonika TCP server: AVL decoder and session handler

A shallow embedding of `src/server.js` (the Codec 8 decoder
`parseTeltonikaAVLPacket` with its sub-parsers, `forwardToWebApp` and the
`socket.on('data')` handler, the connection callback with its registry)
together with the packet builders of the repository's test scripts and the
functions `calculateCRC16` and `calculateAccuracy` of the downstream route,
and theorems about them.

Conventions of the embedding:
* a Node.js `Buffer` is a `List UInt8`;
* a read that throws a `RangeError` in Node.js is `none`; every parser of
  `server.js` wraps its body in `try { ... } catch { return null }`, so a
  thrown error and `return null` are both `none`;
* JavaScript numbers that hold integers are `Nat`/`Int`; the one place where
  an integer can leave the exactly representable range (the 8-byte
  timestamp) goes through `toNumber`, the IEEE-754 rounding;
* `readInt32BE(..) / 10000000` is the exact quotient in `ℚ` (the JavaScript
  value is the double nearest to it).
-/

namespace Teltonika

/-! ## Buffers and the primitive reads of Node.js -/

/-- A Node.js `Buffer`. -/
abbrev Buffer := List UInt8

/-- Official preamble (`server.js` line 34). -/
def TELTONIKA_PREAMBLE : Nat := 0x00000000

/-- Alternative preamble accepted as well (`server.js` line 35). -/
def TELTONIKA_PREAMBLE_ALT : Nat := 0x000000FF

/-- Node.js `buffer.readUInt8(offset)`; `none` is the thrown `RangeError`. -/
def readUInt8 (buffer : Buffer) (offset : Nat) : Option Nat :=
  buffer[offset]?.map UInt8.toNat

/-- Node.js `buffer.readUInt16BE(offset)`. -/
def readUInt16BE (buffer : Buffer) (offset : Nat) : Option Nat := do
  let b0 ← readUInt8 buffer offset
  let b1 ← readUInt8 buffer (offset + 1)
  pure (b0 * 256 + b1)

/-- Node.js `buffer.readUInt32BE(offset)`. -/
def readUInt32BE (buffer : Buffer) (offset : Nat) : Option Nat := do
  let b0 ← readUInt8 buffer offset
  let b1 ← readUInt8 buffer (offset + 1)
  let b2 ← readUInt8 buffer (offset + 2)
  let b3 ← readUInt8 buffer (offset + 3)
  pure (b0 * 16777216 + b1 * 65536 + b2 * 256 + b3)

/-- Node.js `buffer.readInt32BE(offset)`: the two's complement reading. -/
def readInt32BE (buffer : Buffer) (offset : Nat) : Option Int := do
  let u ← readUInt32BE buffer offset
  pure (if u < 2147483648 then (u : Int) else (u : Int) - 4294967296)

/-- Node.js `buffer.subarray(start, stop)`: both ends are clamped to the
buffer, nothing is thrown. -/
def subarray (buffer : Buffer) (start stop : Nat) : Buffer :=
  (buffer.take stop).drop start

/-- One lower-case hexadecimal digit. -/
def hexDigit (n : Nat) : Char :=
  if n < 10 then Char.ofNat (48 + n) else Char.ofNat (87 + n)

/-- Node.js `buffer.toString('hex')`. -/
def toHex (buffer : Buffer) : String :=
  String.mk (buffer.flatMap fun b => [hexDigit (b.toNat / 16), hexDigit (b.toNat % 16)])

/-- Node.js `buffer.toString('ascii', start, stop)` applied to the bytes
already cut out: decoding clears the highest bit of each byte. -/
def toAscii (buffer : Buffer) : String :=
  String.mk (buffer.map fun b => Char.ofNat (b.toNat % 128))

/-- The position of the highest set bit of `n` (the floor of its binary
logarithm), by at most `fuel` halvings. -/
def log2Floor : Nat → Nat → Nat
  | 0, _ => 0
  | fuel + 1, n => if n < 2 then 0 else log2Floor fuel (n / 2) + 1

/-- The IEEE-754 double nearest to the natural number `n` (round to nearest,
ties to even), as a natural number; the identity below `2^53`. This is the
value of a JavaScript arithmetic expression whose exact result is `n`: a
double keeps the 53 highest bits of `n`, so the `e` lowest are rounded away. -/
def toNumber (n : Nat) : Nat :=
  if n < 2 ^ 53 then n
  else
    let e := log2Floor n n - 52
    let q := n / 2 ^ e
    let r := n % 2 ^ e
    let half := 2 ^ (e - 1)
    if half < r ∨ (r = half ∧ q % 2 = 1) then (q + 1) * 2 ^ e else q * 2 ^ e

/-! ## Decoded values -/

/-- An `{ id, value }` entry of `data1`, `data2` or `data4`. -/
structure IOItem where
  id : Nat
  value : Nat
deriving DecidableEq

/-- An `{ id, value }` entry of `data8`; the value is a hex string. -/
structure IOItem8 where
  id : Nat
  value : String
deriving DecidableEq

/-- The `data` object returned by `parseIOElement`. -/
structure IOElement where
  eventIOID : Nat
  nOfTotalIO : Nat
  nOfData1 : Nat
  data1 : List IOItem
  nOfData2 : Nat
  data2 : List IOItem
  nOfData4 : Nat
  data4 : List IOItem
  nOfData8 : Nat
  data8 : List IOItem8
deriving DecidableEq

/-- The `data` object returned by `parseGPSElement`. -/
structure GPSElement where
  longitude : ℚ
  latitude : ℚ
  altitude : Nat
  angle : Nat
  satellites : Nat
  speed : Nat
  eventIOID : Nat
  nOfTotalIO : Nat
  nOfData1 : Nat
  data1 : List IOItem
  nOfData2 : Nat
  data2 : List IOItem
  nOfData4 : Nat
  data4 : List IOItem
  nOfData8 : Nat
  data8 : List IOItem8
deriving DecidableEq

/-- The `{ data, size }` object returned by `parseGPSElement` and
`parseIOElement`. -/
structure Sized (α : Type) where
  data : α
  size : Nat
deriving DecidableEq

/-- The `data` object of a record returned by `parseAVLRecord`;
`ioElement` is `ioElement?.data`, absent when the optional parse fails. -/
structure AVLData where
  timestamp : Nat
  priority : Nat
  gpsElement : GPSElement
  ioElement : Option IOElement
deriving DecidableEq

/-- The `{ data, size, nextOffset }` object returned by `parseAVLRecord`;
these objects are what `parseTeltonikaAVLPacket` pushes onto `records`. -/
structure AVLRecord where
  data : AVLData
  size : Nat
  nextOffset : Nat
deriving DecidableEq

/-- The object returned by `parseTeltonikaAVLPacket`. -/
structure Packet where
  imei : String
  codecId : Nat
  recordCount : Nat
  records : List AVLRecord
deriving DecidableEq

/-! ## The decoder (`server.js` lines 121-524) -/

/-- The loop `for (let i = 0; i < n; i++) { id = readUInt8; value = ...;
push({ id, value }) }` of `data1`, `data2` and `data4`, with the value read
by `readValue` over `width` bytes. Returns the entries and the offset reached. -/
def readItems (readValue : Buffer → Nat → Option Nat) (width : Nat) (buffer : Buffer) :
    Nat → Nat → Option (List IOItem × Nat)
  | 0, offset => some ([], offset)
  | n + 1, offset => do
    let id ← readUInt8 buffer offset
    let value ← readValue buffer (offset + 1)
    let (rest, stop) ← readItems readValue width buffer n (offset + 1 + width)
    pure ({ id := id, value := value } :: rest, stop)

/-- The `data8` loop: the id is read with `readUInt8`, the value is the hex
string of `buffer.subarray(offset, offset + 8)`, which never throws. -/
def readItems8 (buffer : Buffer) : Nat → Nat → Option (List IOItem8 × Nat)
  | 0, offset => some ([], offset)
  | n + 1, offset => do
    let id ← readUInt8 buffer offset
    let value := toHex (subarray buffer (offset + 1) (offset + 1 + 8))
    let (rest, stop) ← readItems8 buffer n (offset + 1 + 8)
    pure ({ id := id, value := value } :: rest, stop)

/-- The code shared verbatim by `parseGPSElement` (lines 345-403) and
`parseIOElement` (lines 444-502): event IO id, total count and the four
groups. Returns the fields and the offset reached. -/
def parseIOGroups (buffer : Buffer) (offset : Nat) : Option (IOElement × Nat) := do
  let eventIOID ← readUInt8 buffer offset
  let nOfTotalIO ← readUInt8 buffer (offset + 1)
  let nOfData1 ← readUInt8 buffer (offset + 2)
  let (data1, offset1) ← readItems readUInt8 1 buffer nOfData1 (offset + 3)
  let nOfData2 ← readUInt8 buffer offset1
  let (data2, offset2) ← readItems readUInt16BE 2 buffer nOfData2 (offset1 + 1)
  let nOfData4 ← readUInt8 buffer offset2
  let (data4, offset4) ← readItems readUInt32BE 4 buffer nOfData4 (offset2 + 1)
  let nOfData8 ← readUInt8 buffer offset4
  let (data8, offset8) ← readItems8 buffer nOfData8 (offset4 + 1)
  pure ({ eventIOID := eventIOID, nOfTotalIO := nOfTotalIO,
          nOfData1 := nOfData1, data1 := data1, nOfData2 := nOfData2, data2 := data2,
          nOfData4 := nOfData4, data4 := data4, nOfData8 := nOfData8, data8 := data8 },
        offset8)

/-- The function `parseGPSElement(buffer, offset)` of `server.js`. -/
def parseGPSElement (buffer : Buffer) (offset : Nat) : Option (Sized GPSElement) :=
  if offset + 20 > buffer.length then none
  else do
    let longitude ← readInt32BE buffer offset
    let latitude ← readInt32BE buffer (offset + 4)
    let altitude ← readUInt16BE buffer (offset + 8)
    let angle ← readUInt16BE buffer (offset + 10)
    let satellites ← readUInt8 buffer (offset + 12)
    let speed ← readUInt16BE buffer (offset + 13)
    let (io, stop) ← parseIOGroups buffer (offset + 15)
    pure { data :=
            { longitude := (longitude : ℚ) / 10000000
              latitude := (latitude : ℚ) / 10000000
              altitude := altitude, angle := angle, satellites := satellites, speed := speed
              eventIOID := io.eventIOID, nOfTotalIO := io.nOfTotalIO
              nOfData1 := io.nOfData1, data1 := io.data1
              nOfData2 := io.nOfData2, data2 := io.data2
              nOfData4 := io.nOfData4, data4 := io.data4
              nOfData8 := io.nOfData8, data8 := io.data8 }
           size := stop - offset }

/-- The function `parseIOElement(buffer, offset)` of `server.js`. -/
def parseIOElement (buffer : Buffer) (offset : Nat) : Option (Sized IOElement) :=
  if offset + 3 > buffer.length then none
  else do
    let (io, stop) ← parseIOGroups buffer offset
    pure { data := io, size := stop - offset }

/-- The timestamp of `parseAVLRecord` (lines 260-273): eight bytes when they
fit in the buffer, else four; returns the value and the offset reached. -/
def readTimestamp (buffer : Buffer) (offset : Nat) : Option (Nat × Nat) :=
  if offset + 8 ≤ buffer.length then do
    let timestampHigh ← readUInt32BE buffer offset
    let timestampLow ← readUInt32BE buffer (offset + 4)
    pure (toNumber (timestampHigh * 0x100000000 + timestampLow), offset + 8)
  else do
    let timestamp ← readUInt32BE buffer offset
    pure (timestamp, offset + 4)

/-- The function `parseAVLRecord(buffer, offset)` of `server.js`. -/
def parseAVLRecord (buffer : Buffer) (offset : Nat) : Option AVLRecord :=
  if offset + 4 > buffer.length then none
  else do
    let (timestamp, offset1) ← readTimestamp buffer offset
    let priority ← readUInt8 buffer offset1
    let gpsElement ← parseGPSElement buffer (offset1 + 1)
    let offset2 := offset1 + 1 + gpsElement.size
    let ioElement := if offset2 < buffer.length then parseIOElement buffer offset2 else none
    let offset3 := match ioElement with
      | some io => offset2 + io.size
      | none => offset2
    pure { data := { timestamp := timestamp, priority := priority,
                     gpsElement := gpsElement.data,
                     ioElement := ioElement.map fun io => io.data }
           size := offset3 - offset
           nextOffset := offset3 }

/-- The record loop of `parseTeltonikaAVLPacket` (lines 196-206): `n`
records from `offset` on, each starting at the previous `nextOffset`. -/
def parseRecords (buffer : Buffer) : Nat → Nat → Option (List AVLRecord × Nat)
  | 0, offset => some ([], offset)
  | n + 1, offset => do
    let record ← parseAVLRecord buffer offset
    let (rest, stop) ← parseRecords buffer n record.nextOffset
    pure (record :: rest, stop)

/-- The function `parseTeltonikaAVLPacket(buffer)` of `server.js`; `none` is
`null`. -/
def parseTeltonikaAVLPacket (buffer : Buffer) : Option Packet :=
  if buffer.length < 12 then none
  else do
    let preamble ← readUInt32BE buffer 0
    if preamble ≠ TELTONIKA_PREAMBLE ∧ preamble ≠ TELTONIKA_PREAMBLE_ALT then none
    else do
      let dataFieldLength ← readUInt32BE buffer 4
      let expectedPacketSize := 4 + 4 + dataFieldLength + 4
      if buffer.length < expectedPacketSize then none
      else if 8 ≥ buffer.length then none
      else do
        let imeiLength ← readUInt8 buffer 8
        if 9 + imeiLength > buffer.length then none
        else do
          let imei := toAscii (subarray buffer 9 (9 + imeiLength))
          let offset := 9 + imeiLength
          if offset ≥ buffer.length then none
          else do
            let codecId ← readUInt8 buffer offset
            if offset + 1 ≥ buffer.length then none
            else do
              let numberOfData1 ← readUInt8 buffer (offset + 1)
              let (records, offset') ← parseRecords buffer numberOfData1 (offset + 2)
              if offset' ≥ buffer.length then none
              else do
                let numberOfData2 ← readUInt8 buffer offset'
                if numberOfData1 ≠ numberOfData2 then none
                else if offset' + 1 + 4 > buffer.length then none
                else do
                  let _crc ← readUInt32BE buffer (offset' + 1)
                  pure { imei := imei, codecId := codecId,
                         recordCount := numberOfData1, records := records }

/-! ## Forwarding and the `data` handler (`server.js` lines 527-688) -/

/-- The JSON body posted by `forwardToWebApp`: `parsedData` (flattened),
`rawData` and `source`. The fields `timestamp` (wall clock) and `serverInfo`
(environment) carry nothing of the packet and are left out. -/
structure PostBody where
  imei : String
  records : List AVLRecord
  recordCount : Nat
  codecId : Nat
  rawData : String
  source : String
deriving DecidableEq

/-- The function `forwardToWebApp(parsedData, rawBuffer)` of `server.js`.
The loop body ends in `return`, so only the first record is ever posted, and
nothing is posted for an empty `records`. `post` is the downstream: `true`
when `axios.post` resolves, `false` when it rejects (network error, timeout
or a non-2xx status), in which case the function rethrows. Returns the
bodies posted and whether the call resolved. -/
def forwardToWebApp (parsedData : Packet) (rawBuffer : Buffer) (post : PostBody → Bool) :
    List PostBody × Bool :=
  match parsedData.records with
  | [] => ([], true)
  | record :: _ =>
    let avlData : PostBody :=
      { imei := parsedData.imei, records := [record], recordCount := 1,
        codecId := parsedData.codecId, rawData := toHex rawBuffer,
        source := "teltonika-tcp-server" }
    ([avlData], post avlData)

/-- The value stored in the `connections` map (the socket itself apart). -/
structure Connection where
  clientAddress : String
  connectedAt : Nat
  packetsReceived : Nat
  lastPacketAt : Option Nat
  imei : Option String
deriving DecidableEq

/-- The module-level mutable state of `server.js` (lines 38-42). -/
structure ServerState where
  connections : List (Nat × Connection)
  connectionCount : Nat
  totalPacketsReceived : Nat
  totalPacketsProcessed : Nat
  totalPacketsFailed : Nat
deriving DecidableEq

/-- Apply `f` to the entry of `connectionId`, if there is one: the effect of
`const connection = connections.get(connectionId); if (connection) { ... }`. -/
def updateConnection (connections : List (Nat × Connection)) (connectionId : Nat)
    (f : Connection → Connection) : List (Nat × Connection) :=
  connections.map fun entry => if entry.1 = connectionId then (entry.1, f entry.2) else entry

/-- The `data` handler up to its `await` (lines 621-662): counters and
connection bookkeeping, then the decode. On a failed decode the handler
increments `totalPacketsFailed`, writes `0x00` and returns (`none`);
otherwise it records the IMEI and goes on to forward (`some parsedData`). -/
def onDataDecode (s : ServerState) (connectionId now : Nat) (data : Buffer) :
    ServerState × Option Packet :=
  let s1 : ServerState :=
    { s with
      totalPacketsReceived := s.totalPacketsReceived + 1
      connections := updateConnection s.connections connectionId fun c =>
        { c with packetsReceived := c.packetsReceived + 1, lastPacketAt := some now } }
  match parseTeltonikaAVLPacket data with
  | none => ({ s1 with totalPacketsFailed := s1.totalPacketsFailed + 1 }, none)
  | some parsedData =>
    ({ s1 with
       connections := updateConnection s1.connections connectionId fun c =>
         { c with imei := some parsedData.imei } },
     some parsedData)

/-- The `data` handler after its `await forwardToWebApp(..)` (lines 665-687):
when the call resolved, `totalPacketsProcessed++` and `0x01` is written; when
it threw, the `catch` block does `totalPacketsFailed++` and writes `0x00`.
Returns the new state and the buffer written to the socket. -/
def onDataForwarded (s : ServerState) (resolved : Bool) : ServerState × Buffer :=
  if resolved then ({ s with totalPacketsProcessed := s.totalPacketsProcessed + 1 }, [0x01])
  else ({ s with totalPacketsFailed := s.totalPacketsFailed + 1 }, [0x00])

/-- What one run of a handler of a socket does: the new module state, the
buffers it passes to `socket.write`, the bodies it posts, and whether it
closes the socket (a call of `socket.destroy()` or `socket.end()`). -/
structure HandlerResult where
  state : ServerState
  written : List Buffer
  posted : List PostBody
  destroyed : Bool
deriving DecidableEq

/-- One complete run of the `socket.on('data')` handler of connection
`connectionId` on the chunk `data`, with nothing interleaved at the `await`.
The handler uses its socket in three places, the `socket.write` calls of
lines 648, 669 and 686; on no path does it call `socket.destroy()` or
`socket.end()`. -/
def onData (s : ServerState) (connectionId now : Nat) (data : Buffer) (post : PostBody → Bool) :
    HandlerResult :=
  match onDataDecode s connectionId now data with
  | (s1, none) => { state := s1, written := [[0x00]], posted := [], destroyed := false }
  | (s1, some parsedData) =>
    let forwarded := forwardToWebApp parsedData data post
    let acked := onDataForwarded s1 forwarded.2
    { state := acked.1, written := [acked.2], posted := forwarded.1, destroyed := false }

/-! ## The wire layout, for stating what a frame holds

The writers are those of Node.js that the repository's test scripts use to
build packets (`writeUInt8`, `writeUInt16BE`, `writeUInt32BE`,
`writeInt32BE`, `writeBigUInt64BE`); each returns the bytes it writes. -/

/-- Bytes written by `buffer.writeUInt8(n)`. -/
def writeUInt8 (n : Nat) : Buffer := [UInt8.ofNat n]

/-- Bytes written by `buffer.writeUInt16BE(n)`. -/
def writeUInt16BE (n : Nat) : Buffer := [UInt8.ofNat (n / 256), UInt8.ofNat n]

/-- Bytes written by `buffer.writeUInt32BE(n)`. -/
def writeUInt32BE (n : Nat) : Buffer :=
  [UInt8.ofNat (n / 16777216), UInt8.ofNat (n / 65536), UInt8.ofNat (n / 256), UInt8.ofNat n]

/-- Bytes written by `buffer.writeInt32BE(z)`. -/
def writeInt32BE (z : Int) : Buffer := writeUInt32BE (z % 4294967296).toNat

/-- Bytes written by `buffer.writeBigUInt64BE(n)`. -/
def writeBigUInt64BE (n : Nat) : Buffer := writeUInt32BE (n / 4294967296) ++ writeUInt32BE n

/-- Bytes written by `buffer.write(imei)` for a string of ASCII characters. -/
def writeAscii (imei : String) : Buffer := imei.data.map fun c => UInt8.ofNat c.toNat

/-- The (id, value) pairs of one IO group on the wire. -/
def encodeItems (write : Nat → Buffer) (items : List IOItem) : Buffer :=
  items.flatMap fun i => writeUInt8 i.id ++ write i.value

/-- The (id, 8 value bytes) pairs of the 8-byte IO group on the wire. -/
def encodeItems8 (items : List (Nat × Buffer)) : Buffer :=
  items.flatMap fun i => writeUInt8 i.1 ++ i.2

/-- The values held by an IO block `[eventIO][totalIO][n1 + pairs][n2 + pairs]
[n4 + pairs][n8 + pairs]`; each count byte is the number of pairs that follow. -/
structure IOBlock where
  eventIOID : Nat
  nOfTotalIO : Nat
  data1 : List IOItem
  data2 : List IOItem
  data4 : List IOItem
  data8 : List (Nat × Buffer)
deriving DecidableEq

/-- Every value of the IO block fits its field. -/
def IOBlock.Valid (io : IOBlock) : Prop :=
  io.eventIOID < 256 ∧ io.nOfTotalIO < 256 ∧
  io.data1.length < 256 ∧ (∀ i ∈ io.data1, i.id < 256 ∧ i.value < 256) ∧
  io.data2.length < 256 ∧ (∀ i ∈ io.data2, i.id < 256 ∧ i.value < 65536) ∧
  io.data4.length < 256 ∧ (∀ i ∈ io.data4, i.id < 256 ∧ i.value < 4294967296) ∧
  io.data8.length < 256 ∧ (∀ i ∈ io.data8, i.1 < 256 ∧ i.2.length = 8)

instance (io : IOBlock) : Decidable io.Valid := by
  unfold IOBlock.Valid
  exact inferInstance

/-- The bytes of an IO block. -/
def IOBlock.encode (io : IOBlock) : Buffer :=
  writeUInt8 io.eventIOID ++ writeUInt8 io.nOfTotalIO ++
  writeUInt8 io.data1.length ++ encodeItems writeUInt8 io.data1 ++
  writeUInt8 io.data2.length ++ encodeItems writeUInt16BE io.data2 ++
  writeUInt8 io.data4.length ++ encodeItems writeUInt32BE io.data4 ++
  writeUInt8 io.data8.length ++ encodeItems8 io.data8

/-- The IO block as the decoder reports it. -/
def IOBlock.decoded (io : IOBlock) : IOElement :=
  { eventIOID := io.eventIOID, nOfTotalIO := io.nOfTotalIO
    nOfData1 := io.data1.length, data1 := io.data1
    nOfData2 := io.data2.length, data2 := io.data2
    nOfData4 := io.data4.length, data4 := io.data4
    nOfData8 := io.data8.length
    data8 := io.data8.map fun i => { id := i.1, value := toHex i.2 } }

/-- The values held by one record `[8-byte timestamp][priority][lon:int32]
[lat:int32][alt:uint16][angle:uint16][sat:uint8][speed:uint16][IO block]`;
longitude and latitude are the raw integers (degrees times 10,000,000). -/
structure WireRecord where
  timestamp : Nat
  priority : Nat
  longitude : Int
  latitude : Int
  altitude : Nat
  angle : Nat
  satellites : Nat
  speed : Nat
  io : IOBlock
deriving DecidableEq

/-- Every value of the record fits its field. -/
def WireRecord.Valid (r : WireRecord) : Prop :=
  r.timestamp < 2 ^ 64 ∧ r.priority < 256 ∧
  (-2147483648 ≤ r.longitude ∧ r.longitude < 2147483648) ∧
  (-2147483648 ≤ r.latitude ∧ r.latitude < 2147483648) ∧
  r.altitude < 65536 ∧ r.angle < 65536 ∧ r.satellites < 256 ∧ r.speed < 65536 ∧
  r.io.Valid

instance (r : WireRecord) : Decidable r.Valid := by
  unfold WireRecord.Valid
  exact inferInstance

/-- The bytes of the GPS element of a record, IO block included. -/
def WireRecord.encodeGPS (r : WireRecord) : Buffer :=
  writeInt32BE r.longitude ++ writeInt32BE r.latitude ++ writeUInt16BE r.altitude ++
  writeUInt16BE r.angle ++ writeUInt8 r.satellites ++ writeUInt16BE r.speed ++ r.io.encode

/-- The bytes of a record. -/
def WireRecord.encode (r : WireRecord) : Buffer :=
  writeBigUInt64BE r.timestamp ++ writeUInt8 r.priority ++ r.encodeGPS

/-- The GPS element of a record as the decoder reports it. -/
def WireRecord.gpsElement (r : WireRecord) : GPSElement :=
  { longitude := (r.longitude : ℚ) / 10000000
    latitude := (r.latitude : ℚ) / 10000000
    altitude := r.altitude, angle := r.angle, satellites := r.satellites, speed := r.speed
    eventIOID := r.io.eventIOID, nOfTotalIO := r.io.nOfTotalIO
    nOfData1 := r.io.data1.length, data1 := r.io.data1
    nOfData2 := r.io.data2.length, data2 := r.io.data2
    nOfData4 := r.io.data4.length, data4 := r.io.data4
    nOfData8 := r.io.data8.length
    data8 := r.io.data8.map fun i => { id := i.1, value := toHex i.2 } }

/-- The IMEI is made of ASCII digits and its length fits the length byte. -/
def ValidIMEI (imei : String) : Prop :=
  imei.length < 256 ∧ ∀ c ∈ imei.data, 48 ≤ c.toNat ∧ c.toNat ≤ 57

instance (imei : String) : Decidable (ValidIMEI imei) := by
  unfold ValidIMEI
  exact inferInstance

/-- The frame `[preamble:4][dataFieldLength:4][imeiLength:1][imei][codecId:1]
[numberOfData1:1][record]*[numberOfData2:1][crc:4]`. -/
def frame (preamble dataFieldLength : Nat) (imei : String) (codecId numberOfData1 : Nat)
    (records : List WireRecord) (numberOfData2 crc : Nat) : Buffer :=
  writeUInt32BE preamble ++ writeUInt32BE dataFieldLength ++ writeUInt8 imei.length ++
  writeAscii imei ++ writeUInt8 codecId ++ writeUInt8 numberOfData1 ++
  records.flatMap WireRecord.encode ++ writeUInt8 numberOfData2 ++ writeUInt32BE crc

/-- The packet `minimalAVLPacket` of `final-working-test.js` (lines 10-73). -/
def minimalAVLPacket : Buffer :=
  [0x00, 0x00, 0x00, 0x00,
   0x00, 0x00, 0x00, 0x1B,
   0x0F,
   0x31, 0x32, 0x33, 0x34, 0x35, 0x36, 0x37, 0x38, 0x39, 0x30, 0x31, 0x32, 0x33, 0x34, 0x35,
   0x08,
   0x01,
   0x00, 0x00, 0x01, 0x6B, 0x40, 0xD8, 0xEA, 0x30,
   0x01,
   0x00, 0x00, 0x00, 0x00,
   0x00, 0x00, 0x00, 0x00,
   0x00, 0x00,
   0x00, 0x00,
   0x00,
   0x00, 0x00,
   0x01,
   0x01,
   0x01,
   0x01,
   0x01,
   0x00,
   0x00,
   0x00,
   0x01,
   0x00, 0x00, 0xF2, 0x2A]

/-- The record of `minimalAVLPacket` as wire values. -/
def minimalRecord : WireRecord :=
  { timestamp := 0x0000016B40D8EA30, priority := 1, longitude := 0, latitude := 0
    altitude := 0, angle := 0, satellites := 0, speed := 0
    io := { eventIOID := 1, nOfTotalIO := 1, data1 := [{ id := 1, value := 1 }]
            data2 := [], data4 := [], data8 := [] } }

/-- The function `createTestAVLPacket(imei)` of `test-connection.js` (lines
13-100), with the clock reading `Math.floor(Date.now() / 1000)` as the
parameter `seconds`. The 100-byte scratch buffer is not modelled: the
result is the slice that the function returns, for an IMEI of at most 60
characters. -/
def createTestAVLPacket (imei : String) (seconds : Nat) : Buffer :=
  writeUInt32BE 0x000000FF ++ writeUInt32BE 30 ++ writeUInt8 imei.length ++ writeAscii imei ++
  writeUInt8 8 ++ writeUInt8 1 ++
  writeUInt32BE seconds ++ writeUInt8 0 ++
  writeInt32BE (-1224194000) ++ writeInt32BE 377749000 ++
  writeUInt16BE 100 ++ writeUInt16BE 45 ++ writeUInt8 8 ++ writeUInt16BE 60 ++
  writeUInt8 0 ++ writeUInt8 0 ++ writeUInt8 0 ++ writeUInt8 0 ++
  writeUInt8 1 ++ writeUInt32BE 0x12345678

/-! ## Auxiliary notions for the proofs -/

/-- The bytes `s` stand in `buffer` from `offset` on. -/
def HoldsAt (buffer : Buffer) (offset : Nat) (s : Buffer) : Prop :=
  ∃ post, buffer.drop offset = s ++ post

/-- Move a record `n` bytes further into the buffer. -/
def AVLRecord.shift (n : Nat) (r : AVLRecord) : AVLRecord :=
  { r with nextOffset := n + r.nextOffset }

/-- The record that `parseAVLRecord` returns for the single record `r` of a
frame whose IMEI has `imeiLength` characters. -/
def WireRecord.parsed (r : WireRecord) (imeiLength : Nat) : AVLRecord :=
  { data := { timestamp := toNumber r.timestamp, priority := r.priority,
              gpsElement := r.gpsElement, ioElement := none }
    size := r.encode.length
    nextOffset := 9 + imeiLength + 2 + r.encode.length }

/-! ## Concrete frames used by the theorems -/

/-- The IMEI of the repository's test packets. -/
def testIMEI : String := "123456789012345"

/-- A record like `minimalRecord` whose timestamp is `2^53 + 1`. -/
def lateRecord : WireRecord := { minimalRecord with timestamp := 9007199254740993 }

/-- The frame `minimalAVLPacket` with `lateRecord` as its record. -/
def lateFrame : Buffer := frame 0 0x1B testIMEI 8 1 [lateRecord] 1 0xF22A

/-- An IO block with no entries. -/
def emptyBlock : IOBlock :=
  { eventIOID := 0, nOfTotalIO := 0, data1 := [], data2 := [], data4 := [], data8 := [] }

/-- A record with the GPS values of `createTestAVLPacket`, stamped
2023-11-24T06:24:08.216Z. -/
def recordA : WireRecord :=
  { timestamp := 0x0000018BFFFFFC18, priority := 0
    longitude := -1224194000, latitude := 377749000
    altitude := 100, angle := 45, satellites := 8, speed := 60, io := emptyBlock }

/-- The same record one second later, 2023-11-24T06:24:09.216Z: the low four
bytes of the timestamp are zero. -/
def recordB : WireRecord := { recordA with timestamp := 0x0000018C00000000 }

/-- A frame with the two records `recordA`, `recordB` and both counts 2; its
declared length is the true length of its data field. -/
def twoRecordFrame : Buffer := frame 0 79 testIMEI 8 2 [recordA, recordB] 2 0

/-- The record `recordB` with five 1-byte and two 4-byte IO entries. -/
def recordC : WireRecord :=
  { recordB with
    io := { eventIOID := 0, nOfTotalIO := 7
            data1 := [⟨1, 1⟩, ⟨2, 0⟩, ⟨3, 1⟩, ⟨4, 0⟩, ⟨0, 0⟩]
            data2 := []
            data4 := [⟨16, 0xFF000000⟩, ⟨17, 5⟩]
            data8 := [] } }

/-- A frame with the two records `recordA`, `recordC`, leading count 2 and
trailing count 7; its declared length is the true length of its data field. -/
def mismatchFrame : Buffer := frame 0 99 testIMEI 8 2 [recordA, recordC] 7 0

/-- The frame `minimalAVLPacket` with the alternative preamble `0x000000FF`. -/
def altPreamblePacket : Buffer := frame 0x000000FF 0x1B testIMEI 8 1 [minimalRecord] 1 0xF22A

/-- The frame `minimalAVLPacket` with codec id 7 in place of 8. -/
def codec7Packet : Buffer := frame 0 0x1B testIMEI 7 1 [minimalRecord] 1 0xF22A

/-- The server state at start-up (`server.js` lines 38-42). -/
def initialState : ServerState :=
  { connections := [], connectionCount := 0, totalPacketsReceived := 0,
    totalPacketsProcessed := 0, totalPacketsFailed := 0 }

/-! ## The checksum function of the test scripts -/

/-- One turn of the inner loop of `calculateCRC16`:
`crc = (crc & 0x8000) ? ((crc << 1) ^ 0x1021) : (crc << 1)`. The register is a
JavaScript 32-bit integer, held here as its bit pattern in `0 .. 2^32 - 1`;
`<<` drops the bits that leave the 32-bit word. -/
def crcShift (crc : Nat) : Nat :=
  if crc &&& 0x8000 ≠ 0 then ((crc * 2) % 4294967296) ^^^ 0x1021 else (crc * 2) % 4294967296

/-- The body of the outer loop of `calculateCRC16` for the byte `b`:
`crc ^= b << 8`, then eight turns of the inner loop. -/
def crcByte (crc : Nat) (b : UInt8) : Nat :=
  crcShift^[8] (crc ^^^ (b.toNat * 256))

/-- The function `calculateCRC16(buffer)` of `corrected-teltonika-api-route.ts`
(lines 404-415) and `correct-teltonika-packet-with-crc.js` (lines 11-24): the
register starts at 0, is never masked inside the loops, and the result is
`crc & 0xFFFF`. -/
def calculateCRC16 (buffer : Buffer) : Nat :=
  (buffer.foldl crcByte 0) &&& 0xFFFF

/-- One shift of the reference CRC-16 with polynomial `0x1021`, MSB first,
the register masked to 16 bits. -/
def referenceShift (crc : Nat) : Nat :=
  if crc &&& 0x8000 ≠ 0 then ((crc * 2) ^^^ 0x1021) % 65536 else (crc * 2) % 65536

/-- The reference CRC-16 of the specification: polynomial `0x1021`, initial
value 0, no reflection, no final xor, bit by bit with the most significant
bit first and the register masked to 16 bits at every step. -/
def crc16Reference (buffer : Buffer) : Nat :=
  buffer.foldl (fun crc b => referenceShift^[8] (crc ^^^ (b.toNat * 256))) 0

/-- One shift of CRC-16/IBM: the register moves right and the reflected
polynomial `0xA001` is xored in when the bit shifted out is set. -/
def ibmShift (crc : Nat) : Nat :=
  if crc % 2 = 1 then (crc / 2) ^^^ 0xA001 else crc / 2

/-- CRC-16/IBM, the checksum of the Teltonika protocol: reflected polynomial
`0xA001`, initial value 0, each byte xored into the low end of the register. -/
def crc16IBM (buffer : Buffer) : Nat :=
  buffer.foldl (fun crc b => ibmShift^[8] (crc ^^^ b.toNat)) 0

/-- The packet `testPacket` of `debug-avl-parsing.js` (lines 17-83), the
example of the Teltonika documentation with the IMEI added. -/
def testPacket : Buffer :=
  [0x00, 0x00, 0x00, 0x00,
   0x00, 0x00, 0x00, 0x36,
   0x0F,
   0x31, 0x32, 0x33, 0x34, 0x35, 0x36, 0x37, 0x38, 0x39, 0x30, 0x31, 0x32, 0x33, 0x34, 0x35,
   0x08,
   0x01,
   0x00, 0x00, 0x01, 0x6B, 0x40, 0xD8, 0xEA, 0x30,
   0x01,
   0x00, 0x00, 0x00, 0x00,
   0x00, 0x00, 0x00, 0x00,
   0x00, 0x00,
   0x00, 0x00,
   0x00,
   0x00, 0x00,
   0x01,
   0x05,
   0x02,
   0x15, 0x03,
   0x01, 0x01,
   0x01,
   0x42, 0x5E, 0x0F,
   0x01,
   0xF1, 0x00, 0x00, 0x60, 0x1A,
   0x01,
   0x4E, 0x00, 0x00, 0x00, 0x00, 0x00, 0x00, 0x00, 0x00,
   0x01,
   0x00, 0x00, 0xC7, 0xCF]

/-- The data field of `testPacket`, codec id through Number of Data 2. -/
def officialDataField : Buffer := subarray testPacket 24 78

/-- A second record for a two-record frame, stamped 2023-11-27T18:27:22.326Z. -/
def recordD : WireRecord := { recordA with timestamp := 0x0000018C12093456 }

/-- The frame of the records `recordA`, `recordD` with both counts 2 and
the trailing checksum `crc`; its declared length is the true length of its
data field. -/
def checksumFrame (crc : Nat) : Buffer := frame 0 79 testIMEI 8 2 [recordA, recordD] 2 crc

/-- The frame `minimalAVLPacket` with an IMEI length byte of 0. -/
def emptyIMEIPacket : Buffer := frame 0 0x0C "" 8 1 [minimalRecord] 1 0xF22A

/-- The frame `minimalAVLPacket` with an IMEI of 21 characters, some of them
not digits. -/
def longIMEIPacket : Buffer := frame 0 0x21 "TRACKER-0123456789-AB" 8 1 [minimalRecord] 1 0xF22A

/-- The record of `testPacket` as wire values. -/
def officialRecord : WireRecord :=
  { timestamp := 0x0000016B40D8EA30, priority := 1, longitude := 0, latitude := 0
    altitude := 0, angle := 0, satellites := 0, speed := 0
    io := { eventIOID := 1, nOfTotalIO := 5
            data1 := [{ id := 0x15, value := 0x03 }, { id := 0x01, value := 0x01 }]
            data2 := [{ id := 0x42, value := 0x5E0F }]
            data4 := [{ id := 0xF1, value := 0x0000601A }]
            data8 := [(0x4E, [0x00, 0x00, 0x00, 0x00, 0x00, 0x00, 0x00, 0x00])] } }

/-- The record of `testPacket` with the id 1 given to both 1-byte entries and
to the 2-byte entry. -/
def duplicateIdRecord : WireRecord :=
  { officialRecord with
    io := { officialRecord.io with
            data1 := [{ id := 0x01, value := 0x03 }, { id := 0x01, value := 0x01 }]
            data2 := [{ id := 0x01, value := 0x5E0F }] } }

/-! ## The connection registry (`server.js` lines 585-614 and 690-709) -/

/-- The method `connections.set(key, value)` of a JavaScript `Map`: the value
of a key already present is replaced where it stands, a new key goes to the
end. -/
def mapSet (connections : List (Nat × Connection)) (key : Nat) (value : Connection) :
    List (Nat × Connection) :=
  if connections.any (fun entry => entry.1 = key) then
    connections.map fun entry => if entry.1 = key then (key, value) else entry
  else connections ++ [(key, value)]

/-- The method `connections.delete(key)` of a JavaScript `Map`. -/
def mapDelete (connections : List (Nat × Connection)) (key : Nat) : List (Nat × Connection) :=
  connections.filter fun entry => entry.1 ≠ key

/-- The method `connections.get(key)` of a JavaScript `Map`; `none` is
`undefined`. -/
def mapGet (connections : List (Nat × Connection)) (key : Nat) : Option Connection :=
  (connections.find? fun entry => entry.1 = key).map Prod.snd

/-- What the connection callback has done to a new socket when it returns. -/
structure AcceptResult where
  state : ServerState
  connectionId : Nat
  destroyed : Bool
  listening : Bool
  written : List Buffer
deriving DecidableEq

/-- The callback of `net.createServer` (lines 585-719) run on a new socket,
up to the point where it returns. `maxConnections` is the value of the
constant `MAX_CONNECTIONS`, a count; `connections.size` is the length of the
list. `destroyed` says that `socket.destroy()` was called, `listening` that
the `data`, `close`, `error` and `timeout` handlers were attached (the
callback returns before attaching them when it rejects the socket), and
`written` lists the buffers the callback itself writes: none. -/
def onConnection (maxConnections : Nat) (s : ServerState) (clientAddress : String) (now : Nat) :
    AcceptResult :=
  let connectionId := s.connectionCount + 1
  let s1 : ServerState := { s with connectionCount := connectionId }
  if s1.connections.length ≥ maxConnections then
    { state := s1, connectionId := connectionId, destroyed := true, listening := false,
      written := [] }
  else
    { state :=
        { s1 with
          connections := mapSet s1.connections connectionId
            { clientAddress := clientAddress, connectedAt := now, packetsReceived := 0,
              lastPacketAt := none, imei := none } }
      connectionId := connectionId, destroyed := false, listening := true, written := [] }

/-- The `close` handler (lines 691-699); the `error` handler (lines 702-709)
changes the state in the same way. -/
def onClose (s : ServerState) (connectionId : Nat) : ServerState :=
  { s with connections := mapDelete s.connections connectionId }

/-- The `timeout` handler (lines 712-718): it calls `socket.destroy()` and
leaves the module state alone; the registry entry goes with the `close`
event that the destroyed socket emits. -/
def onTimeout (s : ServerState) : HandlerResult :=
  { state := s, written := [], posted := [], destroyed := true }

/-- The two kinds of step that change the registry: a new socket, and the
`close` (or `error`) event of a socket. -/
inductive SocketEvent where
  | connection (clientAddress : String) (now : Nat)
  | close (connectionId : Nat)
deriving DecidableEq

/-- The server state after one registry step. -/
def registryStep (maxConnections : Nat) (s : ServerState) : SocketEvent → ServerState
  | .connection clientAddress now => (onConnection maxConnections s clientAddress now).state
  | .close connectionId => onClose s connectionId

/-- The new sockets of `clients` (address and arrival time) handled one after
the other with no `close` in between: the final state and, for each socket in
order, whether it was destroyed. -/
def openAll (maxConnections : Nat) : ServerState → List (String × Nat) → ServerState × List Bool
  | s, [] => (s, [])
  | s, (clientAddress, now) :: rest =>
    let accepted := onConnection maxConnections s clientAddress now
    let later := openAll maxConnections accepted.state rest
    (later.1, accepted.destroyed :: later.2)

/-! ## The event loop around the `data` handler

The handler is an `async` function: a run goes on without interruption up to
`await forwardToWebApp(..)`, is suspended there until the promise of
`axios.post` settles, and its remainder runs in a later turn. Nothing in
`server.js` pauses the socket or queues the chunks meanwhile, so other `data`
events are handled between the two parts. -/

/-- A run of the `data` handler suspended at its `await`. -/
structure Pending where
  connectionId : Nat
  body : PostBody
deriving DecidableEq

/-- The server between two turns of the event loop: the module state, the
suspended runs (oldest first), and the socket writes and posts made so far,
in order of time; a write is listed with the id of its connection. -/
structure Loop where
  state : ServerState
  pending : List Pending
  written : List (Nat × Buffer)
  posted : List PostBody
deriving DecidableEq

/-- What a turn of the event loop handles: a `data` event of a socket, or the
settling of the post of the suspended run number `index` (`resolved` is
`false` when `axios.post` rejects). -/
inductive LoopEvent where
  | data (connectionId now : Nat) (chunk : Buffer)
  | settle (index : Nat) (resolved : Bool)
deriving DecidableEq

/-- One turn of the event loop. A `data` event runs the handler up to its
`await` (`onDataDecode`): a failed decode writes `0x00` at once; a packet with
no record makes `forwardToWebApp` return without a post, and the remainder of
the handler runs before any other event; otherwise the body is posted and the
run is suspended. A `settle` event runs the remainder of the suspended run
(`onDataForwarded`), which writes the acknowledgment. -/
def Loop.step (l : Loop) : LoopEvent → Loop
  | .data connectionId now chunk =>
    match onDataDecode l.state connectionId now chunk with
    | (s1, none) => { l with state := s1, written := l.written ++ [(connectionId, [0x00])] }
    | (s1, some parsedData) =>
      match (forwardToWebApp parsedData chunk fun _ => true).1 with
      | [] =>
        let acked := onDataForwarded s1 true
        { l with state := acked.1, written := l.written ++ [(connectionId, acked.2)] }
      | body :: _ =>
        { l with
          state := s1
          pending := l.pending ++ [{ connectionId := connectionId, body := body }]
          posted := l.posted ++ [body] }
  | .settle index resolved =>
    match l.pending[index]? with
    | none => l
    | some run =>
      let acked := onDataForwarded l.state resolved
      { l with
        state := acked.1
        pending := l.pending.eraseIdx index
        written := l.written ++ [(run.connectionId, acked.2)] }

/-- The event loop with nothing suspended and nothing written, on the server
state `s`. -/
def Loop.start (s : ServerState) : Loop :=
  { state := s, pending := [], written := [], posted := [] }

/-! ## The JSON form of a posted record

The body of `axios.post` is serialised with `JSON.stringify`: an object
becomes the list of its own properties, a property whose value is
`undefined` is left out. -/

/-- A JSON value. -/
inductive Json where
  | null
  | number (value : ℚ)
  | string (value : String)
  | array (items : List Json)
  | object (fields : List (String × Json))

/-- The property access `value.name` on a parsed JSON value; `none` is
`undefined`. -/
def Json.field (name : String) : Json → Option Json
  | .object fields => fields.lookup name
  | _ => none

/-- JSON of an `{ id, value }` entry. -/
def IOItem.toJson (i : IOItem) : Json :=
  .object [("id", .number i.id), ("value", .number i.value)]

/-- JSON of an `{ id, value }` entry of `data8`. -/
def IOItem8.toJson (i : IOItem8) : Json :=
  .object [("id", .number i.id), ("value", .string i.value)]

/-- JSON of the `data` object of `parseIOElement` (lines 504-517). -/
def IOElement.toJson (io : IOElement) : Json :=
  .object
    [("eventIOID", .number io.eventIOID), ("nOfTotalIO", .number io.nOfTotalIO),
     ("nOfData1", .number io.nOfData1), ("data1", .array (io.data1.map IOItem.toJson)),
     ("nOfData2", .number io.nOfData2), ("data2", .array (io.data2.map IOItem.toJson)),
     ("nOfData4", .number io.nOfData4), ("data4", .array (io.data4.map IOItem.toJson)),
     ("nOfData8", .number io.nOfData8), ("data8", .array (io.data8.map IOItem8.toJson))]

/-- JSON of the `data` object of `parseGPSElement` (lines 405-424). -/
def GPSElement.toJson (g : GPSElement) : Json :=
  .object
    [("longitude", .number g.longitude), ("latitude", .number g.latitude),
     ("altitude", .number g.altitude), ("angle", .number g.angle),
     ("satellites", .number g.satellites), ("speed", .number g.speed),
     ("eventIOID", .number g.eventIOID), ("nOfTotalIO", .number g.nOfTotalIO),
     ("nOfData1", .number g.nOfData1), ("data1", .array (g.data1.map IOItem.toJson)),
     ("nOfData2", .number g.nOfData2), ("data2", .array (g.data2.map IOItem.toJson)),
     ("nOfData4", .number g.nOfData4), ("data4", .array (g.data4.map IOItem.toJson)),
     ("nOfData8", .number g.nOfData8), ("data8", .array (g.data8.map IOItem8.toJson))]

/-- JSON of the `data` object of a record (lines 294-299); `ioElement` is
left out when it is `undefined`. -/
def AVLData.toJson (d : AVLData) : Json :=
  .object
    ([("timestamp", .number d.timestamp), ("priority", .number d.priority),
      ("gpsElement", d.gpsElement.toJson)] ++
     match d.ioElement with
     | some io => [("ioElement", io.toJson)]
     | none => [])

/-- JSON of the object returned by `parseAVLRecord` (lines 293-302), which is
what `parseTeltonikaAVLPacket` pushes onto `records` (line 204) and
`forwardToWebApp` puts into `parsedData.records` (line 542). -/
def AVLRecord.toJson (r : AVLRecord) : Json :=
  .object [("data", r.data.toJson), ("size", .number r.size), ("nextOffset", .number r.nextOffset)]

/-- The element of `parsedData.records` that `diagnostic-test.js` sends in
its data format test (lines 190-207). -/
def diagnosticRecord : Json :=
  .object
    [("timestamp", .number 1234567890), ("priority", .number 0),
     ("gpsElement", .object
        [("longitude", .number (-1224194 / 10000)), ("latitude", .number (377749 / 10000)),
         ("altitude", .number 100), ("angle", .number 45), ("satellites", .number 8),
         ("speed", .number 60), ("eventIOID", .number 0), ("nOfTotalIO", .number 0),
         ("nOfData1", .number 0), ("data1", .array []),
         ("nOfData2", .number 0), ("data2", .array [])])]

/-- The reads of `processGPSLocation` in `corrected-teltonika-api-route.ts`
(lines 454-461) on one element `record` of `parsedData.records`:
`record.gpsElement.latitude`, `record.gpsElement.longitude` and
`record.timestamp`. A read of a property of `undefined` throws a `TypeError`
and an `undefined` value is no number: both are `none`. -/
def processGPSLocationReads (record : Json) : Option (Json × Json × Json) := do
  let gpsElement ← record.field "gpsElement"
  let latitude ← gpsElement.field "latitude"
  let longitude ← gpsElement.field "longitude"
  let timestamp ← record.field "timestamp"
  pure (latitude, longitude, timestamp)

/-! ## The decoder with its exceptions made explicit

In the definitions above a thrown `RangeError` and `return null` are both
`none`. Here they are kept apart: a function returns `Except.error` when an
exception leaves it and `Except.ok none` when it returns `null`. -/

/-- An exception thrown inside the decoder: the `RangeError` of a Buffer read
outside the buffer. -/
inductive Thrown where
  | rangeError
deriving DecidableEq

/-- A Buffer read as JavaScript performs it: the value, or a thrown
`RangeError` where the read above is `none`. -/
def orThrow {α : Type} (read : Option α) : Except Thrown α :=
  match read with
  | some v => .ok v
  | none => .error .rangeError

/-- The statement `try { body } catch (error) { log(..); return null; }`. -/
def catchNull {α : Type} (body : Except Thrown (Option α)) : Except Thrown (Option α) :=
  match body with
  | .ok v => .ok v
  | .error _ => .ok none

/-- The loop of `data1`, `data2` and `data4` with throwing reads. -/
def readItemsThrowing (readValue : Buffer → Nat → Option Nat) (width : Nat) (buffer : Buffer) :
    Nat → Nat → Except Thrown (List IOItem × Nat)
  | 0, offset => pure ([], offset)
  | n + 1, offset => do
    let id ← orThrow (readUInt8 buffer offset)
    let value ← orThrow (readValue buffer (offset + 1))
    let (rest, stop) ← readItemsThrowing readValue width buffer n (offset + 1 + width)
    pure ({ id := id, value := value } :: rest, stop)

/-- The `data8` loop with throwing reads. -/
def readItems8Throwing (buffer : Buffer) : Nat → Nat → Except Thrown (List IOItem8 × Nat)
  | 0, offset => pure ([], offset)
  | n + 1, offset => do
    let id ← orThrow (readUInt8 buffer offset)
    let value := toHex (subarray buffer (offset + 1) (offset + 1 + 8))
    let (rest, stop) ← readItems8Throwing buffer n (offset + 1 + 8)
    pure ({ id := id, value := value } :: rest, stop)

/-- The code shared by `parseGPSElement` and `parseIOElement`, with throwing
reads. -/
def parseIOGroupsThrowing (buffer : Buffer) (offset : Nat) : Except Thrown (IOElement × Nat) := do
  let eventIOID ← orThrow (readUInt8 buffer offset)
  let nOfTotalIO ← orThrow (readUInt8 buffer (offset + 1))
  let nOfData1 ← orThrow (readUInt8 buffer (offset + 2))
  let (data1, offset1) ← readItemsThrowing readUInt8 1 buffer nOfData1 (offset + 3)
  let nOfData2 ← orThrow (readUInt8 buffer offset1)
  let (data2, offset2) ← readItemsThrowing readUInt16BE 2 buffer nOfData2 (offset1 + 1)
  let nOfData4 ← orThrow (readUInt8 buffer offset2)
  let (data4, offset4) ← readItemsThrowing readUInt32BE 4 buffer nOfData4 (offset2 + 1)
  let nOfData8 ← orThrow (readUInt8 buffer offset4)
  let (data8, offset8) ← readItems8Throwing buffer nOfData8 (offset4 + 1)
  pure ({ eventIOID := eventIOID, nOfTotalIO := nOfTotalIO,
          nOfData1 := nOfData1, data1 := data1, nOfData2 := nOfData2, data2 := data2,
          nOfData4 := nOfData4, data4 := data4, nOfData8 := nOfData8, data8 := data8 },
        offset8)

/-- The body of the `try` block of `parseGPSElement` (lines 312-425). -/
def parseGPSElementBody (buffer : Buffer) (offset : Nat) :
    Except Thrown (Option (Sized GPSElement)) :=
  if offset + 20 > buffer.length then pure none
  else do
    let longitude ← orThrow (readInt32BE buffer offset)
    let latitude ← orThrow (readInt32BE buffer (offset + 4))
    let altitude ← orThrow (readUInt16BE buffer (offset + 8))
    let angle ← orThrow (readUInt16BE buffer (offset + 10))
    let satellites ← orThrow (readUInt8 buffer (offset + 12))
    let speed ← orThrow (readUInt16BE buffer (offset + 13))
    let (io, stop) ← parseIOGroupsThrowing buffer (offset + 15)
    pure (some
      { data :=
          { longitude := (longitude : ℚ) / 10000000
            latitude := (latitude : ℚ) / 10000000
            altitude := altitude, angle := angle, satellites := satellites, speed := speed
            eventIOID := io.eventIOID, nOfTotalIO := io.nOfTotalIO
            nOfData1 := io.nOfData1, data1 := io.data1
            nOfData2 := io.nOfData2, data2 := io.data2
            nOfData4 := io.nOfData4, data4 := io.data4
            nOfData8 := io.nOfData8, data8 := io.data8 }
        size := stop - offset })

/-- The function `parseGPSElement` with its `try`/`catch`. -/
def parseGPSElementCaught (buffer : Buffer) (offset : Nat) :
    Except Thrown (Option (Sized GPSElement)) :=
  catchNull (parseGPSElementBody buffer offset)

/-- The body of the `try` block of `parseIOElement` (lines 435-518). -/
def parseIOElementBody (buffer : Buffer) (offset : Nat) :
    Except Thrown (Option (Sized IOElement)) :=
  if offset + 3 > buffer.length then pure none
  else do
    let (io, stop) ← parseIOGroupsThrowing buffer offset
    pure (some { data := io, size := stop - offset })

/-- The function `parseIOElement` with its `try`/`catch`. -/
def parseIOElementCaught (buffer : Buffer) (offset : Nat) :
    Except Thrown (Option (Sized IOElement)) :=
  catchNull (parseIOElementBody buffer offset)

/-- The timestamp of `parseAVLRecord` with throwing reads. -/
def readTimestampThrowing (buffer : Buffer) (offset : Nat) : Except Thrown (Nat × Nat) :=
  if offset + 8 ≤ buffer.length then do
    let timestampHigh ← orThrow (readUInt32BE buffer offset)
    let timestampLow ← orThrow (readUInt32BE buffer (offset + 4))
    pure (toNumber (timestampHigh * 0x100000000 + timestampLow), offset + 8)
  else do
    let timestamp ← orThrow (readUInt32BE buffer offset)
    pure (timestamp, offset + 4)

/-- The body of the `try` block of `parseAVLRecord` (lines 251-302): a `null`
GPS element makes it return `null`, a `null` IO element is passed over. -/
def parseAVLRecordBody (buffer : Buffer) (offset : Nat) : Except Thrown (Option AVLRecord) :=
  if offset + 4 > buffer.length then pure none
  else do
    let (timestamp, offset1) ← readTimestampThrowing buffer offset
    let priority ← orThrow (readUInt8 buffer offset1)
    let gps ← parseGPSElementCaught buffer (offset1 + 1)
    match gps with
    | none => pure none
    | some gpsElement =>
      let offset2 := offset1 + 1 + gpsElement.size
      let ioElement ←
        if offset2 < buffer.length then parseIOElementCaught buffer offset2 else pure none
      let offset3 := match ioElement with
        | some io => offset2 + io.size
        | none => offset2
      pure (some
        { data := { timestamp := timestamp, priority := priority,
                    gpsElement := gpsElement.data,
                    ioElement := ioElement.map fun io => io.data }
          size := offset3 - offset
          nextOffset := offset3 })

/-- The function `parseAVLRecord` with its `try`/`catch`. -/
def parseAVLRecordCaught (buffer : Buffer) (offset : Nat) : Except Thrown (Option AVLRecord) :=
  catchNull (parseAVLRecordBody buffer offset)

/-- The record loop of `parseTeltonikaAVLPacket` (lines 196-206); `none` is
its `return null` on a `null` record. -/
def parseRecordsBody (buffer : Buffer) :
    Nat → Nat → Except Thrown (Option (List AVLRecord × Nat))
  | 0, offset => pure (some ([], offset))
  | n + 1, offset => do
    let parsed ← parseAVLRecordCaught buffer offset
    match parsed with
    | none => pure none
    | some record =>
      let later ← parseRecordsBody buffer n record.nextOffset
      match later with
      | none => pure none
      | some (rest, stop) => pure (some (record :: rest, stop))

/-- The body of the `try` block of `parseTeltonikaAVLPacket` (lines 122-241). -/
def parseTeltonikaAVLPacketBody (buffer : Buffer) : Except Thrown (Option Packet) :=
  if buffer.length < 12 then pure none
  else do
    let preamble ← orThrow (readUInt32BE buffer 0)
    if preamble ≠ TELTONIKA_PREAMBLE ∧ preamble ≠ TELTONIKA_PREAMBLE_ALT then pure none
    else do
      let dataFieldLength ← orThrow (readUInt32BE buffer 4)
      let expectedPacketSize := 4 + 4 + dataFieldLength + 4
      if buffer.length < expectedPacketSize then pure none
      else if 8 ≥ buffer.length then pure none
      else do
        let imeiLength ← orThrow (readUInt8 buffer 8)
        if 9 + imeiLength > buffer.length then pure none
        else do
          let imei := toAscii (subarray buffer 9 (9 + imeiLength))
          let offset := 9 + imeiLength
          if offset ≥ buffer.length then pure none
          else do
            let codecId ← orThrow (readUInt8 buffer offset)
            if offset + 1 ≥ buffer.length then pure none
            else do
              let numberOfData1 ← orThrow (readUInt8 buffer (offset + 1))
              let parsed ← parseRecordsBody buffer numberOfData1 (offset + 2)
              match parsed with
              | none => pure none
              | some (records, offset') =>
                if offset' ≥ buffer.length then pure none
                else do
                  let numberOfData2 ← orThrow (readUInt8 buffer offset')
                  if numberOfData1 ≠ numberOfData2 then pure none
                  else if offset' + 1 + 4 > buffer.length then pure none
                  else do
                    let _crc ← orThrow (readUInt32BE buffer (offset' + 1))
                    pure (some { imei := imei, codecId := codecId,
                                 recordCount := numberOfData1, records := records })

/-- The function `parseTeltonikaAVLPacket` with its `try`/`catch`:
`Except.ok` when it returns (`none` for `null`), `Except.error` when an
exception leaves it. -/
def parseTeltonikaAVLPacketCaught (buffer : Buffer) : Except Thrown (Option Packet) :=
  catchNull (parseTeltonikaAVLPacketBody buffer)

/-! ## Concrete buffers and states for the session theorems -/

/-- The buffer `ioBuffer` of `debug-avl-parsing.js` (lines 125-158). -/
def ioBuffer : Buffer :=
  [0x01,
   0x05,
   0x02,
   0x15, 0x03,
   0x01, 0x01,
   0x01,
   0x42, 0x5E, 0x0F,
   0x01,
   0xF1, 0x00, 0x00, 0x60, 0x1A,
   0x01,
   0x4E, 0x00, 0x00, 0x00, 0x00, 0x00, 0x00, 0x00, 0x00]

/-- A frame with no record: both counts are 0 and the declared length is the
three bytes of codec id and counts. -/
def zeroRecordFrame : Buffer := frame 0 3 testIMEI 8 0 [] 0 0

/-- The frame `minimalAVLPacket` with the preamble `0x01020304`. -/
def badPreamblePacket : Buffer := frame 0x01020304 0x1B testIMEI 8 1 [minimalRecord] 1 0xF22A

/-- The frame `minimalAVLPacket` with the declared length `0xFFFFFFFF`. -/
def hugeLengthPacket : Buffer := frame 0 0xFFFFFFFF testIMEI 8 1 [minimalRecord] 1 0xF22A

/-- The server after two devices have connected, one at time 0 and one at
time 1, with `MAX_CONNECTIONS` at its default of 100: connections 1 and 2 are
registered. -/
def twoConnections : ServerState :=
  (openAll 100 initialState [("10.0.0.7:40001", 0), ("10.0.0.8:40002", 1)]).1

/-! ## The accuracy estimate of the downstream handler -/

/-- The function `calculateAccuracy(satellites)` of
`corrected-teltonika-api-route.ts` (lines 538-544), on a satellite count; the
values `2.0`, `5.0`, `10.0`, `20.0` and `50.0` are whole numbers. -/
def calculateAccuracy (satellites : Nat) : Nat :=
  if satellites ≥ 10 then 2
  else if satellites ≥ 7 then 5
  else if satellites ≥ 5 then 10
  else if satellites ≥ 3 then 20
  else 50

/-! ## Buffers that end inside an 8-byte value -/

/-- The buffer `ioBuffer` of `debug-avl-parsing.js` without its last three
bytes: the 8-byte value of its last entry has five bytes left. -/
def truncatedIOBuffer : Buffer := ioBuffer.take 24

/-- The fifteen bytes of `gpsBuffer` of `debug-avl-parsing.js` (lines
103-116) followed by `truncatedIOBuffer`. -/
def truncatedGPSBuffer : Buffer := List.replicate 15 0 ++ truncatedIOBuffer

/-- The frame `minimalAVLPacket` with the declared length 51 in place of
27. -/
def otherLengthPacket : Buffer := frame 0 51 testIMEI 8 1 [minimalRecord] 1 0xF22A

/-! ## Primitive reads: bounds and position independence -/

theorem readUInt8_eq_some_lt {buffer : Buffer} {offset v : Nat}
    (h : readUInt8 buffer offset = some v) : offset < buffer.length ∧ v < 256 := by
  unfold readUInt8 at h
  cases hb : buffer[offset]? with
  | none => simp [hb] at h
  | some b =>
    have hlt : offset < buffer.length := by
      rcases List.getElem?_eq_some.mp hb with ⟨hl, _⟩
      exact hl
    simp [hb] at h
    subst h
    exact ⟨hlt, UInt8.toNat_lt b⟩

theorem readUInt8_of_le {buffer : Buffer} {offset : Nat} (h : buffer.length ≤ offset) :
    readUInt8 buffer offset = none := by
  simp [readUInt8, List.getElem?_eq_none h]

theorem readUInt8_isSome {buffer : Buffer} {offset : Nat} (h : offset < buffer.length) :
    ∃ v, readUInt8 buffer offset = some v := by
  refine ⟨buffer[offset].toNat, ?_⟩
  simp [readUInt8, List.getElem?_eq_getElem h]

theorem readUInt8_append (pre rest : Buffer) (k : Nat) :
    readUInt8 (pre ++ rest) (pre.length + k) = readUInt8 rest k := by
  simp [readUInt8, List.getElem?_append_right]

theorem readUInt16BE_append (pre rest : Buffer) (k : Nat) :
    readUInt16BE (pre ++ rest) (pre.length + k) = readUInt16BE rest k := by
  simp only [readUInt16BE, Nat.add_assoc, readUInt8_append]

theorem readUInt32BE_append (pre rest : Buffer) (k : Nat) :
    readUInt32BE (pre ++ rest) (pre.length + k) = readUInt32BE rest k := by
  simp only [readUInt32BE, Nat.add_assoc, readUInt8_append]

theorem readInt32BE_append (pre rest : Buffer) (k : Nat) :
    readInt32BE (pre ++ rest) (pre.length + k) = readInt32BE rest k := by
  simp only [readInt32BE, readUInt32BE_append]

theorem subarray_append (pre rest : Buffer) (a b : Nat) :
    subarray (pre ++ rest) (pre.length + a) (pre.length + b) = subarray rest a b := by
  simp [subarray, List.take_append, List.drop_append]

theorem readUInt32BE_eq_some_le {buffer : Buffer} {offset v : Nat}
    (h : readUInt32BE buffer offset = some v) : offset + 4 ≤ buffer.length := by
  unfold readUInt32BE at h
  cases h3 : readUInt8 buffer (offset + 3) with
  | none =>
    cases h0 : readUInt8 buffer offset <;> cases h1 : readUInt8 buffer (offset + 1) <;>
      cases h2 : readUInt8 buffer (offset + 2) <;> simp [h0, h1, h2, h3] at h
  | some b => have := (readUInt8_eq_some_lt h3).1; omega

/-! ## The sub-parsers do not depend on what precedes the offset -/

theorem readItems_append (readValue : Buffer → Nat → Option Nat) (width : Nat)
    (hrv : ∀ (pre rest : Buffer) (k : Nat), readValue (pre ++ rest) (pre.length + k) = readValue rest k)
    (pre rest : Buffer) (n k : Nat) :
    readItems readValue width (pre ++ rest) n (pre.length + k) =
      (readItems readValue width rest n k).map fun x => (x.1, pre.length + x.2) := by
  induction n generalizing k with
  | zero => simp [readItems]
  | succ n ih =>
    simp only [readItems, Nat.add_assoc, readUInt8_append, hrv, ih]
    cases readUInt8 rest k with
    | none => rfl
    | some id =>
      cases readValue rest (k + 1) with
      | none => rfl
      | some v =>
        cases readItems readValue width rest n (k + (1 + width)) with
        | none => rfl
        | some x => rfl

theorem readItems8_append (pre rest : Buffer) (n k : Nat) :
    readItems8 (pre ++ rest) n (pre.length + k) =
      (readItems8 rest n k).map fun x => (x.1, pre.length + x.2) := by
  induction n generalizing k with
  | zero => simp [readItems8]
  | succ n ih =>
    simp only [readItems8, Nat.add_assoc, readUInt8_append, subarray_append, ih]
    cases readUInt8 rest k with
    | none => rfl
    | some id =>
      cases readItems8 rest n (k + (1 + 8)) with
      | none => rfl
      | some x => rfl

theorem parseIOGroups_append (pre rest : Buffer) (k : Nat) :
    parseIOGroups (pre ++ rest) (pre.length + k) =
      (parseIOGroups rest k).map fun x => (x.1, pre.length + x.2) := by
  simp only [parseIOGroups, Nat.add_assoc, readUInt8_append,
    readItems_append readUInt8 1 readUInt8_append,
    readItems_append readUInt16BE 2 readUInt16BE_append,
    readItems_append readUInt32BE 4 readUInt32BE_append, readItems8_append,
    Option.bind_eq_bind, Option.bind_map, Option.map_bind, Function.comp_def, Option.pure_def,
    Option.map_some']

theorem parseIOElement_append (pre rest : Buffer) (k : Nat) :
    parseIOElement (pre ++ rest) (pre.length + k) = parseIOElement rest k := by
  simp only [parseIOElement, parseIOGroups_append, List.length_append,
    Option.bind_eq_bind, Option.bind_map, Function.comp_def, Option.pure_def]
  have e : ∀ x : Nat, pre.length + x - (pre.length + k) = x - k := fun x => by omega
  simp only [e]
  by_cases h : k + 3 > rest.length
  · rw [if_pos (by omega), if_pos h]
  · rw [if_neg (by omega), if_neg h]

theorem parseGPSElement_append (pre rest : Buffer) (k : Nat) :
    parseGPSElement (pre ++ rest) (pre.length + k) = parseGPSElement rest k := by
  simp only [parseGPSElement, Nat.add_assoc, parseIOGroups_append, List.length_append,
    readInt32BE_append, readUInt16BE_append, readUInt8_append,
    Option.bind_eq_bind, Option.bind_map, Function.comp_def, Option.pure_def]
  have e : ∀ x : Nat, pre.length + x - (pre.length + k) = x - k := fun x => by omega
  simp only [e]
  by_cases h : k + 20 > rest.length
  · rw [if_pos (by omega), if_pos h]
  · rw [if_neg (by omega), if_neg h]

theorem readTimestamp_append (pre rest : Buffer) (k : Nat) :
    readTimestamp (pre ++ rest) (pre.length + k) =
      (readTimestamp rest k).map fun x => (x.1, pre.length + x.2) := by
  simp only [readTimestamp, Nat.add_assoc, List.length_append, readUInt32BE_append]
  by_cases h : k + 8 ≤ rest.length
  · rw [if_pos (by omega), if_pos h]
    simp only [Option.bind_eq_bind, Option.map_bind, Function.comp_def, Option.pure_def,
      Option.map_some']
  · rw [if_neg (by omega), if_neg h]
    simp only [Option.bind_eq_bind, Option.map_bind, Function.comp_def, Option.pure_def,
      Option.map_some']

theorem parseAVLRecord_append (pre rest : Buffer) (k : Nat) :
    parseAVLRecord (pre ++ rest) (pre.length + k) =
      (parseAVLRecord rest k).map (AVLRecord.shift pre.length) := by
  simp only [parseAVLRecord, readTimestamp_append, List.length_append,
    Option.bind_eq_bind, Option.bind_map, Option.map_bind, Function.comp_def, Option.pure_def,
    Option.map_some', Nat.add_assoc, readUInt8_append, parseGPSElement_append,
    parseIOElement_append, AVLRecord.shift]
  by_cases h : k + 4 > rest.length
  · rw [if_pos (by omega), if_pos h]; rfl
  · rw [if_neg (by omega), if_neg h]
    simp only [Option.map_bind, Function.comp_def, Option.map_some', AVLRecord.shift]
    congr 1; funext ts
    congr 1; funext pr
    congr 1; funext g
    have e1 : (pre.length + (ts.2 + (1 + g.size)) < pre.length + rest.length) =
        (ts.2 + (1 + g.size) < rest.length) := by
      apply propext; constructor <;> intro h' <;> omega
    simp only [e1]
    cases hio : (if ts.2 + (1 + g.size) < rest.length then
        parseIOElement rest (ts.2 + (1 + g.size)) else none) with
    | none => simp; omega
    | some io => simp; omega

theorem parseRecords_append (pre rest : Buffer) (n k : Nat) :
    parseRecords (pre ++ rest) n (pre.length + k) =
      (parseRecords rest n k).map fun x => (x.1.map (AVLRecord.shift pre.length), pre.length + x.2) := by
  induction n generalizing k with
  | zero => simp [parseRecords]
  | succ n ih =>
    simp only [parseRecords, parseAVLRecord_append, Option.bind_eq_bind, Option.bind_map,
      Option.map_bind, Function.comp_def, Option.pure_def, Option.map_some']
    congr 1; funext r
    simp only [AVLRecord.shift, ih, Option.bind_map, Function.comp_def, List.map_cons]

/-! ## Bytes standing at an offset -/

theorem holdsAt_append_left {buffer : Buffer} {offset : Nat} {s t : Buffer}
    (h : HoldsAt buffer offset (s ++ t)) : HoldsAt buffer offset s := by
  obtain ⟨post, hp⟩ := h
  exact ⟨t ++ post, by rw [hp, List.append_assoc]⟩

theorem holdsAt_append_right {buffer : Buffer} {offset : Nat} {s t : Buffer}
    (h : HoldsAt buffer offset (s ++ t)) : HoldsAt buffer (offset + s.length) t := by
  obtain ⟨post, hp⟩ := h
  refine ⟨post, ?_⟩
  rw [← List.drop_drop, hp, List.append_assoc, List.drop_left]

theorem holdsAt_shift {pre buffer : Buffer} {offset : Nat} {s : Buffer}
    (h : HoldsAt buffer offset s) : HoldsAt (pre ++ buffer) (pre.length + offset) s := by
  obtain ⟨post, hp⟩ := h
  exact ⟨post, by rw [List.drop_append, hp]⟩

theorem holdsAt_length {buffer : Buffer} {offset : Nat} {s : Buffer}
    (h : HoldsAt buffer offset s) (hs : 0 < s.length) : offset + s.length ≤ buffer.length := by
  obtain ⟨post, hp⟩ := h
  have := congrArg List.length hp
  simp only [List.length_drop, List.length_append] at this
  omega

theorem holdsAt_head {buffer : Buffer} {offset : Nat} {x : UInt8} {s : Buffer}
    (h : HoldsAt buffer offset (x :: s)) : buffer[offset]? = some x := by
  obtain ⟨post, hp⟩ := h
  have := List.getElem?_drop buffer offset 0
  rw [hp] at this
  simpa using this.symm

theorem holdsAt_tail {buffer : Buffer} {offset : Nat} {x : UInt8} {s : Buffer}
    (h : HoldsAt buffer offset (x :: s)) : HoldsAt buffer (offset + 1) s :=
  holdsAt_append_right (s := [x]) (t := s) h

theorem readUInt8_cons {buffer : Buffer} {offset : Nat} {x : UInt8} {s : Buffer}
    (h : HoldsAt buffer offset (x :: s)) : readUInt8 buffer offset = some x.toNat := by
  simp [readUInt8, holdsAt_head h]

theorem toNat_ofNat (n : Nat) : (UInt8.ofNat n).toNat = n % 256 := rfl

theorem readUInt8_write {buffer : Buffer} {offset n : Nat}
    (h : HoldsAt buffer offset (writeUInt8 n)) : readUInt8 buffer offset = some (n % 256) := by
  rw [readUInt8_cons h, toNat_ofNat]

theorem readUInt16BE_write {buffer : Buffer} {offset n : Nat}
    (h : HoldsAt buffer offset (writeUInt16BE n)) :
    readUInt16BE buffer offset = some (n % 65536) := by
  have h1 := holdsAt_tail h
  simp only [readUInt16BE, readUInt8_cons h, readUInt8_cons h1, toNat_ofNat,
    Option.bind_eq_bind, Option.some_bind, Option.pure_def, Option.some.injEq]
  omega

theorem readUInt32BE_write {buffer : Buffer} {offset n : Nat}
    (h : HoldsAt buffer offset (writeUInt32BE n)) :
    readUInt32BE buffer offset = some (n % 4294967296) := by
  have h1 := holdsAt_tail h
  have h2 := holdsAt_tail h1
  have h3 := holdsAt_tail h2
  simp only [readUInt32BE, readUInt8_cons h, readUInt8_cons h1, readUInt8_cons h2,
    readUInt8_cons h3, toNat_ofNat, Nat.add_assoc, Nat.reduceAdd,
    Option.bind_eq_bind, Option.some_bind, Option.pure_def, Option.some.injEq]
  omega

theorem readInt32BE_write {buffer : Buffer} {offset : Nat} {z : Int}
    (h : HoldsAt buffer offset (writeInt32BE z))
    (hz : -2147483648 ≤ z ∧ z < 2147483648) : readInt32BE buffer offset = some z := by
  simp only [readInt32BE, readUInt32BE_write h, Option.bind_eq_bind, Option.some_bind,
    Option.pure_def, Option.some.injEq]
  split <;> omega

theorem readTimestamp_write {buffer : Buffer} {offset n : Nat}
    (h : HoldsAt buffer offset (writeBigUInt64BE n)) (hn : n < 2 ^ 64) :
    readTimestamp buffer offset = some (toNumber n, offset + 8) := by
  have hl := holdsAt_length h (by simp [writeBigUInt64BE, writeUInt32BE])
  have hhi := readUInt32BE_write (holdsAt_append_left h)
  have hlo := readUInt32BE_write (holdsAt_append_right h)
  simp only [writeBigUInt64BE, writeUInt32BE, List.length_append, List.length_cons,
    List.length_nil] at hl hlo
  have e : n / 4294967296 % 4294967296 * 4294967296 + n % 4294967296 = n := by omega
  simp only [readTimestamp, if_pos (show offset + 8 ≤ buffer.length by omega), hhi, hlo,
    Option.bind_eq_bind, Option.some_bind, Option.pure_def, e]

theorem subarray_holds {buffer : Buffer} {offset : Nat} {s : Buffer}
    (h : HoldsAt buffer offset s) : subarray buffer offset (offset + s.length) = s := by
  obtain ⟨post, hp⟩ := h
  have e : subarray buffer offset (offset + s.length) = (buffer.drop offset).take s.length := by
    simp [subarray, List.drop_take]
  rw [e, hp, List.take_left]

/-! ## Reading back an encoded IO block and GPS element -/

theorem holdsAt_of_eq {buffer : Buffer} {offset offset' : Nat} {s : Buffer}
    (h : HoldsAt buffer offset s) (e : offset = offset') : HoldsAt buffer offset' s := e ▸ h

@[simp] theorem length_writeUInt8 (n : Nat) : (writeUInt8 n).length = 1 := rfl

@[simp] theorem length_writeUInt16BE (n : Nat) : (writeUInt16BE n).length = 2 := rfl

@[simp] theorem length_writeUInt32BE (n : Nat) : (writeUInt32BE n).length = 4 := rfl

@[simp] theorem length_writeInt32BE (z : Int) : (writeInt32BE z).length = 4 := rfl

@[simp] theorem length_writeBigUInt64BE (n : Nat) : (writeBigUInt64BE n).length = 8 := rfl

theorem readItems_encode (readValue : Buffer → Nat → Option Nat) (write : Nat → Buffer)
    (width bound : Nat) (hw : ∀ v, (write v).length = width)
    (hrv : ∀ (buffer : Buffer) (offset v : Nat), v < bound → HoldsAt buffer offset (write v) →
      readValue buffer offset = some v)
    {buffer : Buffer} (items : List IOItem) :
    ∀ {offset : Nat}, (∀ i ∈ items, i.id < 256 ∧ i.value < bound) →
      HoldsAt buffer offset (encodeItems write items) →
      readItems readValue width buffer items.length offset =
        some (items, offset + (encodeItems write items).length) := by
  induction items with
  | nil => intro offset _ _; simp [readItems, encodeItems]
  | cons i rest ih =>
    intro offset hv h
    have e : encodeItems write (i :: rest) =
        (writeUInt8 i.id ++ write i.value) ++ encodeItems write rest := by
      simp [encodeItems, List.flatMap_cons]
    rw [e] at h ⊢
    have hi := hv i (List.mem_cons_self _ _)
    have hid := readUInt8_write (holdsAt_append_left (holdsAt_append_left h))
    have hval := hrv buffer (offset + 1) i.value hi.2
      (holdsAt_of_eq (holdsAt_append_right (holdsAt_append_left h)) (by simp))
    have hrest := @ih (offset + 1 + width)
      (fun j hj => hv j (List.mem_cons_of_mem _ hj))
      (holdsAt_of_eq (holdsAt_append_right h) (by simp [hw]; omega))
    rw [Nat.mod_eq_of_lt hi.1] at hid
    simp only [List.length_cons, readItems, hid, hval, hrest, Option.bind_eq_bind,
      Option.some_bind, Option.pure_def, List.length_append, length_writeUInt8, hw,
      Option.some.injEq, Prod.mk.injEq, true_and]
    omega

theorem readItems8_encode {buffer : Buffer} (items : List (Nat × Buffer)) :
    ∀ {offset : Nat}, (∀ i ∈ items, i.1 < 256 ∧ i.2.length = 8) →
      HoldsAt buffer offset (encodeItems8 items) →
      readItems8 buffer items.length offset =
        some (items.map fun i => { id := i.1, value := toHex i.2 },
              offset + (encodeItems8 items).length) := by
  induction items with
  | nil => intro offset _ _; simp [readItems8, encodeItems8]
  | cons i rest ih =>
    intro offset hv h
    have e : encodeItems8 (i :: rest) = (writeUInt8 i.1 ++ i.2) ++ encodeItems8 rest := by
      simp [encodeItems8, List.flatMap_cons]
    rw [e] at h ⊢
    have hi := hv i (List.mem_cons_self _ _)
    have hid := readUInt8_write (holdsAt_append_left (holdsAt_append_left h))
    have hval : subarray buffer (offset + 1) (offset + 1 + 8) = i.2 := by
      have := subarray_holds (holdsAt_append_right (holdsAt_append_left h))
      simpa [hi.2] using this
    have hrest := @ih (offset + 1 + 8)
      (fun j hj => hv j (List.mem_cons_of_mem _ hj))
      (holdsAt_of_eq (holdsAt_append_right h) (by simp [hi.2]))
    rw [Nat.mod_eq_of_lt hi.1] at hid
    simp only [List.length_cons, readItems8, hid, hval, hrest, Option.bind_eq_bind,
      Option.some_bind, Option.pure_def, List.length_append, length_writeUInt8, hi.2,
      List.map_cons, Option.some.injEq, Prod.mk.injEq, true_and]
    omega

theorem readUInt8_write_lt {buffer : Buffer} {offset n : Nat} (hn : n < 256)
    (h : HoldsAt buffer offset (writeUInt8 n)) : readUInt8 buffer offset = some n := by
  rw [readUInt8_write h, Nat.mod_eq_of_lt hn]

theorem readUInt16BE_write_lt {buffer : Buffer} {offset n : Nat} (hn : n < 65536)
    (h : HoldsAt buffer offset (writeUInt16BE n)) : readUInt16BE buffer offset = some n := by
  rw [readUInt16BE_write h, Nat.mod_eq_of_lt hn]

theorem readUInt32BE_write_lt {buffer : Buffer} {offset n : Nat} (hn : n < 4294967296)
    (h : HoldsAt buffer offset (writeUInt32BE n)) : readUInt32BE buffer offset = some n := by
  rw [readUInt32BE_write h, Nat.mod_eq_of_lt hn]

theorem parseIOGroups_encode {buffer : Buffer} {offset : Nat} (io : IOBlock) (hv : io.Valid)
    (h : HoldsAt buffer offset io.encode) :
    parseIOGroups buffer offset = some (io.decoded, offset + io.encode.length) := by
  obtain ⟨hev, htot, hn1, hd1, hn2, hd2, hn4, hd4, hn8, hd8⟩ := hv
  have hlen : io.encode.length = 3 + (encodeItems writeUInt8 io.data1).length + 1 +
      (encodeItems writeUInt16BE io.data2).length + 1 +
      (encodeItems writeUInt32BE io.data4).length + 1 + (encodeItems8 io.data8).length := by
    simp only [IOBlock.encode, List.length_append, length_writeUInt8]
  unfold IOBlock.encode at h
  -- peel the block from the right
  have h8 := holdsAt_append_right h
  have h' := holdsAt_append_left h
  have hc8 := holdsAt_append_right h'
  have h' := holdsAt_append_left h'
  have h4 := holdsAt_append_right h'
  have h' := holdsAt_append_left h'
  have hc4 := holdsAt_append_right h'
  have h' := holdsAt_append_left h'
  have h2 := holdsAt_append_right h'
  have h' := holdsAt_append_left h'
  have hc2 := holdsAt_append_right h'
  have h' := holdsAt_append_left h'
  have h1 := holdsAt_append_right h'
  have h' := holdsAt_append_left h'
  have hc1 := holdsAt_append_right h'
  have h' := holdsAt_append_left h'
  have hto := holdsAt_append_right h'
  have hev' := holdsAt_append_left h'
  simp only [List.length_append, length_writeUInt8] at h8 hc8 h4 hc4 h2 hc2 h1 hc1 hto
  have r1 := readItems_encode readUInt8 writeUInt8 1 256 (fun _ => rfl)
    (fun b o v hv hh => readUInt8_write_lt hv hh) io.data1 hd1
    (holdsAt_of_eq h1 (show _ = offset + 3 by omega))
  have r2 := readItems_encode readUInt16BE writeUInt16BE 2 65536 (fun _ => rfl)
    (fun b o v hv hh => readUInt16BE_write_lt hv hh) io.data2 hd2
    (holdsAt_of_eq h2
      (show _ = offset + 3 + (encodeItems writeUInt8 io.data1).length + 1 by omega))
  have r4 := readItems_encode readUInt32BE writeUInt32BE 4 4294967296 (fun _ => rfl)
    (fun b o v hv hh => readUInt32BE_write_lt hv hh) io.data4 hd4
    (holdsAt_of_eq h4
      (show _ = offset + 3 + (encodeItems writeUInt8 io.data1).length + 1 +
        (encodeItems writeUInt16BE io.data2).length + 1 by omega))
  have r8 := readItems8_encode io.data8 hd8
    (holdsAt_of_eq h8
      (show _ = offset + 3 + (encodeItems writeUInt8 io.data1).length + 1 +
        (encodeItems writeUInt16BE io.data2).length + 1 +
        (encodeItems writeUInt32BE io.data4).length + 1 by omega))
  have c0 := readUInt8_write_lt hev hev'
  have c0' := readUInt8_write_lt htot hto
  have c1 := readUInt8_write_lt hn1 (holdsAt_of_eq hc1 (show _ = offset + 2 by omega))
  have c2 := readUInt8_write_lt hn2
    (holdsAt_of_eq hc2 (show _ = offset + 3 + (encodeItems writeUInt8 io.data1).length by omega))
  have c4 := readUInt8_write_lt hn4
    (holdsAt_of_eq hc4 (show _ = offset + 3 + (encodeItems writeUInt8 io.data1).length + 1 +
        (encodeItems writeUInt16BE io.data2).length by omega))
  have c8 := readUInt8_write_lt hn8
    (holdsAt_of_eq hc8 (show _ = offset + 3 + (encodeItems writeUInt8 io.data1).length + 1 +
        (encodeItems writeUInt16BE io.data2).length + 1 +
        (encodeItems writeUInt32BE io.data4).length by omega))
  simp only [parseIOGroups, c0, c0', c1, r1, c2, r2, c4, r4, c8, r8, Option.bind_eq_bind,
    Option.some_bind, Option.pure_def, IOBlock.decoded, hlen, Option.some.injEq, Prod.mk.injEq,
    true_and]
  omega

theorem parseIOElement_encode {buffer : Buffer} {offset : Nat} (io : IOBlock) (hv : io.Valid)
    (h : HoldsAt buffer offset io.encode) :
    parseIOElement buffer offset = some { data := io.decoded, size := io.encode.length } := by
  have hl := holdsAt_length h (by simp [IOBlock.encode])
  have h3 : 3 ≤ io.encode.length := by simp [IOBlock.encode]; omega
  simp only [parseIOElement, if_neg (show ¬ offset + 3 > buffer.length by omega),
    parseIOGroups_encode io hv h, Option.bind_eq_bind, Option.some_bind, Option.pure_def,
    Nat.add_sub_cancel_left]

theorem length_encodeGPS (r : WireRecord) : r.encodeGPS.length = 15 + r.io.encode.length := by
  simp only [WireRecord.encodeGPS, List.length_append, length_writeInt32BE,
    length_writeUInt16BE, length_writeUInt8]

theorem length_encode (r : WireRecord) : r.encode.length = 24 + r.io.encode.length := by
  simp only [WireRecord.encode, List.length_append, length_writeBigUInt64BE,
    length_writeUInt8, length_encodeGPS]
  omega

theorem six_le_length_encode (io : IOBlock) : 6 ≤ io.encode.length := by
  simp only [IOBlock.encode, List.length_append, length_writeUInt8]
  omega

theorem parseGPSElement_encode {buffer : Buffer} {offset : Nat} (r : WireRecord) (hv : r.Valid)
    (h : HoldsAt buffer offset r.encodeGPS) :
    parseGPSElement buffer offset = some { data := r.gpsElement, size := r.encodeGPS.length } := by
  obtain ⟨_, _, hlon, hlat, halt, hang, hsat, hspd, hio⟩ := hv
  have hl := holdsAt_length h (by rw [length_encodeGPS]; omega)
  have h6 := six_le_length_encode r.io
  have hlen := length_encodeGPS r
  unfold WireRecord.encodeGPS at h
  have pio := holdsAt_append_right h
  have h' := holdsAt_append_left h
  have pspd := holdsAt_append_right h'
  have h' := holdsAt_append_left h'
  have psat := holdsAt_append_right h'
  have h' := holdsAt_append_left h'
  have pang := holdsAt_append_right h'
  have h' := holdsAt_append_left h'
  have palt := holdsAt_append_right h'
  have h' := holdsAt_append_left h'
  have plat := holdsAt_append_right h'
  have plon := holdsAt_append_left h'
  simp only [List.length_append, length_writeInt32BE, length_writeUInt16BE,
    length_writeUInt8] at pio pspd psat pang palt plat
  have rio := parseIOGroups_encode r.io hio (holdsAt_of_eq pio (show _ = offset + 15 by omega))
  simp only [parseGPSElement, if_neg (show ¬ offset + 20 > buffer.length by omega),
    readInt32BE_write plon hlon, readInt32BE_write plat hlat,
    readUInt16BE_write_lt halt (holdsAt_of_eq palt (show _ = offset + 8 by omega)),
    readUInt16BE_write_lt hang (holdsAt_of_eq pang (show _ = offset + 10 by omega)),
    readUInt8_write_lt hsat (holdsAt_of_eq psat (show _ = offset + 12 by omega)),
    readUInt16BE_write_lt hspd (holdsAt_of_eq pspd (show _ = offset + 13 by omega)),
    rio, Option.bind_eq_bind, Option.some_bind, Option.pure_def, WireRecord.gpsElement,
    IOBlock.decoded, hlen, Option.some.injEq]
  congr 1
  omega

/-! ## How far the sub-parsers read -/

theorem readItems_stop_ge (readValue : Buffer → Nat → Option Nat) (width : Nat) (buffer : Buffer)
    (n : Nat) : ∀ (offset : Nat) (x : List IOItem × Nat),
      readItems readValue width buffer n offset = some x → offset ≤ x.2 := by
  induction n with
  | zero => intro offset x h; simp [readItems] at h; subst h; exact Nat.le_refl _
  | succ n ih =>
    intro offset x h
    simp only [readItems, Option.bind_eq_bind, Option.bind_eq_some, Option.pure_def,
      Option.some.injEq] at h
    obtain ⟨id, _, v, _, y, hy, rfl⟩ := h
    have := ih _ _ hy
    simp only
    omega

theorem readItems8_stop_ge (buffer : Buffer) (n : Nat) :
    ∀ (offset : Nat) (x : List IOItem8 × Nat),
      readItems8 buffer n offset = some x → offset ≤ x.2 := by
  induction n with
  | zero => intro offset x h; simp [readItems8] at h; subst h; exact Nat.le_refl _
  | succ n ih =>
    intro offset x h
    simp only [readItems8, Option.bind_eq_bind, Option.bind_eq_some, Option.pure_def,
      Option.some.injEq] at h
    obtain ⟨id, _, y, hy, rfl⟩ := h
    have := ih _ _ hy
    simp only
    omega

/-- A successful `parseIOGroups` has read six bytes at least, all of them
inside the buffer: the event id, the total and the four counts. -/
theorem parseIOGroups_some_le {buffer : Buffer} {offset : Nat} {x : IOElement × Nat}
    (h : parseIOGroups buffer offset = some x) :
    offset + 6 ≤ buffer.length ∧ offset + 6 ≤ x.2 := by
  simp only [parseIOGroups, Option.bind_eq_bind, Option.bind_eq_some, Option.pure_def,
    Option.some.injEq] at h
  obtain ⟨ev, _, tot, _, n1, _, x1, h1, n2, _, x2, h2, n4, _, x4, h4, n8, hn8, x8, h8, rfl⟩ := h
  have a1 := readItems_stop_ge _ _ _ _ _ _ h1
  have a2 := readItems_stop_ge _ _ _ _ _ _ h2
  have a4 := readItems_stop_ge _ _ _ _ _ _ h4
  have a8 := readItems8_stop_ge _ _ _ _ h8
  have b8 := (readUInt8_eq_some_lt hn8).1
  simp only
  omega

/-- With fewer than six bytes left, `parseIOElement` fails. -/
theorem parseIOElement_eq_none_of_short {buffer : Buffer} {offset : Nat}
    (h : buffer.length < offset + 6) : parseIOElement buffer offset = none := by
  unfold parseIOElement
  split
  · rfl
  · cases hg : parseIOGroups buffer offset with
    | none => rfl
    | some x => have := (parseIOGroups_some_le hg).1; omega

/-- With fewer than twenty bytes left, `parseGPSElement` fails. -/
theorem parseGPSElement_eq_none_of_short {buffer : Buffer} {offset : Nat}
    (h : buffer.length < offset + 20) : parseGPSElement buffer offset = none := by
  unfold parseGPSElement
  rw [if_pos (by omega)]

/-- The four-byte branch of the timestamp never ends in a record: the GPS
element that must follow needs twenty bytes. -/
theorem parseAVLRecord_eq_none_of_short {buffer : Buffer} {offset : Nat}
    (h : buffer.length < offset + 8) : parseAVLRecord buffer offset = none := by
  unfold parseAVLRecord
  split
  · rfl
  · simp only [readTimestamp, if_neg (show ¬ offset + 8 ≤ buffer.length by omega),
      Option.bind_eq_bind, Option.pure_def]
    cases readUInt32BE buffer offset with
    | none => rfl
    | some t =>
      simp only [Option.some_bind]
      cases readUInt8 buffer (offset + 4) with
      | none => rfl
      | some p =>
        simp only [Option.some_bind]
        rw [parseGPSElement_eq_none_of_short (by omega)]
        rfl

/-- A record that is followed by fewer than six bytes is read back as
encoded; the optional IO element after the GPS element is absent. -/
theorem parseAVLRecord_encode {buffer : Buffer} {offset : Nat} (r : WireRecord) (hv : r.Valid)
    (h : HoldsAt buffer offset r.encode) (hshort : buffer.length < offset + r.encode.length + 6) :
    parseAVLRecord buffer offset =
      some { data := { timestamp := toNumber r.timestamp, priority := r.priority,
                       gpsElement := r.gpsElement, ioElement := none }
             size := r.encode.length
             nextOffset := offset + r.encode.length } := by
  have hl := holdsAt_length h (by rw [length_encode]; omega)
  have hlen := length_encode r
  have hlenG := length_encodeGPS r
  have hv' := hv
  obtain ⟨hts, hpr, _⟩ := hv'
  unfold WireRecord.encode at h
  have pgps := holdsAt_append_right h
  have h' := holdsAt_append_left h
  have ppr := holdsAt_append_right h'
  have pts := holdsAt_append_left h'
  simp only [List.length_append, length_writeBigUInt64BE, length_writeUInt8] at pgps ppr
  have rgps := parseGPSElement_encode r hv (holdsAt_of_eq pgps (show _ = offset + 8 + 1 by omega))
  have rio : parseIOElement buffer (offset + 8 + 1 + r.encodeGPS.length) = none :=
    parseIOElement_eq_none_of_short (by omega)
  simp only [parseAVLRecord, if_neg (show ¬ offset + 4 > buffer.length by omega),
    readTimestamp_write pts hts, readUInt8_write_lt hpr ppr, rgps, rio,
    Option.bind_eq_bind, Option.some_bind, Option.pure_def, ite_self, Option.map_none',
    Option.some.injEq]
  congr 1 <;> omega

/-- A GPS element takes twenty-one bytes at least: fifteen of fixed fields
and the six that `parseIOGroups` always reads. -/
theorem parseGPSElement_eq_none_of_lt_21 {buffer : Buffer} {offset : Nat}
    (h : buffer.length < offset + 21) : parseGPSElement buffer offset = none := by
  unfold parseGPSElement
  split
  · rfl
  · cases hg : parseIOGroups buffer (offset + 15) with
    | none =>
      simp only [Option.bind_eq_bind, Option.bind_none, Option.bind_eq_none]
      intros
      simp_all
    | some x => have := (parseIOGroups_some_le hg).1; omega

/-- A record takes thirty bytes at least, whichever timestamp branch is
taken. -/
theorem parseAVLRecord_eq_none_of_lt_30 {buffer : Buffer} {offset : Nat}
    (h : buffer.length < offset + 30) : parseAVLRecord buffer offset = none := by
  by_cases h8 : buffer.length < offset + 8
  · exact parseAVLRecord_eq_none_of_short h8
  · unfold parseAVLRecord
    split
    · rfl
    · simp only [readTimestamp, if_pos (show offset + 8 ≤ buffer.length by omega),
        Option.bind_eq_bind, Option.pure_def]
      cases readUInt32BE buffer offset with
      | none => rfl
      | some hi =>
        cases readUInt32BE buffer (offset + 4) with
        | none => rfl
        | some lo =>
          simp only [Option.some_bind]
          cases readUInt8 buffer (offset + 8) with
          | none => rfl
          | some p =>
            simp only [Option.some_bind]
            rw [parseGPSElement_eq_none_of_lt_21 (by omega)]
            rfl

/-! ## Frames with one record -/

theorem length_writeAscii (imei : String) : (writeAscii imei).length = imei.length := by
  unfold writeAscii
  rw [List.length_map]
  rfl

theorem toAscii_writeAscii (imei : String) (h : ∀ c ∈ imei.data, 48 ≤ c.toNat ∧ c.toNat ≤ 57) :
    toAscii (writeAscii imei) = imei := by
  have e : (imei.data.map fun c => UInt8.ofNat c.toNat).map
      (fun b => Char.ofNat (b.toNat % 128)) = imei.data := by
    rw [List.map_map]
    conv => rhs; rw [← List.map_id imei.data]
    apply List.map_congr_left
    intro c hc
    have := h c hc
    simp only [Function.comp_apply, toNat_ofNat, id_eq]
    rw [show c.toNat % 256 % 128 = c.toNat by omega, Char.ofNat_toNat]
  simp only [toAscii, writeAscii, e]

theorem length_frame (preamble dataFieldLength : Nat) (imei : String)
    (codecId numberOfData1 : Nat) (records : List WireRecord) (numberOfData2 crc : Nat) :
    (frame preamble dataFieldLength imei codecId numberOfData1 records numberOfData2 crc).length
      = 16 + imei.length + (records.flatMap WireRecord.encode).length := by
  simp only [frame, List.length_append, length_writeUInt32BE, length_writeUInt8,
    length_writeAscii]
  omega

/-- What the decoder does on a frame that holds exactly one record after a
leading count of 1: it accepts it if and only if the trailing count is 1,
whatever the (accepted) preamble, the declared length, the codec id and the
checksum are. -/
theorem parse_frame_single (preamble dataFieldLength : Nat) (imei : String)
    (codecId : Nat) (r : WireRecord) (numberOfData2 crc : Nat)
    (hp : preamble = 0 ∨ preamble = 255)
    (hfit : 12 + dataFieldLength ≤
      (frame preamble dataFieldLength imei codecId 1 [r] numberOfData2 crc).length)
    (himei : ValidIMEI imei) (hc : codecId < 256) (hr : r.Valid) (hn2 : numberOfData2 < 256) :
    parseTeltonikaAVLPacket (frame preamble dataFieldLength imei codecId 1 [r] numberOfData2 crc)
      = if numberOfData2 = 1 then
          some { imei := imei, codecId := codecId, recordCount := 1,
                 records := [r.parsed imei.length] }
        else none := by
  have hlen := length_frame preamble dataFieldLength imei codecId 1 [r] numberOfData2 crc
  simp only [List.flatMap_cons, List.flatMap_nil, List.append_nil] at hlen
  have hrl := length_encode r
  have h6 := six_le_length_encode r.io
  generalize hb : frame preamble dataFieldLength imei codecId 1 [r] numberOfData2 crc = buffer
    at hfit hlen ⊢
  have h : HoldsAt buffer 0
      (frame preamble dataFieldLength imei codecId 1 [r] numberOfData2 crc) := by
    rw [hb]; exact ⟨[], by simp⟩
  unfold frame at h
  simp only [List.flatMap_cons, List.flatMap_nil, List.append_nil] at h
  have pcrc := holdsAt_append_right h
  have h' := holdsAt_append_left h
  have pn2 := holdsAt_append_right h'
  have h' := holdsAt_append_left h'
  have prec := holdsAt_append_right h'
  have h' := holdsAt_append_left h'
  have pn1 := holdsAt_append_right h'
  have h' := holdsAt_append_left h'
  have pcodec := holdsAt_append_right h'
  have h' := holdsAt_append_left h'
  have pimei := holdsAt_append_right h'
  have h' := holdsAt_append_left h'
  have pil := holdsAt_append_right h'
  have h' := holdsAt_append_left h'
  have pL := holdsAt_append_right h'
  have ppre := holdsAt_append_left h'
  simp only [List.length_append, length_writeUInt32BE, length_writeUInt8, length_writeAscii,
    Nat.zero_add] at pcrc pn2 prec pn1 pcodec pimei pil pL
  have rpre : readUInt32BE buffer 0 = some preamble :=
    readUInt32BE_write_lt (by omega) ppre
  have rL : readUInt32BE buffer 4 = some (dataFieldLength % 4294967296) :=
    readUInt32BE_write pL
  have ril : readUInt8 buffer 8 = some imei.length :=
    readUInt8_write_lt himei.1 (holdsAt_of_eq pil (by omega))
  have rimei : subarray buffer 9 (9 + imei.length) = writeAscii imei := by
    have := subarray_holds (holdsAt_of_eq pimei (show _ = 9 by omega))
    rwa [length_writeAscii] at this
  have rcodec : readUInt8 buffer (9 + imei.length) = some codecId :=
    readUInt8_write_lt hc (holdsAt_of_eq pcodec (by omega))
  have rn1 : readUInt8 buffer (9 + imei.length + 1) = some 1 :=
    readUInt8_write_lt (by omega) (holdsAt_of_eq pn1 (by omega))
  have rrec := @parseAVLRecord_encode buffer (9 + imei.length + 2) r hr
    (holdsAt_of_eq prec (by omega)) (by omega)
  have rn2 : readUInt8 buffer (9 + imei.length + 2 + r.encode.length) = some numberOfData2 :=
    readUInt8_write_lt hn2 (holdsAt_of_eq pn2 (by omega))
  have rcrc : readUInt32BE buffer (9 + imei.length + 2 + r.encode.length + 1)
      = some (crc % 4294967296) := readUInt32BE_write (holdsAt_of_eq pcrc (by omega))
  have hpre : ¬ (preamble ≠ TELTONIKA_PREAMBLE ∧ preamble ≠ TELTONIKA_PREAMBLE_ALT) := by
    simp only [TELTONIKA_PREAMBLE, TELTONIKA_PREAMBLE_ALT]; omega
  unfold parseTeltonikaAVLPacket
  rw [if_neg (show ¬ buffer.length < 12 by omega)]
  simp only [rpre, Option.bind_eq_bind, Option.some_bind]
  rw [if_neg hpre]
  simp only [rL, Option.bind_eq_bind, Option.some_bind]
  rw [if_neg (show ¬ buffer.length < 4 + 4 + dataFieldLength % 4294967296 + 4 by omega),
    if_neg (show ¬ 8 ≥ buffer.length by omega)]
  simp only [ril, Option.bind_eq_bind, Option.some_bind]
  rw [if_neg (show ¬ 9 + imei.length > buffer.length by omega),
    if_neg (show ¬ 9 + imei.length ≥ buffer.length by omega)]
  simp only [rcodec, Option.bind_eq_bind, Option.some_bind]
  rw [if_neg (show ¬ 9 + imei.length + 1 ≥ buffer.length by omega)]
  simp only [rn1, Option.bind_eq_bind, Option.some_bind, parseRecords, rrec, Option.pure_def]
  rw [if_neg (show ¬ 9 + imei.length + 2 + r.encode.length ≥ buffer.length by omega)]
  simp only [rn2, Option.bind_eq_bind, Option.some_bind]
  by_cases e : numberOfData2 = 1
  · rw [if_pos e, if_neg (fun h => h e.symm),
      if_neg (show ¬ 9 + imei.length + 2 + r.encode.length + 1 + 4 > buffer.length by omega)]
    simp only [rcrc, Option.bind_eq_bind, Option.some_bind, rimei,
      toAscii_writeAscii imei himei.2, WireRecord.parsed, Option.pure_def]
  · rw [if_neg e, if_pos (fun h => e h.symm)]

/-! ## The `data` handler: what is written for a decode outcome -/

theorem onData_of_parse_none {data : Buffer} (h : parseTeltonikaAVLPacket data = none)
    (s : ServerState) (connectionId now : Nat) (post : PostBody → Bool) :
    (onData s connectionId now data post).written = [[0x00]] ∧
    (onData s connectionId now data post).posted = [] ∧
    (onData s connectionId now data post).state.totalPacketsFailed = s.totalPacketsFailed + 1 ∧
    (onData s connectionId now data post).state.totalPacketsProcessed
      = s.totalPacketsProcessed := by
  simp [onData, onDataDecode, h]

theorem onData_of_parse_some {data : Buffer} {parsedData : Packet} {record : AVLRecord}
    {rest : List AVLRecord}
    (h : parseTeltonikaAVLPacket data = some parsedData)
    (hrec : parsedData.records = record :: rest)
    (s : ServerState) (connectionId now : Nat) :
    (onData s connectionId now data fun _ => true).written = [[0x01]] ∧
    (onData s connectionId now data fun _ => true).posted.length = 1 := by
  simp [onData, onDataDecode, h, forwardToWebApp, hrec, onDataForwarded]

/-- A frame whose first record starts less than thirty bytes before the end
of the buffer is rejected. -/
theorem parse_eq_none_of_record_short {buffer : Buffer} {imeiLength n : Nat}
    (hil : readUInt8 buffer 8 = some imeiLength)
    (hn1 : readUInt8 buffer (9 + imeiLength + 1) = some (n + 1))
    (hshort : buffer.length < 9 + imeiLength + 2 + 30) :
    parseTeltonikaAVLPacket buffer = none := by
  unfold parseTeltonikaAVLPacket
  simp only [hil, hn1, parseRecords, parseAVLRecord_eq_none_of_lt_30 hshort,
    Option.bind_eq_bind, Option.some_bind, Option.none_bind]
  split
  · rfl
  · cases readUInt32BE buffer 0 with
    | none => rfl
    | some p =>
      simp only [Option.some_bind]
      split
      · rfl
      · cases readUInt32BE buffer 4 with
        | none => rfl
        | some d =>
          simp only [Option.some_bind]
          repeat' split
          all_goals first | rfl | (cases readUInt8 buffer (9 + imeiLength) <;> rfl)

/-! ## C1: single-record round trip -/

/-- C1, counterexample: the frame `lateFrame` is laid out as the claim says
(preamble 0, declared length 27, a 15-digit IMEI, codec 8, one valid record,
both counts 1) and its record encodes the timestamp `2^53 + 1`, yet the
record returned by `parseTeltonikaAVLPacket` has timestamp `2^53`: the
decoded timestamp is not the encoded value. -/
theorem single_record_timestamp_not_exact :
    lateRecord.Valid ∧ ValidIMEI testIMEI ∧ 12 + 0x1B ≤ lateFrame.length ∧
    lateRecord.timestamp = 9007199254740993 ∧
    (parseTeltonikaAVLPacket lateFrame).map (fun p => p.records.map fun r => r.data.timestamp)
      = some [9007199254740992] := by
  decide

/-- C1, amended: for every frame laid out as `[preamble 0][declared length L
with 12 + L ≤ frame length][imei length][IMEI of ASCII digits][codec 8][N1 = 1]
[one record][N2 = 1][4 checksum bytes]`, `parseTeltonikaAVLPacket` succeeds
and returns that IMEI, codecId 8, recordCount 1 and exactly one record whose
priority, GPS fields and four IO lists equal the encoded values and whose
timestamp is the encoded value rounded to the nearest double, which is the
encoded value itself whenever that is below `2^53`. -/
theorem single_record_round_trip (dataFieldLength : Nat) (imei : String) (r : WireRecord)
    (crc : Nat)
    (hfit : 12 + dataFieldLength ≤ (frame 0 dataFieldLength imei 8 1 [r] 1 crc).length)
    (himei : ValidIMEI imei) (hr : r.Valid) :
    ∃ record : AVLRecord,
      parseTeltonikaAVLPacket (frame 0 dataFieldLength imei 8 1 [r] 1 crc) =
        some { imei := imei, codecId := 8, recordCount := 1, records := [record] } ∧
      record.data.timestamp = toNumber r.timestamp ∧
      (r.timestamp < 2 ^ 53 → record.data.timestamp = r.timestamp) ∧
      record.data.priority = r.priority ∧
      record.data.gpsElement.longitude = (r.longitude : ℚ) / 10000000 ∧
      record.data.gpsElement.latitude = (r.latitude : ℚ) / 10000000 ∧
      record.data.gpsElement.altitude = r.altitude ∧
      record.data.gpsElement.angle = r.angle ∧
      record.data.gpsElement.satellites = r.satellites ∧
      record.data.gpsElement.speed = r.speed ∧
      record.data.gpsElement.eventIOID = r.io.eventIOID ∧
      record.data.gpsElement.nOfTotalIO = r.io.nOfTotalIO ∧
      record.data.gpsElement.data1 = r.io.data1 ∧
      record.data.gpsElement.data2 = r.io.data2 ∧
      record.data.gpsElement.data4 = r.io.data4 ∧
      record.data.gpsElement.data8 =
        r.io.data8.map fun i => { id := i.1, value := toHex i.2 } := by
  refine ⟨r.parsed imei.length, ?_, rfl, ?_, rfl, rfl, rfl, rfl, rfl, rfl, rfl, rfl, rfl, rfl,
    rfl, rfl, rfl⟩
  · rw [parse_frame_single 0 dataFieldLength imei 8 r 1 crc (Or.inl rfl) hfit himei
      (by omega) hr (by omega), if_pos rfl]
  · intro h
    show toNumber r.timestamp = r.timestamp
    unfold toNumber
    rw [if_pos h]

/-- C1, witness: the packet of `final-working-test.js` is such a frame; it
decodes to one record with the timestamp `0x16B40D8EA30`, priority 1,
longitude 0, latitude 0 and `data1 = [{ id: 1, value: 1 }]`. -/
theorem single_record_round_trip_witness :
    ∃ record : AVLRecord,
      parseTeltonikaAVLPacket minimalAVLPacket =
        some { imei := "123456789012345", codecId := 8, recordCount := 1,
               records := [record] } ∧
      record.data.timestamp = 0x16B40D8EA30 ∧ record.data.priority = 1 ∧
      record.data.gpsElement.longitude = 0 ∧ record.data.gpsElement.latitude = 0 ∧
      record.data.gpsElement.data1 = [{ id := 1, value := 1 }] := by
  have hf : frame 0 0x1B testIMEI 8 1 [minimalRecord] 1 0xF22A = minimalAVLPacket := by decide
  obtain ⟨record, h, _, hts, hpr, hlon, hlat, _, _, _, _, _, _, hd1, _⟩ :=
    single_record_round_trip 0x1B testIMEI minimalRecord 0xF22A
      (by decide) (by decide) (by decide)
  rw [hf] at h
  refine ⟨record, h, ?_, ?_, ?_, ?_, ?_⟩
  · rw [hts (by decide)]; rfl
  · rw [hpr]; rfl
  · rw [hlon]; simp [minimalRecord]
  · rw [hlat]; simp [minimalRecord]
  · rw [hd1]; rfl

/-! ## C2: frames with several records -/

/-- C2, the code at the failing input: `twoRecordFrame` holds two valid
records back to back between equal counts 2, its declared length is exact,
and record 2 starts at offset 56. Parsing record 1 nevertheless ends at offset
64: the optional `parseIOElement` after its GPS element has read the eight
timestamp bytes of record 2 as an IO element. The decoder then returns `null`
for the whole frame. -/
theorem two_record_frame_rejected :
    recordA.Valid ∧ recordB.Valid ∧ ValidIMEI testIMEI ∧
    twoRecordFrame.length = 4 + 4 + 79 + 4 ∧
    HoldsAt twoRecordFrame 56 recordB.encode ∧
    (parseAVLRecord twoRecordFrame 26).map (fun r => r.nextOffset) = some 64 ∧
    parseTeltonikaAVLPacket twoRecordFrame = none := by
  refine ⟨by decide, by decide, by decide, by decide, ⟨[2, 0, 0, 0, 0], by decide⟩, by decide,
    by decide⟩

/-! ## C3 and C6: the declared length -/

/-- C3: a buffer of at least 12 bytes that is shorter than
`4 + 4 + declaredLength + 4` is rejected; the result is `null`, never a
packet. -/
theorem declared_length_too_long_rejected (buffer : Buffer) (declaredLength : Nat)
    (h12 : 12 ≤ buffer.length) (hd : readUInt32BE buffer 4 = some declaredLength)
    (hshort : buffer.length < 4 + 4 + declaredLength + 4) :
    parseTeltonikaAVLPacket buffer = none := by
  unfold parseTeltonikaAVLPacket
  rw [if_neg (by omega), hd]
  cases readUInt32BE buffer 0 with
  | none => rfl
  | some p =>
    show (if p ≠ TELTONIKA_PREAMBLE ∧ p ≠ TELTONIKA_PREAMBLE_ALT then none else _) = none
    split
    · rfl
    · show (if buffer.length < 4 + 4 + declaredLength + 4 then none else _) = none
      rw [if_pos hshort]

/-- C3, witness: twelve zero bytes but for a declared length of 1. -/
theorem declared_length_too_long_rejected_witness :
    parseTeltonikaAVLPacket [0, 0, 0, 0, 0, 0, 0, 1, 0, 0, 0, 0] = none :=
  declared_length_too_long_rejected [0, 0, 0, 0, 0, 0, 0, 1, 0, 0, 0, 0] 1
    (by decide) (by decide) (by decide)

/-- C6, counterexample: the packet of `final-working-test.js` has 63 bytes
and declares a data field of 27 bytes, so that `4 + 4 + 27 + 4 = 39` is not
its length; it is accepted all the same. -/
theorem longer_than_declared_accepted :
    readUInt32BE minimalAVLPacket 4 = some 27 ∧ minimalAVLPacket.length = 63 ∧
    minimalAVLPacket.length ≠ 4 + 4 + 27 + 4 ∧
    (parseTeltonikaAVLPacket minimalAVLPacket).isSome = true := by
  decide

/-- C6, amended: `parseTeltonikaAVLPacket` rejects every buffer whose total
length is smaller than `4 + 4 + declaredLength + 4`; that is, whenever it
returns a packet the buffer has at least that many bytes (it may have more). -/
theorem accepted_length_at_least_declared (buffer : Buffer)
    (h : (parseTeltonikaAVLPacket buffer).isSome = true) :
    ∃ declaredLength, readUInt32BE buffer 4 = some declaredLength ∧
      4 + 4 + declaredLength + 4 ≤ buffer.length := by
  unfold parseTeltonikaAVLPacket at h
  split at h
  · exact absurd h (by simp)
  · cases h0 : readUInt32BE buffer 0 with
    | none => rw [h0] at h; exact absurd h (by simp)
    | some p =>
      rw [h0] at h
      change (if p ≠ TELTONIKA_PREAMBLE ∧ p ≠ TELTONIKA_PREAMBLE_ALT then none else _).isSome
        = true at h
      split at h
      · exact absurd h (by simp)
      · cases hd : readUInt32BE buffer 4 with
        | none => rw [hd] at h; exact absurd h (by simp)
        | some d =>
          rw [hd] at h
          change (if buffer.length < 4 + 4 + d + 4 then none else _).isSome = true at h
          split at h
          · exact absurd h (by simp)
          · exact ⟨d, rfl, by omega⟩

/-- C6, witness: the packet of `final-working-test.js`, which is accepted,
declares 27 and has `39 ≤ 63` bytes. -/
theorem accepted_length_at_least_declared_witness :
    (parseTeltonikaAVLPacket minimalAVLPacket).isSome = true ∧
    ∃ declaredLength, readUInt32BE minimalAVLPacket 4 = some declaredLength ∧
      4 + 4 + declaredLength + 4 ≤ minimalAVLPacket.length :=
  ⟨by decide, accepted_length_at_least_declared minimalAVLPacket (by decide)⟩

/-! ## C4: the two record counts -/

/-- C4, the code at the failing input: `mismatchFrame` is laid out per the
wire format with two valid records, leading count 2 and trailing count 7 (the
byte at offset 106, followed by the four checksum bytes), and its declared
length is exact. The decoder accepts it and reports two records: parsing
record 1 swallows the timestamp of record 2 as an optional IO element, the
second record is then read out of step, and the byte taken for the trailing
count is the 4-byte group count 2 of record 2. -/
theorem mismatch_frame_accepted :
    recordA.Valid ∧ recordC.Valid ∧ ValidIMEI testIMEI ∧
    mismatchFrame.length = 4 + 4 + 99 + 4 ∧
    readUInt8 mismatchFrame 25 = some 2 ∧ readUInt8 mismatchFrame 106 = some 7 ∧
    (parseTeltonikaAVLPacket mismatchFrame).map (fun p => (p.recordCount, p.records.length))
      = some (2, 2) := by
  decide

/-- With one record between the counts the check works: the frame is
accepted exactly when the trailing count is 1. This is `parse_frame_single`
read for the counts alone. -/
theorem single_record_count_mismatch_rejected (dataFieldLength : Nat) (imei : String)
    (codecId : Nat) (r : WireRecord) (numberOfData2 crc : Nat)
    (hfit : 12 + dataFieldLength ≤
      (frame 0 dataFieldLength imei codecId 1 [r] numberOfData2 crc).length)
    (himei : ValidIMEI imei) (hc : codecId < 256) (hr : r.Valid) (hn2 : numberOfData2 < 256)
    (hne : numberOfData2 ≠ 1) :
    parseTeltonikaAVLPacket (frame 0 dataFieldLength imei codecId 1 [r] numberOfData2 crc)
      = none := by
  rw [parse_frame_single 0 dataFieldLength imei codecId r numberOfData2 crc (Or.inl rfl) hfit
    himei hc hr hn2, if_neg hne]

/-! ## C5: buffers shorter than 12 bytes -/

/-- C5: a buffer shorter than 12 bytes is rejected at the first check of
`parseTeltonikaAVLPacket`, and the `data` handler then writes the single byte
`0x00` and posts nothing, whatever the state and the downstream are. -/
theorem short_buffer_rejected (buffer : Buffer) (h : buffer.length < 12) :
    parseTeltonikaAVLPacket buffer = none ∧
    ∀ (s : ServerState) (connectionId now : Nat) (post : PostBody → Bool),
      (onData s connectionId now buffer post).written = [[0x00]] ∧
      (onData s connectionId now buffer post).posted = [] := by
  have hp : parseTeltonikaAVLPacket buffer = none := by
    unfold parseTeltonikaAVLPacket
    rw [if_pos h]
  refine ⟨hp, fun s connectionId now post => ?_⟩
  have := onData_of_parse_none hp s connectionId now post
  exact ⟨this.1, this.2.1⟩

/-- C5, witness: the 3-byte buffer `01 02 03` of `test-connection.js`. -/
theorem short_buffer_rejected_witness :
    parseTeltonikaAVLPacket [0x01, 0x02, 0x03] = none ∧
    ∀ (s : ServerState) (connectionId now : Nat) (post : PostBody → Bool),
      (onData s connectionId now [0x01, 0x02, 0x03] post).written = [[0x00]] ∧
      (onData s connectionId now [0x01, 0x02, 0x03] post).posted = [] :=
  short_buffer_rejected [0x01, 0x02, 0x03] (by decide)

/-- The empty buffer of `test-connection.js` is rejected in the same way. -/
theorem empty_buffer_rejected :
    parseTeltonikaAVLPacket [] = none ∧
    (onData initialState 1 0 [] fun _ => true).written = [[0x00]] := by
  decide

/-! ## C7: the preamble -/

/-- C7, counterexample: `altPreamblePacket` starts with `00 00 00 FF`, a
preamble that is not zero, and is accepted. -/
theorem alt_preamble_accepted :
    altPreamblePacket.take 4 = [0x00, 0x00, 0x00, 0xFF] ∧
    readUInt32BE altPreamblePacket 0 = some 255 ∧
    (parseTeltonikaAVLPacket altPreamblePacket).map (fun p => (p.imei, p.recordCount))
      = some ("123456789012345", 1) := by
  decide

/-- C7, amended: `parseTeltonikaAVLPacket` returns `null` for every buffer
whose first four bytes (big-endian uint32) are neither `0x00000000` nor the
alternative preamble `0x000000FF`. -/
theorem invalid_preamble_rejected (buffer : Buffer)
    (h0 : readUInt32BE buffer 0 ≠ some TELTONIKA_PREAMBLE)
    (h1 : readUInt32BE buffer 0 ≠ some TELTONIKA_PREAMBLE_ALT) :
    parseTeltonikaAVLPacket buffer = none := by
  unfold parseTeltonikaAVLPacket
  split
  · rfl
  · cases hp : readUInt32BE buffer 0 with
    | none => rfl
    | some p =>
      rw [hp] at h0 h1
      show (if p ≠ TELTONIKA_PREAMBLE ∧ p ≠ TELTONIKA_PREAMBLE_ALT then none else _) = none
      rw [if_pos ⟨fun e => h0 (by rw [e]), fun e => h1 (by rw [e])⟩]

/-- C7, witness: the packet of `final-working-test.js` with preamble
`00 00 00 01`. -/
theorem invalid_preamble_rejected_witness :
    parseTeltonikaAVLPacket (frame 1 0x1B testIMEI 8 1 [minimalRecord] 1 0xF22A) = none :=
  invalid_preamble_rejected (frame 1 0x1B testIMEI 8 1 [minimalRecord] 1 0xF22A)
    (by decide) (by decide)

/-! ## C8: the codec id -/

/-- C8, counterexample: `codec7Packet` is the packet of
`final-working-test.js` with codec id 7; the decoder returns a packet with
`codecId = 7`, and the handler forwards it and answers `0x01`. -/
theorem codec7_accepted :
    readUInt8 codec7Packet 24 = some 7 ∧
    (parseTeltonikaAVLPacket codec7Packet).map (fun p => p.codecId) = some 7 ∧
    (onData initialState 1 0 codec7Packet fun _ => true).written = [[0x01]] ∧
    (onData initialState 1 0 codec7Packet fun _ => true).posted.length = 1 := by
  decide

/-- C8, amended: the codec id byte is not checked. Every well-formed
single-record frame is decoded whatever its codec id byte `c` is, the packet
returned has `codecId = c` (so `codecId = 8` exactly when the byte is 8), and
with a downstream that accepts the post the handler forwards the packet and
answers `0x01`. -/
theorem codec_id_not_checked (dataFieldLength : Nat) (imei : String) (codecId : Nat)
    (r : WireRecord) (crc : Nat)
    (hfit : 12 + dataFieldLength ≤ (frame 0 dataFieldLength imei codecId 1 [r] 1 crc).length)
    (himei : ValidIMEI imei) (hc : codecId < 256) (hr : r.Valid) :
    (parseTeltonikaAVLPacket (frame 0 dataFieldLength imei codecId 1 [r] 1 crc)).map
      (fun p => p.codecId) = some codecId ∧
    ∀ (s : ServerState) (connectionId now : Nat),
      (onData s connectionId now (frame 0 dataFieldLength imei codecId 1 [r] 1 crc)
        fun _ => true).written = [[0x01]] ∧
      (onData s connectionId now (frame 0 dataFieldLength imei codecId 1 [r] 1 crc)
        fun _ => true).posted.length = 1 := by
  have hp := parse_frame_single 0 dataFieldLength imei codecId r 1 crc (Or.inl rfl) hfit himei
    hc hr (by omega)
  rw [if_pos rfl] at hp
  refine ⟨by rw [hp]; rfl, fun s connectionId now => ?_⟩
  exact onData_of_parse_some hp rfl s connectionId now

/-- C8, witness: the packet of `final-working-test.js` with codec id 7. -/
theorem codec_id_not_checked_witness :
    (parseTeltonikaAVLPacket (frame 0 0x1B testIMEI 7 1 [minimalRecord] 1 0xF22A)).map
      (fun p => p.codecId) = some 7 ∧
    ∀ (s : ServerState) (connectionId now : Nat),
      (onData s connectionId now (frame 0 0x1B testIMEI 7 1 [minimalRecord] 1 0xF22A)
        fun _ => true).written = [[0x01]] ∧
      (onData s connectionId now (frame 0 0x1B testIMEI 7 1 [minimalRecord] 1 0xF22A)
        fun _ => true).posted.length = 1 :=
  codec_id_not_checked 0x1B testIMEI 7 minimalRecord 0xF22A
    (by decide) (by decide) (by decide) (by decide)

/-! ## C9 and C10: the four-byte timestamp -/

/-- C9, the code on every input of the claim: when fewer than 8 but at least
4 bytes remain at the record's start, `parseAVLRecord` takes the four-byte
branch and then returns `null`, because the GPS element that follows must
have twenty bytes. No record is ever returned through that branch. -/
theorem legacy_timestamp_never_accepted (buffer : Buffer) (offset : Nat)
    (h4 : offset + 4 ≤ buffer.length) (h8 : buffer.length < offset + 8) :
    (readTimestamp buffer offset).map (fun t => t.2) = some (offset + 4) ∧
    parseAVLRecord buffer offset = none := by
  refine ⟨?_, parseAVLRecord_eq_none_of_short h8⟩
  unfold readTimestamp
  rw [if_neg (by omega)]
  obtain ⟨b0, h0⟩ := readUInt8_isSome (show offset < buffer.length by omega)
  obtain ⟨b1, h1⟩ := readUInt8_isSome (show offset + 1 < buffer.length by omega)
  obtain ⟨b2, h2⟩ := readUInt8_isSome (show offset + 2 < buffer.length by omega)
  obtain ⟨b3, h3⟩ := readUInt8_isSome (show offset + 3 < buffer.length by omega)
  simp only [readUInt32BE, h0, h1, h2, h3, Option.bind_eq_bind, Option.some_bind,
    Option.pure_def, Option.map_some']

/-- C9, witness: a four-byte timestamp `0x0000018C`, a priority byte and two
more bytes. -/
theorem legacy_timestamp_never_accepted_witness :
    (readTimestamp [0x00, 0x00, 0x01, 0x8C, 0x00, 0x00, 0x00] 0).map (fun t => t.2)
      = some (0 + 4) ∧
    parseAVLRecord [0x00, 0x00, 0x01, 0x8C, 0x00, 0x00, 0x00] 0 = none :=
  legacy_timestamp_never_accepted [0x00, 0x00, 0x01, 0x8C, 0x00, 0x00, 0x00] 0
    (by decide) (by decide)

theorem length_createTestAVLPacket (imei : String) (seconds : Nat) :
    (createTestAVLPacket imei seconds).length = 40 + imei.length := by
  simp only [createTestAVLPacket, List.length_append, length_writeUInt32BE, length_writeUInt8,
    length_writeAscii, length_writeInt32BE, length_writeUInt16BE]
  omega

/-- C10, the code on every input of the claim: the packet built by
`createTestAVLPacket` is rejected by `parseTeltonikaAVLPacket`, for every
IMEI of digits and every clock reading, and the handler answers `0x00`
without forwarding. Only 29 bytes follow the leading count (a four-byte
timestamp, an IO block of two counts), where a record takes 30 at least. -/
theorem createTestAVLPacket_rejected (imei : String) (seconds : Nat) (himei : ValidIMEI imei) :
    parseTeltonikaAVLPacket (createTestAVLPacket imei seconds) = none ∧
    ∀ (s : ServerState) (connectionId now : Nat) (post : PostBody → Bool),
      (onData s connectionId now (createTestAVLPacket imei seconds) post).written = [[0x00]] ∧
      (onData s connectionId now (createTestAVLPacket imei seconds) post).posted = [] := by
  have hlen := length_createTestAVLPacket imei seconds
  generalize hb : createTestAVLPacket imei seconds = buffer at hlen ⊢
  have h : HoldsAt buffer 0 (createTestAVLPacket imei seconds) := by
    rw [hb]; exact ⟨[], by simp⟩
  unfold createTestAVLPacket at h
  simp only [List.append_assoc] at h
  have p1 := holdsAt_append_right h
  have p2 := holdsAt_append_right p1
  have pil := holdsAt_append_left p2
  have p3 := holdsAt_append_right p2
  have p4 := holdsAt_append_right p3
  have p5 := holdsAt_append_right p4
  have pn1 := holdsAt_append_left p5
  simp only [length_writeUInt32BE, length_writeUInt8, length_writeAscii] at pil pn1
  have ril : readUInt8 buffer 8 = some imei.length :=
    readUInt8_write_lt himei.1 (holdsAt_of_eq pil (by omega))
  have rn1 : readUInt8 buffer (9 + imei.length + 1) = some (0 + 1) :=
    readUInt8_write_lt (by omega) (holdsAt_of_eq pn1 (by omega))
  have hp : parseTeltonikaAVLPacket buffer = none :=
    parse_eq_none_of_record_short ril rn1 (by omega)
  refine ⟨hp, fun s connectionId now post => ?_⟩
  have := onData_of_parse_none hp s connectionId now post
  exact ⟨this.1, this.2.1⟩

/-- C10, witness: the two packets that `test-connection.js` sends and
expects `0x01` for. -/
theorem createTestAVLPacket_rejected_witness :
    (parseTeltonikaAVLPacket (createTestAVLPacket "123456789012345" 1700000000) = none ∧
     ∀ (s : ServerState) (connectionId now : Nat) (post : PostBody → Bool),
      (onData s connectionId now (createTestAVLPacket "123456789012345" 1700000000)
        post).written = [[0x00]] ∧
      (onData s connectionId now (createTestAVLPacket "123456789012345" 1700000000)
        post).posted = []) ∧
    parseTeltonikaAVLPacket (createTestAVLPacket "987654321098765" 1700000000) = none :=
  ⟨createTestAVLPacket_rejected "123456789012345" 1700000000 (by decide), by decide⟩

/-! ## What a returned packet says about the buffer -/

/-- Reading `parseTeltonikaAVLPacket` backwards: every check passed and every
field of the packet is what was read on the way. -/
theorem parse_some_inv {buffer : Buffer} {packet : Packet}
    (h : parseTeltonikaAVLPacket buffer = some packet) :
    ∃ preamble dataFieldLength imeiLength codecId numberOfData1 records offset,
      readUInt32BE buffer 0 = some preamble ∧ (preamble = 0 ∨ preamble = 255) ∧
      readUInt32BE buffer 4 = some dataFieldLength ∧
      4 + 4 + dataFieldLength + 4 ≤ buffer.length ∧
      readUInt8 buffer 8 = some imeiLength ∧ 9 + imeiLength < buffer.length ∧
      readUInt8 buffer (9 + imeiLength) = some codecId ∧
      readUInt8 buffer (9 + imeiLength + 1) = some numberOfData1 ∧
      parseRecords buffer numberOfData1 (9 + imeiLength + 2) = some (records, offset) ∧
      readUInt8 buffer offset = some numberOfData1 ∧ offset + 1 + 4 ≤ buffer.length ∧
      packet = { imei := toAscii (subarray buffer 9 (9 + imeiLength)), codecId := codecId,
                 recordCount := numberOfData1, records := records } := by
  unfold parseTeltonikaAVLPacket at h
  by_cases h12 : buffer.length < 12
  · rw [if_pos h12] at h; cases h
  rw [if_neg h12] at h
  cases h0 : readUInt32BE buffer 0 with
  | none => rw [h0] at h; cases h
  | some p =>
  rw [h0] at h
  change (if p ≠ TELTONIKA_PREAMBLE ∧ p ≠ TELTONIKA_PREAMBLE_ALT then none else _)
    = some packet at h
  by_cases hpre : p ≠ TELTONIKA_PREAMBLE ∧ p ≠ TELTONIKA_PREAMBLE_ALT
  · rw [if_pos hpre] at h; cases h
  rw [if_neg hpre] at h
  cases hd : readUInt32BE buffer 4 with
  | none => rw [hd] at h; cases h
  | some d =>
  rw [hd] at h
  change (if buffer.length < 4 + 4 + d + 4 then none else _) = some packet at h
  by_cases hlen : buffer.length < 4 + 4 + d + 4
  · rw [if_pos hlen] at h; cases h
  rw [if_neg hlen, if_neg (show ¬ 8 ≥ buffer.length by omega)] at h
  cases hil : readUInt8 buffer 8 with
  | none => rw [hil] at h; cases h
  | some n =>
  rw [hil] at h
  change (if 9 + n > buffer.length then none else _) = some packet at h
  by_cases hi1 : 9 + n > buffer.length
  · rw [if_pos hi1] at h; cases h
  rw [if_neg hi1] at h
  change (if 9 + n ≥ buffer.length then none else _) = some packet at h
  by_cases hi2 : 9 + n ≥ buffer.length
  · rw [if_pos hi2] at h; cases h
  rw [if_neg hi2] at h
  cases hc : readUInt8 buffer (9 + n) with
  | none => rw [hc] at h; cases h
  | some c =>
  rw [hc] at h
  change (if 9 + n + 1 ≥ buffer.length then none else _) = some packet at h
  by_cases hi3 : 9 + n + 1 ≥ buffer.length
  · rw [if_pos hi3] at h; cases h
  rw [if_neg hi3] at h
  cases hn1 : readUInt8 buffer (9 + n + 1) with
  | none => rw [hn1] at h; cases h
  | some n1 =>
  rw [hn1] at h
  change (parseRecords buffer n1 (9 + n + 2) >>= _) = some packet at h
  cases hr : parseRecords buffer n1 (9 + n + 2) with
  | none => rw [hr] at h; cases h
  | some x =>
  obtain ⟨records, offset⟩ := x
  rw [hr] at h
  change (if offset ≥ buffer.length then none else _) = some packet at h
  by_cases hi4 : offset ≥ buffer.length
  · rw [if_pos hi4] at h; cases h
  rw [if_neg hi4] at h
  cases hn2 : readUInt8 buffer offset with
  | none => rw [hn2] at h; cases h
  | some n2 =>
  rw [hn2] at h
  change (if n1 ≠ n2 then none else _) = some packet at h
  by_cases hne : n1 ≠ n2
  · rw [if_pos hne] at h; cases h
  rw [if_neg hne] at h
  by_cases hi5 : offset + 1 + 4 > buffer.length
  · rw [if_pos hi5] at h; cases h
  rw [if_neg hi5] at h
  cases hcrc : readUInt32BE buffer (offset + 1) with
  | none => rw [hcrc] at h; cases h
  | some crc =>
  rw [hcrc] at h
  have hpk : packet = Packet.mk (toAscii (subarray buffer 9 (9 + n))) c n1 records :=
    (Option.some.inj h).symm
  have hn12 : n2 = n1 := by
    by_contra hx; exact hne (fun e => hx e.symm)
  refine ⟨p, d, n, c, n1, records, offset, rfl, ?_, rfl, by omega, rfl, by omega, hc, hn1,
    hr, by rw [hn2, hn12], by omega, hpk⟩
  simp only [TELTONIKA_PREAMBLE, TELTONIKA_PREAMBLE_ALT] at hpre
  omega

theorem length_subarray {buffer : Buffer} {start stop : Nat} (h : stop ≤ buffer.length) :
    (subarray buffer start stop).length = stop - start := by
  simp only [subarray, List.length_drop, List.length_take]
  omega

theorem length_toAscii (buffer : Buffer) : (toAscii buffer).length = buffer.length := by
  unfold toAscii
  show (List.map _ buffer).length = buffer.length
  rw [List.length_map]

/-! ## From a successful read to the bytes in the buffer -/

theorem ofNat_toNat (x : UInt8) : UInt8.ofNat x.toNat = x :=
  UInt8.ext (by rw [toNat_ofNat]; exact Nat.mod_eq_of_lt (UInt8.toNat_lt x))

theorem ofNat_eq_of_mod_eq {a b : Nat} (h : a % 256 = b % 256) : UInt8.ofNat a = UInt8.ofNat b :=
  UInt8.ext (by rw [toNat_ofNat, toNat_ofNat, h])

theorem holdsAt_nil (buffer : Buffer) (offset : Nat) : HoldsAt buffer offset [] :=
  ⟨buffer.drop offset, rfl⟩

theorem holdsAt_join {buffer : Buffer} {offset : Nat} {s t : Buffer}
    (hs : HoldsAt buffer offset s) (ht : HoldsAt buffer (offset + s.length) t) :
    HoldsAt buffer offset (s ++ t) := by
  obtain ⟨post, hp⟩ := hs
  obtain ⟨post', hp'⟩ := ht
  refine ⟨post', ?_⟩
  rw [← List.drop_drop, hp, List.drop_left] at hp'
  rw [hp, hp', List.append_assoc]

theorem holdsAt_singleton {buffer : Buffer} {offset : Nat} {x : UInt8}
    (h : buffer[offset]? = some x) : HoldsAt buffer offset [x] := by
  obtain ⟨hl, hx⟩ := List.getElem?_eq_some.mp h
  exact ⟨buffer.drop (offset + 1), by rw [List.drop_eq_getElem_cons hl, hx]; rfl⟩

theorem readUInt8_eq_some_byte {buffer : Buffer} {offset v : Nat}
    (h : readUInt8 buffer offset = some v) : ∃ x : UInt8, buffer[offset]? = some x ∧ x.toNat = v := by
  unfold readUInt8 at h
  cases hb : buffer[offset]? with
  | none => rw [hb] at h; cases h
  | some x => rw [hb] at h; exact ⟨x, rfl, Option.some.inj h⟩

theorem holdsAt_of_readUInt8 {buffer : Buffer} {offset v : Nat}
    (h : readUInt8 buffer offset = some v) : v < 256 ∧ HoldsAt buffer offset (writeUInt8 v) := by
  obtain ⟨x, hx, rfl⟩ := readUInt8_eq_some_byte h
  refine ⟨UInt8.toNat_lt x, ?_⟩
  unfold writeUInt8
  rw [ofNat_toNat]
  exact holdsAt_singleton hx

theorem holdsAt_of_readUInt16BE {buffer : Buffer} {offset v : Nat}
    (h : readUInt16BE buffer offset = some v) :
    v < 65536 ∧ HoldsAt buffer offset (writeUInt16BE v) := by
  simp only [readUInt16BE, Option.bind_eq_bind, Option.bind_eq_some, Option.pure_def,
    Option.some.injEq] at h
  obtain ⟨b0, h0, b1, h1, rfl⟩ := h
  obtain ⟨x0, hx0, rfl⟩ := readUInt8_eq_some_byte h0
  obtain ⟨x1, hx1, rfl⟩ := readUInt8_eq_some_byte h1
  have l0 := UInt8.toNat_lt x0
  have l1 := UInt8.toNat_lt x1
  refine ⟨by omega, ?_⟩
  have e0 : UInt8.ofNat ((x0.toNat * 256 + x1.toNat) / 256) = x0 := by
    rw [← ofNat_toNat x0]; exact ofNat_eq_of_mod_eq (by rw [toNat_ofNat]; omega)
  have e1 : UInt8.ofNat (x0.toNat * 256 + x1.toNat) = x1 := by
    rw [← ofNat_toNat x1]; exact ofNat_eq_of_mod_eq (by rw [toNat_ofNat]; omega)
  unfold writeUInt16BE
  rw [e0, e1]
  exact holdsAt_join (s := [x0]) (holdsAt_singleton hx0) (holdsAt_singleton hx1)

theorem holdsAt_of_readUInt32BE {buffer : Buffer} {offset v : Nat}
    (h : readUInt32BE buffer offset = some v) :
    v < 4294967296 ∧ HoldsAt buffer offset (writeUInt32BE v) := by
  simp only [readUInt32BE, Option.bind_eq_bind, Option.bind_eq_some, Option.pure_def,
    Option.some.injEq] at h
  obtain ⟨b0, h0, b1, h1, b2, h2, b3, h3, rfl⟩ := h
  obtain ⟨x0, hx0, rfl⟩ := readUInt8_eq_some_byte h0
  obtain ⟨x1, hx1, rfl⟩ := readUInt8_eq_some_byte h1
  obtain ⟨x2, hx2, rfl⟩ := readUInt8_eq_some_byte h2
  obtain ⟨x3, hx3, rfl⟩ := readUInt8_eq_some_byte h3
  have l0 := UInt8.toNat_lt x0
  have l1 := UInt8.toNat_lt x1
  have l2 := UInt8.toNat_lt x2
  have l3 := UInt8.toNat_lt x3
  refine ⟨by omega, ?_⟩
  have e0 : UInt8.ofNat ((x0.toNat * 16777216 + x1.toNat * 65536 + x2.toNat * 256 + x3.toNat)
      / 16777216) = x0 := by
    rw [← ofNat_toNat x0]; exact ofNat_eq_of_mod_eq (by rw [toNat_ofNat]; omega)
  have e1 : UInt8.ofNat ((x0.toNat * 16777216 + x1.toNat * 65536 + x2.toNat * 256 + x3.toNat)
      / 65536) = x1 := by
    rw [← ofNat_toNat x1]; exact ofNat_eq_of_mod_eq (by rw [toNat_ofNat]; omega)
  have e2 : UInt8.ofNat ((x0.toNat * 16777216 + x1.toNat * 65536 + x2.toNat * 256 + x3.toNat)
      / 256) = x2 := by
    rw [← ofNat_toNat x2]; exact ofNat_eq_of_mod_eq (by rw [toNat_ofNat]; omega)
  have e3 : UInt8.ofNat (x0.toNat * 16777216 + x1.toNat * 65536 + x2.toNat * 256 + x3.toNat)
      = x3 := by
    rw [← ofNat_toNat x3]; exact ofNat_eq_of_mod_eq (by rw [toNat_ofNat]; omega)
  unfold writeUInt32BE
  rw [e0, e1, e2, e3]
  exact holdsAt_join (s := [x0]) (holdsAt_singleton hx0)
    (holdsAt_join (s := [x1]) (holdsAt_singleton hx1)
      (holdsAt_join (s := [x2]) (holdsAt_singleton hx2) (holdsAt_singleton hx3)))

theorem holdsAt_of_readInt32BE {buffer : Buffer} {offset : Nat} {z : Int}
    (h : readInt32BE buffer offset = some z) :
    (-2147483648 ≤ z ∧ z < 2147483648) ∧ HoldsAt buffer offset (writeInt32BE z) := by
  simp only [readInt32BE, Option.bind_eq_bind, Option.bind_eq_some, Option.pure_def,
    Option.some.injEq] at h
  obtain ⟨u, hu, rfl⟩ := h
  obtain ⟨hlt, hh⟩ := holdsAt_of_readUInt32BE hu
  unfold writeInt32BE
  split
  · refine ⟨⟨by omega, by omega⟩, ?_⟩
    rw [show ((u : Int) % 4294967296).toNat = u by omega]
    exact hh
  · refine ⟨⟨by omega, by omega⟩, ?_⟩
    rw [show (((u : Int) - 4294967296) % 4294967296).toNat = u by omega]
    exact hh

/-! ## Reading the sub-parsers backwards -/

theorem parseGPSElement_some_inv {buffer : Buffer} {offset : Nat} {g : Sized GPSElement}
    (h : parseGPSElement buffer offset = some g) :
    offset + 20 ≤ buffer.length ∧
    ∃ longitude latitude altitude angle satellites speed io stop,
      readInt32BE buffer offset = some longitude ∧
      readInt32BE buffer (offset + 4) = some latitude ∧
      readUInt16BE buffer (offset + 8) = some altitude ∧
      readUInt16BE buffer (offset + 10) = some angle ∧
      readUInt8 buffer (offset + 12) = some satellites ∧
      readUInt16BE buffer (offset + 13) = some speed ∧
      parseIOGroups buffer (offset + 15) = some (io, stop) ∧
      g.size = stop - offset ∧
      g.data = { longitude := (longitude : ℚ) / 10000000
                 latitude := (latitude : ℚ) / 10000000
                 altitude := altitude, angle := angle, satellites := satellites, speed := speed
                 eventIOID := io.eventIOID, nOfTotalIO := io.nOfTotalIO
                 nOfData1 := io.nOfData1, data1 := io.data1
                 nOfData2 := io.nOfData2, data2 := io.data2
                 nOfData4 := io.nOfData4, data4 := io.data4
                 nOfData8 := io.nOfData8, data8 := io.data8 } := by
  unfold parseGPSElement at h
  by_cases hb : offset + 20 > buffer.length
  · rw [if_pos hb] at h; cases h
  rw [if_neg hb] at h
  simp only [Option.bind_eq_bind, Option.bind_eq_some, Option.pure_def, Option.some.injEq] at h
  obtain ⟨lon, hlon, lat, hlat, alt, halt, ang, hang, sat, hsat, spd, hspd, x, hx, rfl⟩ := h
  obtain ⟨io, stop⟩ := x
  exact ⟨by omega, lon, lat, alt, ang, sat, spd, io, stop, hlon, hlat, halt, hang, hsat, hspd,
    hx, rfl, rfl⟩

theorem parseAVLRecord_some_inv {buffer : Buffer} {offset : Nat} {record : AVLRecord}
    (h : parseAVLRecord buffer offset = some record) :
    offset + 30 ≤ buffer.length ∧
    ∃ timestampHigh timestampLow priority gpsElement,
      readUInt32BE buffer offset = some timestampHigh ∧
      readUInt32BE buffer (offset + 4) = some timestampLow ∧
      readUInt8 buffer (offset + 8) = some priority ∧
      parseGPSElement buffer (offset + 9) = some gpsElement ∧
      record.data.timestamp = toNumber (timestampHigh * 0x100000000 + timestampLow) ∧
      record.data.priority = priority ∧
      record.data.gpsElement = gpsElement.data ∧
      offset + 9 + gpsElement.size ≤ record.nextOffset ∧
      record.size = record.nextOffset - offset := by
  have h30 : offset + 30 ≤ buffer.length := by
    by_contra hc
    rw [parseAVLRecord_eq_none_of_lt_30 (by omega)] at h
    cases h
  refine ⟨h30, ?_⟩
  unfold parseAVLRecord at h
  rw [if_neg (show ¬ offset + 4 > buffer.length by omega)] at h
  unfold readTimestamp at h
  rw [if_pos (show offset + 8 ≤ buffer.length by omega)] at h
  simp only [Option.bind_eq_bind, Option.bind_eq_some, Option.pure_def, Option.some.injEq,
    exists_exists_and_eq_and] at h
  obtain ⟨x, ⟨hi, hhi, lo, hlo, rfl⟩, pr, hpr, g, hg, rfl⟩ := h
  refine ⟨hi, lo, pr, g, hhi, hlo, hpr, hg, rfl, rfl, rfl, ?_, rfl⟩
  dsimp only
  split <;> omega

/-! ## Reading the IO groups backwards -/

theorem length_encodeItems (write : Nat → Buffer) (width : Nat)
    (hw : ∀ v, (write v).length = width) (items : List IOItem) :
    (encodeItems write items).length = items.length * (1 + width) := by
  induction items with
  | nil => simp [encodeItems]
  | cons i rest ih =>
    have e : encodeItems write (i :: rest) =
        (writeUInt8 i.id ++ write i.value) ++ encodeItems write rest := by
      simp [encodeItems, List.flatMap_cons]
    rw [e, List.length_append, List.length_append, ih, hw, length_writeUInt8, List.length_cons,
      Nat.succ_mul]
    omega

theorem length_encodeItems8 (items : List (Nat × Buffer))
    (h : ∀ i ∈ items, i.1 < 256 ∧ i.2.length = 8) :
    (encodeItems8 items).length = items.length * 9 := by
  induction items with
  | nil => simp [encodeItems8]
  | cons i rest ih =>
    have e : encodeItems8 (i :: rest) = (writeUInt8 i.1 ++ i.2) ++ encodeItems8 rest := by
      simp [encodeItems8, List.flatMap_cons]
    rw [e, List.length_append, List.length_append, ih (fun j hj => h j (List.mem_cons_of_mem _ hj)),
      (h i (List.mem_cons_self _ _)).2, length_writeUInt8, List.length_cons, Nat.succ_mul]
    omega

/-- A successful run of the loop of `data1`, `data2` or `data4` has read the
encoding of the entries it returns. -/
theorem readItems_some_inv (readValue : Buffer → Nat → Option Nat) (write : Nat → Buffer)
    (width bound : Nat) (hw : ∀ v, (write v).length = width)
    (hrv : ∀ (buffer : Buffer) (offset v : Nat), readValue buffer offset = some v →
      v < bound ∧ HoldsAt buffer offset (write v))
    (buffer : Buffer) (n : Nat) :
    ∀ (offset : Nat) (items : List IOItem) (stop : Nat),
      readItems readValue width buffer n offset = some (items, stop) →
      items.length = n ∧ (∀ i ∈ items, i.id < 256 ∧ i.value < bound) ∧
      HoldsAt buffer offset (encodeItems write items) ∧ stop = offset + n * (1 + width) := by
  induction n with
  | zero =>
    intro offset items stop h
    simp only [readItems, Option.some.injEq, Prod.mk.injEq] at h
    obtain ⟨rfl, rfl⟩ := h
    exact ⟨rfl, fun i hi => absurd hi (List.not_mem_nil i), holdsAt_nil _ _, by omega⟩
  | succ n ih =>
    intro offset items stop h
    simp only [readItems, Option.bind_eq_bind, Option.bind_eq_some, Option.pure_def,
      Option.some.injEq, Prod.mk.injEq] at h
    obtain ⟨id, hid, v, hv, ⟨rest, stop'⟩, hrest, rfl, rfl⟩ := h
    obtain ⟨hl, hvalid, hholds, hstop⟩ := ih _ _ _ hrest
    obtain ⟨hidlt, pid⟩ := holdsAt_of_readUInt8 hid
    obtain ⟨hvlt, pv⟩ := hrv _ _ _ hv
    have e : encodeItems write ({ id := id, value := v } :: rest) =
        (writeUInt8 id ++ write v) ++ encodeItems write rest := by
      simp [encodeItems, List.flatMap_cons]
    refine ⟨by rw [List.length_cons, hl], ?_, ?_, ?_⟩
    · intro i hi
      rcases List.mem_cons.mp hi with rfl | hi'
      · exact ⟨hidlt, hvlt⟩
      · exact hvalid i hi'
    · rw [e]
      refine holdsAt_join (holdsAt_join pid (holdsAt_of_eq pv (by simp))) ?_
      exact holdsAt_of_eq hholds (by simp [hw]; omega)
    · show stop' = _
      rw [hstop, Nat.succ_mul]
      omega

/-- A successful run of the `data8` loop that stays inside the buffer has
read the encoding of the entries it returns, each value being eight bytes. -/
theorem readItems8_some_inv (buffer : Buffer) (n : Nat) :
    ∀ (offset : Nat) (entries : List IOItem8) (stop : Nat),
      readItems8 buffer n offset = some (entries, stop) → stop ≤ buffer.length →
      ∃ items : List (Nat × Buffer),
        items.length = n ∧ (∀ i ∈ items, i.1 < 256 ∧ i.2.length = 8) ∧
        entries = items.map (fun i => { id := i.1, value := toHex i.2 }) ∧
        HoldsAt buffer offset (encodeItems8 items) ∧ stop = offset + n * 9 := by
  induction n with
  | zero =>
    intro offset entries stop h _
    simp only [readItems8, Option.some.injEq, Prod.mk.injEq] at h
    obtain ⟨rfl, rfl⟩ := h
    exact ⟨[], rfl, fun i hi => absurd hi (List.not_mem_nil i), rfl, holdsAt_nil _ _, by omega⟩
  | succ n ih =>
    intro offset entries stop h hin
    simp only [readItems8, Option.bind_eq_bind, Option.bind_eq_some, Option.pure_def,
      Option.some.injEq, Prod.mk.injEq] at h
    obtain ⟨id, hid, ⟨rest, stop'⟩, hrest, rfl, rfl⟩ := h
    have hge := readItems8_stop_ge _ _ _ _ hrest
    obtain ⟨items, hl, hvalid, hmap, hholds, hstop⟩ := ih _ _ _ hrest hin
    obtain ⟨hidlt, pid⟩ := holdsAt_of_readUInt8 hid
    have hlen8 : (subarray buffer (offset + 1) (offset + 1 + 8)).length = 8 := by
      rw [length_subarray (by simp only at hge hin; omega)]
      omega
    have pv : HoldsAt buffer (offset + 1) (subarray buffer (offset + 1) (offset + 1 + 8)) := by
      refine ⟨(buffer.drop (offset + 1)).drop 8, ?_⟩
      have e : subarray buffer (offset + 1) (offset + 1 + 8) = (buffer.drop (offset + 1)).take 8 := by
        simp [subarray, List.drop_take]
      rw [e, List.take_append_drop]
    refine ⟨(id, subarray buffer (offset + 1) (offset + 1 + 8)) :: items, ?_, ?_, ?_, ?_, ?_⟩
    · rw [List.length_cons, hl]
    · intro i hi
      rcases List.mem_cons.mp hi with rfl | hi'
      · exact ⟨hidlt, hlen8⟩
      · exact hvalid i hi'
    · rw [List.map_cons, hmap]
    · have e : encodeItems8 ((id, subarray buffer (offset + 1) (offset + 1 + 8)) :: items) =
          (writeUInt8 id ++ subarray buffer (offset + 1) (offset + 1 + 8)) ++ encodeItems8 items := by
        simp [encodeItems8, List.flatMap_cons]
      rw [e]
      refine holdsAt_join (holdsAt_join pid (holdsAt_of_eq pv (by simp))) ?_
      exact holdsAt_of_eq hholds (by simp [hlen8])
    · show stop' = _
      rw [hstop, Nat.succ_mul]
      omega

/-- A successful `parseIOGroups` that stays inside the buffer has read the
encoding of a valid IO block, and returns that block. -/
theorem parseIOGroups_some_inv {buffer : Buffer} {offset : Nat} {x : IOElement × Nat}
    (h : parseIOGroups buffer offset = some x) (hin : x.2 ≤ buffer.length) :
    ∃ block : IOBlock, block.Valid ∧ HoldsAt buffer offset block.encode ∧
      x.1 = block.decoded ∧ x.2 = offset + block.encode.length ∧
      block.encode.length = 6 + 2 * block.data1.length + 3 * block.data2.length +
        5 * block.data4.length + 9 * block.data8.length := by
  simp only [parseIOGroups, Option.bind_eq_bind, Option.bind_eq_some, Option.pure_def,
    Option.some.injEq] at h
  obtain ⟨ev, hev, tot, htot, n1, hn1, ⟨d1, o1⟩, h1, n2, hn2, ⟨d2, o2⟩, h2, n4, hn4, ⟨d4, o4⟩, h4,
    n8, hn8, ⟨d8, o8⟩, h8, rfl⟩ := h
  simp only at hin hn2 h2 hn4 h4 hn8 h8
  obtain ⟨l1, v1, p1, s1⟩ := readItems_some_inv readUInt8 writeUInt8 1 256 (fun _ => rfl)
    (fun _ _ _ hh => holdsAt_of_readUInt8 hh) buffer n1 _ _ _ h1
  obtain ⟨l2, v2, p2, s2⟩ := readItems_some_inv readUInt16BE writeUInt16BE 2 65536 (fun _ => rfl)
    (fun _ _ _ hh => holdsAt_of_readUInt16BE hh) buffer n2 _ _ _ h2
  obtain ⟨l4, v4, p4, s4⟩ := readItems_some_inv readUInt32BE writeUInt32BE 4 4294967296
    (fun _ => rfl) (fun _ _ _ hh => holdsAt_of_readUInt32BE hh) buffer n4 _ _ _ h4
  obtain ⟨items, l8, v8, m8, p8, s8⟩ := readItems8_some_inv buffer n8 _ _ _ h8 hin
  obtain ⟨bev, pev⟩ := holdsAt_of_readUInt8 hev
  obtain ⟨btot, ptot⟩ := holdsAt_of_readUInt8 htot
  obtain ⟨bn1, pn1⟩ := holdsAt_of_readUInt8 hn1
  obtain ⟨bn2, pn2⟩ := holdsAt_of_readUInt8 hn2
  obtain ⟨bn4, pn4⟩ := holdsAt_of_readUInt8 hn4
  obtain ⟨bn8, pn8⟩ := holdsAt_of_readUInt8 hn8
  have L1 := length_encodeItems writeUInt8 1 (fun _ => rfl) d1
  have L2 := length_encodeItems writeUInt16BE 2 (fun _ => rfl) d2
  have L4 := length_encodeItems writeUInt32BE 4 (fun _ => rfl) d4
  have L8 := length_encodeItems8 items v8
  have hlen : (IOBlock.encode (IOBlock.mk ev tot d1 d2 d4 items)).length
      = 6 + 2 * d1.length + 3 * d2.length + 5 * d4.length + 9 * items.length := by
    simp only [IOBlock.encode, List.length_append, length_writeUInt8, L1, L2, L4, L8]
    omega
  refine ⟨IOBlock.mk ev tot d1 d2 d4 items, ?_, ?_, ?_, ?_, hlen⟩
  · exact ⟨bev, btot, (by show d1.length < 256; omega), v1, (by show d2.length < 256; omega), v2,
      (by show d4.length < 256; omega), v4, (by show items.length < 256; omega), v8⟩
  · unfold IOBlock.encode
    simp only
    rw [← l1] at pn1
    rw [← l2] at pn2
    rw [← l4] at pn4
    rw [← l8] at pn8
    refine holdsAt_join (holdsAt_join (holdsAt_join (holdsAt_join (holdsAt_join (holdsAt_join
      (holdsAt_join (holdsAt_join (holdsAt_join pev ?_) ?_) ?_) ?_) ?_) ?_) ?_) ?_) ?_
    · exact holdsAt_of_eq ptot (by simp)
    · exact holdsAt_of_eq pn1 (by simp)
    · exact holdsAt_of_eq p1 (by simp)
    · exact holdsAt_of_eq pn2 (by simp only [List.length_append, length_writeUInt8, L1]; omega)
    · exact holdsAt_of_eq p2 (by simp only [List.length_append, length_writeUInt8, L1]; omega)
    · exact holdsAt_of_eq pn4
        (by simp only [List.length_append, length_writeUInt8, L1, L2]; omega)
    · exact holdsAt_of_eq p4
        (by simp only [List.length_append, length_writeUInt8, L1, L2]; omega)
    · exact holdsAt_of_eq pn8
        (by simp only [List.length_append, length_writeUInt8, L1, L2, L4]; omega)
    · exact holdsAt_of_eq p8
        (by simp only [List.length_append, length_writeUInt8, L1, L2, L4]; omega)
  · simp only [IOBlock.decoded, l1, l2, l4, l8, m8]
  · simp only
    rw [hlen]
    omega

/-! ## C11: the checksum is not enforced -/

/-- On a frame with one record the four checksum bytes play no part: the
outcome of the decoder is the same for every checksum. -/
theorem single_record_checksum_ignored (dataFieldLength : Nat) (imei : String) (codecId : Nat)
    (r : WireRecord) (crc crc' : Nat)
    (hfit : 12 + dataFieldLength ≤ (frame 0 dataFieldLength imei codecId 1 [r] 1 crc).length)
    (himei : ValidIMEI imei) (hc : codecId < 256) (hr : r.Valid) :
    parseTeltonikaAVLPacket (frame 0 dataFieldLength imei codecId 1 [r] 1 crc) =
      parseTeltonikaAVLPacket (frame 0 dataFieldLength imei codecId 1 [r] 1 crc') := by
  have hfit' : 12 + dataFieldLength ≤
      (frame 0 dataFieldLength imei codecId 1 [r] 1 crc').length := by
    rw [length_frame] at hfit ⊢; exact hfit
  rw [parse_frame_single 0 dataFieldLength imei codecId r 1 crc (Or.inl rfl) hfit himei hc hr
      (by omega),
    parse_frame_single 0 dataFieldLength imei codecId r 1 crc' (Or.inl rfl) hfit' himei hc hr
      (by omega)]

/-- C11, the code at the failing input: `checksumFrame crc` holds the two
valid records `recordA`, `recordD` between equal counts 2, and its declared
length is exact. With the checksum bytes `12 34 56 78` the decoder returns
the two records; with the checksum bytes `00 00 00 00`, in a buffer that is
the same in its first 87 bytes, it returns `null`: the optional
`parseIOElement` after the GPS element of record 1 reads on through record 2
into the checksum, which decides whether it succeeds. -/
theorem checksum_changes_outcome :
    recordA.Valid ∧ recordD.Valid ∧ ValidIMEI testIMEI ∧
    (checksumFrame 0x12345678).length = 4 + 4 + 79 + 4 ∧
    (checksumFrame 0).length = 4 + 4 + 79 + 4 ∧
    (checksumFrame 0x12345678).take 87 = (checksumFrame 0).take 87 ∧
    (parseTeltonikaAVLPacket (checksumFrame 0x12345678)).map
      (fun p => p.records.map fun r => (r.data.timestamp, r.nextOffset))
      = some [(recordA.timestamp, 56), (recordD.timestamp, 86)] ∧
    (parseAVLRecord (checksumFrame 0) 26).map (fun r => r.nextOffset) = some 91 ∧
    parseTeltonikaAVLPacket (checksumFrame 0) = none := by
  decide

/-! ## C13: the fixed fields of the GPS element -/

/-- C13: for every successful `parseGPSElement(buffer, offset)`, longitude
and latitude are the signed big-endian 32-bit integers at `offset` and
`offset + 4` divided by 10,000,000; altitude, angle and speed are the
unsigned big-endian 16-bit values at `offset + 8`, `offset + 10` and
`offset + 13`; satellites is the byte at `offset + 12`. The fifteen bytes at
`offset` are the encodings of these six values, one after the other. -/
theorem gps_fixed_fields (buffer : Buffer) (offset : Nat) (g : Sized GPSElement)
    (h : parseGPSElement buffer offset = some g) :
    ∃ (longitude latitude : Int) (altitude angle satellites speed : Nat),
      readInt32BE buffer offset = some longitude ∧
      readInt32BE buffer (offset + 4) = some latitude ∧
      readUInt16BE buffer (offset + 8) = some altitude ∧
      readUInt16BE buffer (offset + 10) = some angle ∧
      readUInt8 buffer (offset + 12) = some satellites ∧
      readUInt16BE buffer (offset + 13) = some speed ∧
      g.data.longitude = (longitude : ℚ) / 10000000 ∧
      g.data.latitude = (latitude : ℚ) / 10000000 ∧
      g.data.altitude = altitude ∧ g.data.angle = angle ∧
      g.data.satellites = satellites ∧ g.data.speed = speed ∧
      HoldsAt buffer offset
        (writeInt32BE longitude ++ writeInt32BE latitude ++ writeUInt16BE altitude ++
          writeUInt16BE angle ++ writeUInt8 satellites ++ writeUInt16BE speed) := by
  obtain ⟨_, lon, lat, alt, ang, sat, spd, io, stop, hlon, hlat, halt, hang, hsat, hspd, _, _,
    hdata⟩ := parseGPSElement_some_inv h
  refine ⟨lon, lat, alt, ang, sat, spd, hlon, hlat, halt, hang, hsat, hspd, ?_, ?_, ?_, ?_, ?_,
    ?_, ?_⟩
  · rw [hdata]
  · rw [hdata]
  · rw [hdata]
  · rw [hdata]
  · rw [hdata]
  · rw [hdata]
  · have p0 := (holdsAt_of_readInt32BE hlon).2
    have p4 := (holdsAt_of_readInt32BE hlat).2
    have p8 := (holdsAt_of_readUInt16BE halt).2
    have p10 := (holdsAt_of_readUInt16BE hang).2
    have p12 := (holdsAt_of_readUInt8 hsat).2
    have p13 := (holdsAt_of_readUInt16BE hspd).2
    refine holdsAt_join (holdsAt_join (holdsAt_join (holdsAt_join (holdsAt_join p0 ?_) ?_) ?_)
      ?_) ?_
    · exact holdsAt_of_eq p4 (by simp)
    · exact holdsAt_of_eq p8 (by simp)
    · exact holdsAt_of_eq p10 (by simp)
    · exact holdsAt_of_eq p12 (by simp)
    · exact holdsAt_of_eq p13 (by simp)

/-- C13, witness: the GPS element of `recordA` (the values that
`createTestAVLPacket` writes: longitude -1224194000, latitude 377749000,
altitude 100, angle 45, 8 satellites, speed 60) standing alone in a buffer. -/
theorem gps_fixed_fields_witness :
    ∃ (longitude latitude : Int) (altitude angle satellites speed : Nat),
      readInt32BE recordA.encodeGPS 0 = some longitude ∧
      readInt32BE recordA.encodeGPS (0 + 4) = some latitude ∧
      readUInt16BE recordA.encodeGPS (0 + 8) = some altitude ∧
      readUInt16BE recordA.encodeGPS (0 + 10) = some angle ∧
      readUInt8 recordA.encodeGPS (0 + 12) = some satellites ∧
      readUInt16BE recordA.encodeGPS (0 + 13) = some speed ∧
      recordA.gpsElement.longitude = (longitude : ℚ) / 10000000 ∧
      recordA.gpsElement.latitude = (latitude : ℚ) / 10000000 ∧
      recordA.gpsElement.altitude = altitude ∧ recordA.gpsElement.angle = angle ∧
      recordA.gpsElement.satellites = satellites ∧ recordA.gpsElement.speed = speed ∧
      HoldsAt recordA.encodeGPS 0
        (writeInt32BE longitude ++ writeInt32BE latitude ++ writeUInt16BE altitude ++
          writeUInt16BE angle ++ writeUInt8 satellites ++ writeUInt16BE speed) :=
  gps_fixed_fields recordA.encodeGPS 0
    { data := recordA.gpsElement, size := recordA.encodeGPS.length }
    (parseGPSElement_encode recordA (by decide) ⟨[], by simp⟩)

/-! ## C15: the eight-byte timestamp -/

/-- C15: the timestamp of every record returned by `parseAVLRecord` is read
from eight bytes (at least thirty remain at the record's start): it is
`high * 2^32 + low` in JavaScript arithmetic, where `high` and `low` are the
big-endian uint32 values of bytes 0..3 and 4..7, so the eight bytes are the
unsigned 64-bit big-endian encoding of `high * 2^32 + low`, and the
timestamp is that integer exactly whenever it is below `2^53`. -/
theorem eight_byte_timestamp (buffer : Buffer) (offset timestamp : Nat)
    (h : (parseAVLRecord buffer offset).map (fun r => r.data.timestamp) = some timestamp) :
    offset + 8 ≤ buffer.length ∧
    ∃ high low,
      readUInt32BE buffer offset = some high ∧ readUInt32BE buffer (offset + 4) = some low ∧
      HoldsAt buffer offset (writeBigUInt64BE (high * 2 ^ 32 + low)) ∧
      timestamp = toNumber (high * 2 ^ 32 + low) ∧
      (high * 2 ^ 32 + low < 2 ^ 53 → timestamp = high * 2 ^ 32 + low) := by
  cases hp : parseAVLRecord buffer offset with
  | none => rw [hp] at h; cases h
  | some record =>
    rw [hp] at h
    have ht : record.data.timestamp = timestamp := Option.some.inj h
    obtain ⟨h30, hi, lo, _, _, hhi, hlo, _, _, hts, _⟩ := parseAVLRecord_some_inv hp
    obtain ⟨lhi, phi⟩ := holdsAt_of_readUInt32BE hhi
    obtain ⟨llo, plo⟩ := holdsAt_of_readUInt32BE hlo
    have e : hi * 2 ^ 32 + lo = hi * 0x100000000 + lo := by norm_num
    refine ⟨by omega, hi, lo, hhi, hlo, ?_, ?_, ?_⟩
    · unfold writeBigUInt64BE
      have e1 : (hi * 2 ^ 32 + lo) / 4294967296 = hi := by omega
      have e2 : writeUInt32BE (hi * 2 ^ 32 + lo) = writeUInt32BE lo := by
        unfold writeUInt32BE
        rw [ofNat_eq_of_mod_eq (show (hi * 2 ^ 32 + lo) / 16777216 % 256
              = lo / 16777216 % 256 by omega),
          ofNat_eq_of_mod_eq (show (hi * 2 ^ 32 + lo) / 65536 % 256 = lo / 65536 % 256 by omega),
          ofNat_eq_of_mod_eq (show (hi * 2 ^ 32 + lo) / 256 % 256 = lo / 256 % 256 by omega),
          ofNat_eq_of_mod_eq (show (hi * 2 ^ 32 + lo) % 256 = lo % 256 by omega)]
      rw [e1, e2]
      exact holdsAt_join phi (holdsAt_of_eq plo (by simp))
    · rw [← ht, hts, e]
    · intro hlt
      rw [← ht, hts, e]
      unfold toNumber
      rw [if_pos (by rw [← e]; exact hlt)]

/-- C15, witness: the record of `final-working-test.js`, whose timestamp
bytes `00 00 01 6B 40 D8 EA 30` stand at offset 26, gives `0x16B40D8EA30`. -/
theorem eight_byte_timestamp_witness :
    subarray minimalAVLPacket 26 34 = [0x00, 0x00, 0x01, 0x6B, 0x40, 0xD8, 0xEA, 0x30] ∧
    26 + 8 ≤ minimalAVLPacket.length ∧
    ∃ high low,
      readUInt32BE minimalAVLPacket 26 = some high ∧
      readUInt32BE minimalAVLPacket (26 + 4) = some low ∧
      HoldsAt minimalAVLPacket 26 (writeBigUInt64BE (high * 2 ^ 32 + low)) ∧
      0x16B40D8EA30 = toNumber (high * 2 ^ 32 + low) ∧
      (high * 2 ^ 32 + low < 2 ^ 53 → 0x16B40D8EA30 = high * 2 ^ 32 + low) :=
  ⟨by decide, eight_byte_timestamp minimalAVLPacket 26 0x16B40D8EA30 (by decide)⟩

/-! ## C18, C19, C20: the acknowledgment byte -/

/-- C18: when `parseTeltonikaAVLPacket` rejects the buffer of a data event,
the handler writes exactly one buffer holding the single byte `0x00`, posts
nothing, adds one to `totalPacketsFailed` and leaves `totalPacketsProcessed`
as it was. -/
theorem negative_acknowledgment (s : ServerState) (connectionId now : Nat) (data : Buffer)
    (post : PostBody → Bool) (h : parseTeltonikaAVLPacket data = none) :
    (onData s connectionId now data post).written = [[0x00]] ∧
    (onData s connectionId now data post).posted = [] ∧
    (onData s connectionId now data post).state.totalPacketsFailed = s.totalPacketsFailed + 1 ∧
    (onData s connectionId now data post).state.totalPacketsProcessed
      = s.totalPacketsProcessed := by
  simp [onData, onDataDecode, h]

/-- C18, witness: the buffer `01 02 03` on the server just started. -/
theorem negative_acknowledgment_witness :
    (onData initialState 1 0 [0x01, 0x02, 0x03] fun _ => true).written = [[0x00]] ∧
    (onData initialState 1 0 [0x01, 0x02, 0x03] fun _ => true).posted = [] ∧
    (onData initialState 1 0 [0x01, 0x02, 0x03] fun _ => true).state.totalPacketsFailed
      = initialState.totalPacketsFailed + 1 ∧
    (onData initialState 1 0 [0x01, 0x02, 0x03] fun _ => true).state.totalPacketsProcessed
      = initialState.totalPacketsProcessed :=
  negative_acknowledgment initialState 1 0 [0x01, 0x02, 0x03] (fun _ => true) (by decide)

/-- C19: when the buffer of a data event decodes and the forward call
succeeds, the handler writes exactly one buffer holding the single byte
`0x01`, produced by the step that runs after the forward call, adds one to
`totalPacketsProcessed` and leaves `totalPacketsFailed` as it was. -/
theorem positive_acknowledgment (s : ServerState) (connectionId now : Nat) (data : Buffer)
    (post : PostBody → Bool)
    (h : (parseTeltonikaAVLPacket data).map (fun p => (forwardToWebApp p data post).2)
      = some true) :
    (onData s connectionId now data post).written = [[0x01]] ∧
    (onData s connectionId now data post).written
      = [(onDataForwarded (onDataDecode s connectionId now data).1 true).2] ∧
    (onData s connectionId now data post).state.totalPacketsProcessed
      = s.totalPacketsProcessed + 1 ∧
    (onData s connectionId now data post).state.totalPacketsFailed = s.totalPacketsFailed := by
  cases hp : parseTeltonikaAVLPacket data with
  | none => rw [hp] at h; exact absurd h (by simp)
  | some parsedData =>
    rw [hp] at h
    have hf : (forwardToWebApp parsedData data post).2 = true := by simpa using h
    simp [onData, onDataDecode, hp, hf, onDataForwarded]

/-- C19, witness: the packet of `final-working-test.js` with a downstream
that accepts the post. -/
theorem positive_acknowledgment_witness :
    (onData initialState 1 0 minimalAVLPacket fun _ => true).written = [[0x01]] ∧
    (onData initialState 1 0 minimalAVLPacket fun _ => true).written
      = [(onDataForwarded (onDataDecode initialState 1 0 minimalAVLPacket).1 true).2] ∧
    (onData initialState 1 0 minimalAVLPacket fun _ => true).state.totalPacketsProcessed
      = initialState.totalPacketsProcessed + 1 ∧
    (onData initialState 1 0 minimalAVLPacket fun _ => true).state.totalPacketsFailed
      = initialState.totalPacketsFailed :=
  positive_acknowledgment initialState 1 0 minimalAVLPacket (fun _ => true) (by decide)

/-- C20, counterexample: the packet of `final-working-test.js` decodes, one
body is posted, the downstream fails, and the handler writes `0x00`, not
`0x01`; `totalPacketsFailed` goes from 0 to 1. -/
theorem forward_failure_nacked :
    (parseTeltonikaAVLPacket minimalAVLPacket).isSome = true ∧
    (onData initialState 1 0 minimalAVLPacket fun _ => false).posted.length = 1 ∧
    (onData initialState 1 0 minimalAVLPacket fun _ => false).written = [[0x00]] ∧
    (onData initialState 1 0 minimalAVLPacket fun _ => false).state.totalPacketsFailed = 1 := by
  decide

/-- C20, amended: when the buffer of a data event decodes but the forward
call fails (network error or non-2xx), the handler writes the negative
acknowledgment `0x00`, adds one to `totalPacketsFailed`, the only failure
counter, and leaves `totalPacketsProcessed` as it was. -/
theorem forward_failure_acknowledgment (s : ServerState) (connectionId now : Nat)
    (data : Buffer) (post : PostBody → Bool)
    (h : (parseTeltonikaAVLPacket data).map (fun p => (forwardToWebApp p data post).2)
      = some false) :
    (onData s connectionId now data post).written = [[0x00]] ∧
    (onData s connectionId now data post).state.totalPacketsFailed = s.totalPacketsFailed + 1 ∧
    (onData s connectionId now data post).state.totalPacketsProcessed
      = s.totalPacketsProcessed := by
  cases hp : parseTeltonikaAVLPacket data with
  | none => rw [hp] at h; exact absurd h (by simp)
  | some parsedData =>
    rw [hp] at h
    have hf : (forwardToWebApp parsedData data post).2 = false := by simpa using h
    simp [onData, onDataDecode, hp, hf, onDataForwarded]

/-- C20, witness: the packet of `final-working-test.js` with a downstream
that fails. -/
theorem forward_failure_acknowledgment_witness :
    (onData initialState 1 0 minimalAVLPacket fun _ => false).written = [[0x00]] ∧
    (onData initialState 1 0 minimalAVLPacket fun _ => false).state.totalPacketsFailed
      = initialState.totalPacketsFailed + 1 ∧
    (onData initialState 1 0 minimalAVLPacket fun _ => false).state.totalPacketsProcessed
      = initialState.totalPacketsProcessed :=
  forward_failure_acknowledgment initialState 1 0 minimalAVLPacket (fun _ => false) (by decide)

/-! ## C12: the IMEI -/

/-- C12, counterexample: `emptyIMEIPacket` has IMEI length byte 0 and
`longIMEIPacket` has IMEI length byte 21 and letters in its IMEI; both are
accepted, with the IMEI returned as it stands. -/
theorem unchecked_imei_accepted :
    readUInt8 emptyIMEIPacket 8 = some 0 ∧
    (parseTeltonikaAVLPacket emptyIMEIPacket).map (fun p => p.imei) = some "" ∧
    readUInt8 longIMEIPacket 8 = some 21 ∧
    (parseTeltonikaAVLPacket longIMEIPacket).map (fun p => p.imei)
      = some "TRACKER-0123456789-AB" := by
  decide

/-- C12, amended: the IMEI is not validated. Every packet returned by
`parseTeltonikaAVLPacket` has as IMEI the ASCII decoding of the `imeiLength`
bytes that follow the length byte at offset 8, where `imeiLength` is any
value of that byte for which these bytes lie in the buffer; frames with an
IMEI length of 0 or above 20, or with IMEI bytes that are not digits, are
not rejected on that account. -/
theorem imei_is_decoded_unchecked (buffer : Buffer) (imei : String)
    (h : (parseTeltonikaAVLPacket buffer).map (fun p => p.imei) = some imei) :
    ∃ imeiLength, readUInt8 buffer 8 = some imeiLength ∧ 9 + imeiLength ≤ buffer.length ∧
      imei = toAscii (subarray buffer 9 (9 + imeiLength)) ∧ imei.length = imeiLength := by
  cases hp : parseTeltonikaAVLPacket buffer with
  | none => rw [hp] at h; exact absurd h (by simp)
  | some packet =>
    rw [hp] at h
    have himei : packet.imei = imei := by simpa using h
    obtain ⟨_, _, imeiLength, _, _, _, _, _, _, _, _, hil, hfit, _, _, _, _, _, hpk⟩ :=
      parse_some_inv hp
    refine ⟨imeiLength, hil, by omega, ?_, ?_⟩
    · rw [← himei, hpk]
    · rw [← himei, hpk]
      show (toAscii (subarray buffer 9 (9 + imeiLength))).length = imeiLength
      rw [length_toAscii, length_subarray (by omega)]
      omega

/-- C12, witness: the packet of `final-working-test.js` and its IMEI. -/
theorem imei_is_decoded_unchecked_witness :
    ∃ imeiLength, readUInt8 minimalAVLPacket 8 = some imeiLength ∧
      9 + imeiLength ≤ minimalAVLPacket.length ∧
      "123456789012345" = toAscii (subarray minimalAVLPacket 9 (9 + imeiLength)) ∧
      "123456789012345".length = imeiLength :=
  imei_is_decoded_unchecked minimalAVLPacket "123456789012345" (by decide)

/-! ## C14: the IO groups of the GPS element -/

/-- C14: for every successful `parseGPSElement(buffer, offset)` whose
element lies inside the buffer, `data1`, `data2`, `data4` and `data8` have
exactly `nOfData1`, `nOfData2`, `nOfData4` and `nOfData8` entries, the size is
`21 + 2*n1 + 3*n2 + 5*n4 + 9*n8`, and the bytes from `offset + 15` on are the
encoding of a valid IO block (event id, total, and per group the count and
the (id, value) pairs with big-endian values of 1, 2, 4 and 8 bytes) whose
four lists are, entry by entry and in that order, the lists returned; no
entry is dropped or merged, whatever its id. -/
theorem gps_io_groups (buffer : Buffer) (offset : Nat) (g : Sized GPSElement)
    (h : parseGPSElement buffer offset = some g) (hin : offset + g.size ≤ buffer.length) :
    g.data.data1.length = g.data.nOfData1 ∧ g.data.data2.length = g.data.nOfData2 ∧
    g.data.data4.length = g.data.nOfData4 ∧ g.data.data8.length = g.data.nOfData8 ∧
    g.size = 21 + 2 * g.data.nOfData1 + 3 * g.data.nOfData2 + 5 * g.data.nOfData4
      + 9 * g.data.nOfData8 ∧
    ∃ block : IOBlock, block.Valid ∧ HoldsAt buffer (offset + 15) block.encode ∧
      g.data.data1 = block.data1 ∧ g.data.data2 = block.data2 ∧ g.data.data4 = block.data4 ∧
      g.data.data8 = block.data8.map (fun i => { id := i.1, value := toHex i.2 }) := by
  obtain ⟨_, lon, lat, alt, ang, sat, spd, io, stop, _, _, _, _, _, _, hio, hsize, hdata⟩ :=
    parseGPSElement_some_inv h
  have hge := (parseIOGroups_some_le hio).2
  simp only at hge
  have hstop : stop ≤ buffer.length := by omega
  obtain ⟨block, hvalid, hholds, hdec, hend, hlen⟩ := parseIOGroups_some_inv hio hstop
  simp only at hdec hend
  rw [hdata, hdec]
  simp only [IOBlock.decoded, List.length_map]
  refine ⟨trivial, trivial, trivial, trivial, ?_, block, hvalid, hholds, rfl, rfl, rfl, rfl⟩
  rw [hsize, hend, hlen]
  omega

/-- C14, witness: the GPS element of `testPacket`, at offset 35, with group
counts 2, 1, 1, 1 and size `21 + 4 + 3 + 5 + 9 = 42`. -/
theorem gps_io_groups_witness :
    officialRecord.encodeGPS.length = 42 ∧
    (parseGPSElement testPacket 35).map
      (fun g => (g.data.nOfData1, g.data.nOfData2, g.data.nOfData4, g.data.nOfData8, g.size))
      = some (2, 1, 1, 1, 42) ∧
    (officialRecord.gpsElement.data1.length = officialRecord.gpsElement.nOfData1 ∧
     officialRecord.gpsElement.data2.length = officialRecord.gpsElement.nOfData2 ∧
     officialRecord.gpsElement.data4.length = officialRecord.gpsElement.nOfData4 ∧
     officialRecord.gpsElement.data8.length = officialRecord.gpsElement.nOfData8 ∧
     officialRecord.encodeGPS.length = 21 + 2 * officialRecord.gpsElement.nOfData1
       + 3 * officialRecord.gpsElement.nOfData2 + 5 * officialRecord.gpsElement.nOfData4
       + 9 * officialRecord.gpsElement.nOfData8 ∧
     ∃ block : IOBlock, block.Valid ∧ HoldsAt testPacket (35 + 15) block.encode ∧
       officialRecord.gpsElement.data1 = block.data1 ∧
       officialRecord.gpsElement.data2 = block.data2 ∧
       officialRecord.gpsElement.data4 = block.data4 ∧
       officialRecord.gpsElement.data8
         = block.data8.map (fun i => { id := i.1, value := toHex i.2 })) :=
  ⟨by decide, by decide,
    gps_io_groups testPacket 35
      { data := officialRecord.gpsElement, size := officialRecord.encodeGPS.length }
      (parseGPSElement_encode officialRecord (by decide) ⟨[0x01, 0x00, 0x00, 0xC7, 0xCF], by decide⟩)
      (by decide)⟩

/-- An id that occurs twice in the 1-byte group and again in the 2-byte
group is returned three times. -/
theorem duplicate_ids_kept :
    (parseGPSElement duplicateIdRecord.encodeGPS 0).map
      (fun g => (g.data.data1, g.data.data2, g.size))
      = some ([{ id := 1, value := 3 }, { id := 1, value := 1 }], [{ id := 1, value := 0x5E0F }],
              42) := by
  decide

/-! ## C16: the checksum function against the reference CRC-16 -/

theorem xor_mod_two_pow (a b n : Nat) : (a ^^^ b) % 2 ^ n = (a % 2 ^ n) ^^^ (b % 2 ^ n) := by
  apply Nat.eq_of_testBit_eq
  intro i
  simp only [Nat.testBit_mod_two_pow, Nat.testBit_xor]
  cases decide (i < n) <;> simp

theorem and_0x8000_mod (c : Nat) : (c % 65536) &&& 0x8000 = c &&& 0x8000 := by
  have h15 : (0x8000 : Nat) = 2 ^ 15 := by norm_num
  rw [h15, Nat.and_two_pow, Nat.and_two_pow, show (65536 : Nat) = 2 ^ 16 by norm_num,
    Nat.testBit_mod_two_pow]
  simp

/-- The low sixteen bits of the register after one turn of the inner loop
are the reference shift of its low sixteen bits before. -/
theorem crcShift_mod (c : Nat) : crcShift c % 65536 = referenceShift (c % 65536) := by
  have hx := xor_mod_two_pow (c * 2 % 4294967296) 0x1021 16
  have hy := xor_mod_two_pow (c % 65536 * 2) 0x1021 16
  have h16 : (2 : Nat) ^ 16 = 65536 := by norm_num
  rw [h16] at hx hy
  have e : c * 2 % 4294967296 % 65536 = c % 65536 * 2 % 65536 := by omega
  unfold crcShift referenceShift
  rw [and_0x8000_mod]
  split
  · rw [hx, hy, e]
  · exact e

theorem iterate_crcShift_mod (k c : Nat) :
    crcShift^[k] c % 65536 = referenceShift^[k] (c % 65536) := by
  induction k generalizing c with
  | zero => rfl
  | succ k ih => rw [Function.iterate_succ_apply, Function.iterate_succ_apply, ih, crcShift_mod]

theorem crcByte_mod (c : Nat) (b : UInt8) :
    crcByte c b % 65536 = referenceShift^[8] ((c % 65536) ^^^ (b.toNat * 256)) := by
  have hb := UInt8.toNat_lt b
  have hx := xor_mod_two_pow c (b.toNat * 256) 16
  have h16 : (2 : Nat) ^ 16 = 65536 := by norm_num
  rw [h16] at hx
  unfold crcByte
  rw [iterate_crcShift_mod, hx, Nat.mod_eq_of_lt (show b.toNat * 256 < 65536 by omega)]

theorem foldl_crcByte_mod (buffer : Buffer) : ∀ c : Nat,
    buffer.foldl crcByte c % 65536 =
      buffer.foldl (fun crc b => referenceShift^[8] (crc ^^^ (b.toNat * 256))) (c % 65536) := by
  induction buffer with
  | nil => intro c; rfl
  | cons b rest ih =>
    intro c
    rw [List.foldl_cons, List.foldl_cons, ih, crcByte_mod]

/-- C16: `calculateCRC16`, whose register grows in a 32-bit integer and is
masked once at the end, returns for every byte sequence the value of the
reference CRC-16 (polynomial `0x1021`, initial value 0, no reflection, no
final xor, register masked to 16 bits at every step), and that value lies in
`0 .. 65535`. -/
theorem calculateCRC16_eq_reference (buffer : Buffer) :
    calculateCRC16 buffer = crc16Reference buffer ∧ calculateCRC16 buffer < 65536 := by
  have hm : ∀ x : Nat, x &&& 0xFFFF = x % 65536 := fun x => by
    have := Nat.and_pow_two_sub_one_eq_mod x 16
    norm_num at this
    exact this
  unfold calculateCRC16
  rw [hm]
  refine ⟨?_, Nat.mod_lt _ (by norm_num)⟩
  rw [foldl_crcByte_mod]
  rfl

/-! ## C17: the checksum of the documentation example -/

theorem officialDataField_eq :
    officialDataField =
      [0x08, 0x01, 0x00, 0x00, 0x01, 0x6B, 0x40, 0xD8, 0xEA, 0x30, 0x01, 0x00, 0x00, 0x00, 0x00,
       0x00, 0x00, 0x00, 0x00, 0x00, 0x00, 0x00, 0x00, 0x00, 0x00, 0x00, 0x01, 0x05, 0x02, 0x15,
       0x03, 0x01, 0x01, 0x01, 0x42, 0x5E, 0x0F, 0x01, 0xF1, 0x00, 0x00, 0x60, 0x1A, 0x01, 0x4E,
       0x00, 0x00, 0x00, 0x00, 0x00, 0x00, 0x00, 0x00, 0x01] := by
  decide

/-- The register of `calculateCRC16` byte by byte over the data field of the
documentation example; the result is `0xBCCC`. -/
theorem calculateCRC16_officialDataField : calculateCRC16 officialDataField = 0xBCCC := by
  rw [calculateCRC16, officialDataField_eq]
  simp only [List.foldl_cons, List.foldl_nil]
  rw [show crcByte 0 8 = 557320 by decide,
    show crcByte 557320 1 = 143169928 by decide,
    show crcByte 143169928 0 = 2291178128 by decide,
    show crcByte 2291178128 0 = 2425598707 by decide,
    show crcByte 2425598707 1 = 2478335160 by decide,
    show crcByte 2478335160 107 = 3088009711 by decide,
    show crcByte 3088009711 64 = 252280361 by decide,
    show crcByte 252280361 216 = 162331692 by decide,
    show crcByte 162331692 234 = 2887212791 by decide,
    show crcByte 2887212791 48 = 392723048 by decide,
    show crcByte 392723048 1 = 1752999932 by decide,
    show crcByte 1752999932 0 = 2091727117 by decide,
    show crcByte 2091727117 0 = 2906303098 by decide,
    show crcByte 2906303098 0 = 983592608 by decide,
    show crcByte 983592608 0 = 2691181928 by decide,
    show crcByte 2691181928 0 = 1747951055 by decide,
    show crcByte 1747951055 0 = 798268692 by decide,
    show crcByte 798268692 0 = 2492745236 by decide,
    show crcByte 2492745236 0 = 2487368706 by decide,
    show crcByte 2487368706 0 = 1111487967 by decide,
    show crcByte 1111487967 0 = 1073373370 by decide,
    show crcByte 1073373370 0 = 4201043622 by decide,
    show crcByte 4201043622 0 = 1725631931 by decide,
    show crcByte 1725631931 0 = 3675089581 by decide,
    show crcByte 3675089581 0 = 225206508 by decide,
    show crcByte 225206508 0 = 1818656934 by decide,
    show crcByte 1818656934 1 = 1720264617 by decide,
    show crcByte 1720264617 5 = 2300620064 by decide,
    show crcByte 2300620064 2 = 547709957 by decide,
    show crcByte 547709957 21 = 2776001462 by decide,
    show crcByte 2776001462 3 = 1986943918 by decide,
    show crcByte 1986943918 1 = 1851741631 by decide,
    show crcByte 1851741631 1 = 1599186289 by decide,
    show crcByte 1599186289 1 = 1370391662 by decide,
    show crcByte 1370391662 66 = 2932529034 by decide,
    show crcByte 2932529034 94 = 3397487265 by decide,
    show crcByte 3397487265 15 = 2173526061 by decide,
    show crcByte 2173526061 1 = 2372358535 by decide,
    show crcByte 2372358535 241 = 1739207402 by decide,
    show crcByte 1739207402 0 = 2855402513 by decide,
    show crcByte 2855402513 0 = 838025107 by decide,
    show crcByte 838025107 96 = 4082776090 by decide,
    show crcByte 4082776090 26 = 1512054304 by decide,
    show crcByte 1512054304 1 = 538887134 by decide,
    show crcByte 538887134 78 = 512073253 by decide,
    show crcByte 512073253 0 = 2241283959 by decide,
    show crcByte 2241283959 0 = 2537770787 by decide,
    show crcByte 2537770787 0 = 1129028139 by decide,
    show crcByte 1129028139 0 = 1267927539 by decide,
    show crcByte 1267927539 0 = 2466865705 by decide,
    show crcByte 2466865705 0 = 157574628 by decide,
    show crcByte 157574628 0 = 1684264963 by decide,
    show crcByte 1684264963 0 = 1674922357 by decide,
    show crcByte 1674922357 1 = 3578576076 by decide]
  decide

/-- The register of CRC-16/IBM byte by byte over the same bytes; the result
is `0xC7CF`. -/
theorem crc16IBM_officialDataField : crc16IBM officialDataField = 0xC7CF := by
  rw [crc16IBM, officialDataField_eq]
  simp only [List.foldl_cons, List.foldl_nil]
  rw [show ibmShift^[8] (0 ^^^ UInt8.toNat 8) = 50689 by decide,
    show ibmShift^[8] (50689 ^^^ UInt8.toNat 1) = 198 by decide,
    show ibmShift^[8] (198 ^^^ UInt8.toNat 0) = 21120 by decide,
    show ibmShift^[8] (21120 ^^^ UInt8.toNat 0) = 41043 by decide,
    show ibmShift^[8] (41043 ^^^ UInt8.toNat 1) = 64801 by decide,
    show ibmShift^[8] (64801 ^^^ UInt8.toNat 107) = 63356 by decide,
    show ibmShift^[8] (63356 ^^^ UInt8.toNat 64) = 4599 by decide,
    show ibmShift^[8] (4599 ^^^ UInt8.toNat 216) = 56400 by decide,
    show ibmShift^[8] (56400 ^^^ UInt8.toNat 234) = 45917 by decide,
    show ibmShift^[8] (45917 ^^^ UInt8.toNat 48) = 60786 by decide,
    show ibmShift^[8] (60786 ^^^ UInt8.toNat 1) = 58796 by decide,
    show ibmShift^[8] (58796 ^^^ UInt8.toNat 0) = 32229 by decide,
    show ibmShift^[8] (32229 ^^^ UInt8.toNat 0) = 35772 by decide,
    show ibmShift^[8] (35772 ^^^ UInt8.toNat 0) = 45450 by decide,
    show ibmShift^[8] (45450 ^^^ UInt8.toNat 0) = 42800 by decide,
    show ibmShift^[8] (42800 ^^^ UInt8.toNat 0) = 5287 by decide,
    show ibmShift^[8] (5287 ^^^ UInt8.toNat 0) = 47701 by decide,
    show ibmShift^[8] (47701 ^^^ UInt8.toNat 0) = 16250 by decide,
    show ibmShift^[8] (16250 ^^^ UInt8.toNat 0) = 58302 by decide,
    show ibmShift^[8] (58302 ^^^ UInt8.toNat 0) = 28771 by decide,
    show ibmShift^[8] (28771 ^^^ UInt8.toNat 0) = 10544 by decide,
    show ibmShift^[8] (10544 ^^^ UInt8.toNat 0) = 5161 by decide,
    show ibmShift^[8] (5161 ^^^ UInt8.toNat 0) = 57045 by decide,
    show ibmShift^[8] (57045 ^^^ UInt8.toNat 0) = 40735 by decide,
    show ibmShift^[8] (40735 ^^^ UInt8.toNat 0) = 51422 by decide,
    show ibmShift^[8] (51422 ^^^ UInt8.toNat 0) = 22600 by decide,
    show ibmShift^[8] (22600 ^^^ UInt8.toNat 1) = 63129 by decide,
    show ibmShift^[8] (63129 ^^^ UInt8.toNat 5) = 27126 by decide,
    show ibmShift^[8] (27126 ^^^ UInt8.toNat 2) = 34664 by decide,
    show ibmShift^[8] (34664 ^^^ UInt8.toNat 21) = 8519 by decide,
    show ibmShift^[8] (8519 ^^^ UInt8.toNat 3) = 13089 by decide,
    show ibmShift^[8] (13089 ^^^ UInt8.toNat 1) = 55346 by decide,
    show ibmShift^[8] (55346 ^^^ UInt8.toNat 1) = 5528 by decide,
    show ibmShift^[8] (5528 ^^^ UInt8.toNat 1) = 27349 by decide,
    show ibmShift^[8] (27349 ^^^ UInt8.toNat 66) = 44587 by decide,
    show ibmShift^[8] (44587 ^^^ UInt8.toNat 94) = 59247 by decide,
    show ibmShift^[8] (59247 ^^^ UInt8.toNat 15) = 10471 by decide,
    show ibmShift^[8] (10471 ^^^ UInt8.toNat 1) = 35497 by decide,
    show ibmShift^[8] (35497 ^^^ UInt8.toNat 241) = 64139 by decide,
    show ibmShift^[8] (64139 ^^^ UInt8.toNat 0) = 26554 by decide,
    show ibmShift^[8] (26554 ^^^ UInt8.toNat 0) = 46054 by decide,
    show ibmShift^[8] (46054 ^^^ UInt8.toNat 96) = 41522 by decide,
    show ibmShift^[8] (41522 ^^^ UInt8.toNat 26) = 7842 by decide,
    show ibmShift^[8] (7842 ^^^ UInt8.toNat 1) = 31070 by decide,
    show ibmShift^[8] (31070 ^^^ UInt8.toNat 78) = 52344 by decide,
    show ibmShift^[8] (52344 ^^^ UInt8.toNat 0) = 8908 by decide,
    show ibmShift^[8] (8908 ^^^ UInt8.toNat 0) = 21794 by decide,
    show ibmShift^[8] (21794 ^^^ UInt8.toNat 0) = 6613 by decide,
    show ibmShift^[8] (6613 ^^^ UInt8.toNat 0) = 40920 by decide,
    show ibmShift^[8] (40920 ^^^ UInt8.toNat 0) = 23199 by decide,
    show ibmShift^[8] (23199 ^^^ UInt8.toNat 0) = 26650 by decide,
    show ibmShift^[8] (26650 ^^^ UInt8.toNat 0) = 52201 by decide,
    show ibmShift^[8] (52201 ^^^ UInt8.toNat 0) = 36362 by decide,
    show ibmShift^[8] (36362 ^^^ UInt8.toNat 1) = 51151 by decide]

/-- C17, the code at the failing input: the data field of the documentation
example (54 bytes, codec id through Number of Data 2) is followed in
`testPacket` by the checksum `0000C7CF`, and `0xC7CF` is its CRC-16/IBM;
`calculateCRC16` returns `0xBCCC` for it. -/
theorem calculateCRC16_is_not_ibm :
    officialDataField.length = 54 ∧
    readUInt32BE testPacket 78 = some 0xC7CF ∧
    crc16IBM officialDataField = 0xC7CF ∧
    calculateCRC16 officialDataField = 0xBCCC ∧
    calculateCRC16 officialDataField ≠ crc16IBM officialDataField := by
  refine ⟨by decide, by decide, crc16IBM_officialDataField, calculateCRC16_officialDataField, ?_⟩
  rw [crc16IBM_officialDataField, calculateCRC16_officialDataField]
  decide

/-! ## C30: an IO block read by `parseIOElement` -/

theorem length_encode_block (io : IOBlock) (hv : io.Valid) :
    io.encode.length = 6 + 2 * io.data1.length + 3 * io.data2.length + 5 * io.data4.length
      + 9 * io.data8.length := by
  obtain ⟨_, _, _, _, _, _, _, _, _, h8⟩ := hv
  have e1 := length_encodeItems writeUInt8 1 (fun _ => rfl) io.data1
  have e2 := length_encodeItems writeUInt16BE 2 (fun _ => rfl) io.data2
  have e4 := length_encodeItems writeUInt32BE 4 (fun _ => rfl) io.data4
  have e8 := length_encodeItems8 io.data8 h8
  unfold IOBlock.encode
  simp only [List.length_append, length_writeUInt8, e1, e2, e4, e8]
  omega

/-- C30: when the bytes of a well-formed IO block `[eventIO][totalIO]
[n1 + pairs][n2 + pairs][n4 + pairs][n8 + pairs]` stand in the buffer from
`offset` on (so the block lies within the buffer), `parseIOElement(buffer,
offset)` succeeds and returns `eventIOID`, `nOfTotalIO`, the four counts and
the four lists with the encoded pairs in order (the 8-byte values as hex
strings), with `size = 6 + 2*n1 + 3*n2 + 5*n4 + 9*n8`. -/
theorem io_block_decoded (buffer : Buffer) (offset : Nat) (io : IOBlock) (hv : io.Valid)
    (h : HoldsAt buffer offset io.encode) :
    offset + (6 + 2 * io.data1.length + 3 * io.data2.length + 5 * io.data4.length
      + 9 * io.data8.length) ≤ buffer.length ∧
    parseIOElement buffer offset = some
      { data :=
          { eventIOID := io.eventIOID, nOfTotalIO := io.nOfTotalIO
            nOfData1 := io.data1.length, data1 := io.data1
            nOfData2 := io.data2.length, data2 := io.data2
            nOfData4 := io.data4.length, data4 := io.data4
            nOfData8 := io.data8.length
            data8 := io.data8.map fun i => { id := i.1, value := toHex i.2 } }
        size := 6 + 2 * io.data1.length + 3 * io.data2.length + 5 * io.data4.length
          + 9 * io.data8.length } := by
  have hlen := length_encode_block io hv
  refine ⟨?_, ?_⟩
  · have := holdsAt_length h
    omega
  · rw [parseIOElement_encode io hv h, hlen]
    rfl

/-- C30, witness: the buffer `ioBuffer` of `debug-avl-parsing.js` at offset
0, with counts 2, 1, 1, 1; it has 27 bytes and the size returned is 27. -/
theorem io_block_decoded_witness :
    ioBuffer.length = 27 ∧
    parseIOElement ioBuffer 0 = some
      { data :=
          { eventIOID := 1, nOfTotalIO := 5
            nOfData1 := 2, data1 := [{ id := 0x15, value := 0x03 }, { id := 0x01, value := 0x01 }]
            nOfData2 := 1, data2 := [{ id := 0x42, value := 0x5E0F }]
            nOfData4 := 1, data4 := [{ id := 0xF1, value := 0x0000601A }]
            nOfData8 := 1, data8 := [{ id := 0x4E, value := "0000000000000000" }] }
        size := 27 } :=
  ⟨by decide, (io_block_decoded ioBuffer 0 officialRecord.io (by decide) ⟨[], by decide⟩).2⟩

/-! ## C23 and C24: what `forwardToWebApp` posts -/

theorem parseRecords_length (buffer : Buffer) (n : Nat) :
    ∀ (offset : Nat) (records : List AVLRecord) (stop : Nat),
      parseRecords buffer n offset = some (records, stop) → records.length = n := by
  induction n with
  | zero =>
    intro offset records stop h
    simp only [parseRecords, Option.some.injEq, Prod.mk.injEq] at h
    rw [← h.1]
    rfl
  | succ n ih =>
    intro offset records stop h
    unfold parseRecords at h
    cases hr : parseAVLRecord buffer offset with
    | none => rw [hr] at h; cases h
    | some record =>
      rw [hr] at h
      change (parseRecords buffer n record.nextOffset >>= _) = some (records, stop) at h
      cases hrest : parseRecords buffer n record.nextOffset with
      | none => rw [hrest] at h; cases h
      | some x =>
        obtain ⟨rest, stop'⟩ := x
        rw [hrest] at h
        simp only [Option.some_bind, Option.bind_eq_bind, pure, Option.some.injEq,
          Prod.mk.injEq] at h
        rw [← h.1, List.length_cons, ih _ _ _ hrest]

theorem parse_records_length {buffer : Buffer} {packet : Packet}
    (h : parseTeltonikaAVLPacket buffer = some packet) :
    packet.records.length = packet.recordCount := by
  obtain ⟨_, _, _, _, n, records, _, _, _, _, _, _, _, _, _, hrec, _, _, hpk⟩ := parse_some_inv h
  rw [hpk]
  exact parseRecords_length buffer n _ _ _ hrec

/-- C23, counterexample: the frame `zeroRecordFrame` is accepted, with
`recordCount` 0 and no record; `forwardToWebApp` posts nothing for it (its
loop body is never entered) and resolves, and the handler writes `0x01`. -/
theorem zero_record_packet_not_posted :
    (parseTeltonikaAVLPacket zeroRecordFrame).map (fun p => (p.recordCount, p.records.length))
      = some (0, 0) ∧
    (parseTeltonikaAVLPacket zeroRecordFrame).map
      (fun p => (forwardToWebApp p zeroRecordFrame fun _ => true).1.length) = some 0 ∧
    (onData initialState 1 0 zeroRecordFrame fun _ => true).posted = [] ∧
    (onData initialState 1 0 zeroRecordFrame fun _ => true).written = [[0x01]] := by
  decide

/-- C23, amended: for every packet that `parseTeltonikaAVLPacket` returns,
`forwardToWebApp` performs exactly one HTTP POST when the packet has at least
one record, and none when its `recordCount` is 0, in which case the call
resolves. -/
theorem forward_posts_once_unless_empty (buffer : Buffer) (post : PostBody → Bool) (n : Nat)
    (h : (parseTeltonikaAVLPacket buffer).map (fun p => p.recordCount) = some n) :
    (parseTeltonikaAVLPacket buffer).map (fun p => (forwardToWebApp p buffer post).1.length)
      = some (if n = 0 then 0 else 1) ∧
    (n = 0 → (parseTeltonikaAVLPacket buffer).map (fun p => (forwardToWebApp p buffer post).2)
      = some true) := by
  cases hp : parseTeltonikaAVLPacket buffer with
  | none => rw [hp] at h; exact absurd h (by simp)
  | some packet =>
    rw [hp] at h
    have hn : packet.recordCount = n := by simpa using h
    have hlen := parse_records_length hp
    rw [hn] at hlen
    cases hrec : packet.records with
    | nil =>
      rw [hrec] at hlen
      have h0 : n = 0 := by simpa using hlen.symm
      simp [forwardToWebApp, hrec, h0]
    | cons record rest =>
      rw [hrec] at hlen
      have h0 : n ≠ 0 := by
        intro hz
        rw [hz] at hlen
        simp at hlen
      simp [forwardToWebApp, hrec, h0]

/-- C23, witness: the packet of `final-working-test.js`, one record, one
post. -/
theorem forward_posts_once_unless_empty_witness :
    (parseTeltonikaAVLPacket minimalAVLPacket).map
        (fun p => (forwardToWebApp p minimalAVLPacket fun _ => true).1.length)
      = some (if 1 = 0 then 0 else 1) ∧
    (1 = 0 → (parseTeltonikaAVLPacket minimalAVLPacket).map
        (fun p => (forwardToWebApp p minimalAVLPacket fun _ => true).2) = some true) :=
  forward_posts_once_unless_empty minimalAVLPacket (fun _ => true) 1 (by decide)

/-- C24: for every data event whose buffer decodes to a packet with at least
one record, the handler posts exactly one body; its `parsedData.imei` and
`parsedData.codecId` are the packet's, `parsedData.recordCount` is 1,
`parsedData.records` is the one-element list of the packet's first record,
`rawData` is the hex of the received buffer and `source` is
`'teltonika-tcp-server'`. The records after the first are in no posted body. -/
theorem posted_body_first_record (s : ServerState) (connectionId now : Nat) (data : Buffer)
    (post : PostBody → Bool)
    (h : (parseTeltonikaAVLPacket data).map (fun p => p.records.isEmpty) = some false) :
    ∃ (packet : Packet) (record : AVLRecord) (rest : List AVLRecord),
      parseTeltonikaAVLPacket data = some packet ∧ packet.records = record :: rest ∧
      (onData s connectionId now data post).posted =
        [{ imei := packet.imei, records := [record], recordCount := 1,
           codecId := packet.codecId, rawData := toHex data,
           source := "teltonika-tcp-server" }] := by
  cases hp : parseTeltonikaAVLPacket data with
  | none => rw [hp] at h; exact absurd h (by simp)
  | some packet =>
    rw [hp] at h
    cases hrec : packet.records with
    | nil => rw [Option.map_some', hrec] at h; exact absurd h (by simp)
    | cons record rest =>
      refine ⟨packet, record, rest, rfl, hrec, ?_⟩
      simp [onData, onDataDecode, hp, forwardToWebApp, hrec]

/-- C24, witness: the packet of `final-working-test.js` on the server just
started. -/
theorem posted_body_first_record_witness :
    ∃ (packet : Packet) (record : AVLRecord) (rest : List AVLRecord),
      parseTeltonikaAVLPacket minimalAVLPacket = some packet ∧
      packet.records = record :: rest ∧
      (onData initialState 1 0 minimalAVLPacket fun _ => true).posted =
        [{ imei := packet.imei, records := [record], recordCount := 1,
           codecId := packet.codecId, rawData := toHex minimalAVLPacket,
           source := "teltonika-tcp-server" }] :=
  posted_body_first_record initialState 1 0 minimalAVLPacket (fun _ => true) (by decide)

/-- The frame `mismatchFrame` decodes to a packet of two records; the one
body posted for it holds one record and says `recordCount` 1. -/
theorem second_record_not_posted :
    (parseTeltonikaAVLPacket mismatchFrame).map (fun p => p.records.length) = some 2 ∧
    (onData initialState 1 0 mismatchFrame fun _ => true).posted.map
      (fun body => (body.recordCount, body.records.length)) = [(1, 1)] := by
  decide

/-! ## The registry under the `data` handler -/

theorem mapGet_updateConnection (connections : List (Nat × Connection)) (connectionId key : Nat)
    (f : Connection → Connection) :
    mapGet (updateConnection connections connectionId f) key =
      if key = connectionId then (mapGet connections key).map f else mapGet connections key := by
  induction connections with
  | nil => simp [mapGet, updateConnection]
  | cons entry rest ih =>
    obtain ⟨k, c⟩ := entry
    unfold mapGet updateConnection at ih ⊢
    by_cases hk : k = connectionId
    · by_cases hkey : key = connectionId
      · subst hk; subst hkey
        simp
      · have hne : ¬ k = key := fun h => hkey (h ▸ hk)
        simp only [List.map_cons, if_pos hk, List.find?_cons, decide_eq_true_eq, hne,
          decide_False, if_neg hkey] at ih ⊢
        exact ih
    · by_cases hkey : key = connectionId
      · have hne : ¬ k = key := fun h => hk (h.trans hkey)
        simp only [List.map_cons, if_neg hk, List.find?_cons, decide_eq_true_eq, hne,
          decide_False, if_pos hkey] at ih ⊢
        exact ih
      · by_cases hkk : k = key
        · simp [hk, hkk, hkey]
        · simp only [List.map_cons, if_neg hk, List.find?_cons, decide_eq_true_eq, hkk,
            decide_False, if_neg hkey] at ih ⊢
          exact ih

theorem keys_updateConnection (connections : List (Nat × Connection)) (connectionId : Nat)
    (f : Connection → Connection) :
    (updateConnection connections connectionId f).map Prod.fst = connections.map Prod.fst := by
  unfold updateConnection
  rw [List.map_map]
  apply List.map_congr_left
  intro entry _
  by_cases h : entry.1 = connectionId <;> simp [h]

theorem connections_onData (s : ServerState) (connectionId now : Nat) (data : Buffer)
    (post : PostBody → Bool) :
    (onData s connectionId now data post).state.connections =
      updateConnection s.connections connectionId fun c =>
        { c with
          packetsReceived := c.packetsReceived + 1
          lastPacketAt := some now
          imei := match parseTeltonikaAVLPacket data with
            | some parsedData => some parsedData.imei
            | none => c.imei } := by
  cases hp : parseTeltonikaAVLPacket data with
  | none =>
    simp only [onData, onDataDecode, hp]
  | some parsedData =>
    have hcomp : ∀ (l : List (Nat × Connection)) (f g : Connection → Connection),
        updateConnection (updateConnection l connectionId f) connectionId g
          = updateConnection l connectionId (g ∘ f) := by
      intro l f g
      unfold updateConnection
      rw [List.map_map]
      apply List.map_congr_left
      intro entry _
      by_cases h : entry.1 = connectionId <;> simp [h]
    simp only [onData, onDataDecode, hp, onDataForwarded]
    split <;> simp only [hcomp] <;> rfl

/-! ## C27: the last-seen IMEI -/

/-- C27: a data event of connection `connectionId` whose decode succeeds sets
the `imei` of that connection's entry to the packet's IMEI; one whose decode
fails leaves `imei` as it was; in both cases `packetsReceived` goes up by one,
`lastPacketAt` is set, and `clientAddress` and `connectedAt` stay. The entry
of every other connection is unchanged, and so is the set of registered
ids. -/
theorem last_seen_imei (s : ServerState) (connectionId now : Nat) (data : Buffer)
    (post : PostBody → Bool) :
    (∀ parsedData, parseTeltonikaAVLPacket data = some parsedData →
      mapGet (onData s connectionId now data post).state.connections connectionId =
        (mapGet s.connections connectionId).map fun c =>
          { c with packetsReceived := c.packetsReceived + 1, lastPacketAt := some now,
                   imei := some parsedData.imei }) ∧
    (parseTeltonikaAVLPacket data = none →
      mapGet (onData s connectionId now data post).state.connections connectionId =
        (mapGet s.connections connectionId).map fun c =>
          { c with packetsReceived := c.packetsReceived + 1, lastPacketAt := some now }) ∧
    (∀ other, other ≠ connectionId →
      mapGet (onData s connectionId now data post).state.connections other =
        mapGet s.connections other) ∧
    (onData s connectionId now data post).state.connections.map Prod.fst =
      s.connections.map Prod.fst := by
  rw [connections_onData]
  refine ⟨?_, ?_, ?_, ?_⟩
  · intro parsedData hp
    rw [mapGet_updateConnection, if_pos rfl, hp]
  · intro hp
    rw [mapGet_updateConnection, if_pos rfl, hp]
  · intro other hne
    rw [mapGet_updateConnection, if_neg hne]
  · exact keys_updateConnection _ _ _

/-- C27, witness: with connections 1 and 2 registered, the packet of
`final-working-test.js` on connection 1 sets its `imei`; the buffer `01 02 03`
that follows on connection 1 fails to decode and leaves the `imei`; the entry
of connection 2 is the same throughout. -/
theorem last_seen_imei_witness :
    mapGet (onData twoConnections 1 5 minimalAVLPacket fun _ => true).state.connections 1 =
      some { clientAddress := "10.0.0.7:40001", connectedAt := 0, packetsReceived := 1,
             lastPacketAt := some 5, imei := some "123456789012345" } ∧
    mapGet (onData (onData twoConnections 1 5 minimalAVLPacket fun _ => true).state 1 6
        [0x01, 0x02, 0x03] fun _ => true).state.connections 1 =
      some { clientAddress := "10.0.0.7:40001", connectedAt := 0, packetsReceived := 2,
             lastPacketAt := some 6, imei := some "123456789012345" } ∧
    mapGet (onData twoConnections 1 5 minimalAVLPacket fun _ => true).state.connections 2 =
      mapGet twoConnections.connections 2 := by
  refine ⟨?_, ?_, ?_⟩
  · have h := (last_seen_imei twoConnections 1 5 minimalAVLPacket fun _ => true).1
    obtain ⟨p, hp⟩ : ∃ p, parseTeltonikaAVLPacket minimalAVLPacket = some p :=
      Option.isSome_iff_exists.mp (by decide)
    have himei : p.imei = "123456789012345" := by
      have : (parseTeltonikaAVLPacket minimalAVLPacket).map (fun p => p.imei)
          = some "123456789012345" := by decide
      rw [hp] at this
      simpa using this
    rw [h p hp, himei]
    decide
  · have h := (last_seen_imei (onData twoConnections 1 5 minimalAVLPacket fun _ => true).state
      1 6 [0x01, 0x02, 0x03] fun _ => true).2.1 (by decide)
    rw [h]
    decide
  · exact (last_seen_imei twoConnections 1 5 minimalAVLPacket fun _ => true).2.2.1 2 (by decide)

/-! ## C26: the connection limit -/

/-- What holds of the registry in every reachable state: at most
`maxConnections` entries, no id twice, and no id above `connectionCount`. -/
theorem registry_step_invariant (maxConnections : Nat) (s : ServerState) (e : SocketEvent)
    (hlen : s.connections.length ≤ maxConnections)
    (hnodup : (s.connections.map Prod.fst).Nodup)
    (hle : ∀ entry ∈ s.connections, entry.1 ≤ s.connectionCount) :
    (registryStep maxConnections s e).connections.length ≤ maxConnections ∧
    ((registryStep maxConnections s e).connections.map Prod.fst).Nodup ∧
    ∀ entry ∈ (registryStep maxConnections s e).connections,
      entry.1 ≤ (registryStep maxConnections s e).connectionCount := by
  cases e with
  | connection clientAddress now =>
    unfold registryStep onConnection
    by_cases hfull : s.connections.length ≥ maxConnections
    · simp only [hfull, if_true]
      exact ⟨hlen, hnodup, fun entry he => Nat.le_succ_of_le (hle entry he)⟩
    · have hany : s.connections.any (fun entry => entry.1 = s.connectionCount + 1) = false := by
        rw [List.any_eq_false]
        intro entry he
        have := hle entry he
        simp only [decide_eq_true_eq]
        omega
      simp only [hfull, if_false, mapSet, hany, Bool.false_eq_true]
      refine ⟨?_, ?_, ?_⟩
      · rw [List.length_append, List.length_singleton]
        omega
      · rw [List.map_append, List.map_singleton]
        apply List.Nodup.append hnodup (List.nodup_singleton _)
        intro k hk hk'
        rw [List.mem_singleton] at hk'
        obtain ⟨entry, he, rfl⟩ := List.mem_map.mp hk
        have := hle entry he
        omega
      · intro entry he
        rcases List.mem_append.mp he with h | h
        · exact Nat.le_succ_of_le (hle entry h)
        · rw [List.mem_singleton] at h
          rw [h]
  | close connectionId =>
    unfold registryStep onClose mapDelete
    refine ⟨?_, ?_, ?_⟩
    · exact le_trans (List.length_filter_le _ _) hlen
    · exact hnodup.sublist ((List.filter_sublist _).map Prod.fst)
    · intro entry he
      exact hle entry (List.mem_of_mem_filter he)

theorem registry_invariant (maxConnections : Nat) (events : List SocketEvent) :
    ∀ s : ServerState, s.connections.length ≤ maxConnections →
      (s.connections.map Prod.fst).Nodup →
      (∀ entry ∈ s.connections, entry.1 ≤ s.connectionCount) →
      (events.foldl (registryStep maxConnections) s).connections.length ≤ maxConnections ∧
      ((events.foldl (registryStep maxConnections) s).connections.map Prod.fst).Nodup := by
  induction events with
  | nil => intro s hlen hnodup _; exact ⟨hlen, hnodup⟩
  | cons e rest ih =>
    intro s hlen hnodup hle
    obtain ⟨h1, h2, h3⟩ := registry_step_invariant maxConnections s e hlen hnodup hle
    exact ih _ h1 h2 h3

theorem openAll_destroyed (maxConnections : Nat) (clients : List (String × Nat)) :
    ∀ s : ServerState, s.connections.length ≤ maxConnections →
      (∀ entry ∈ s.connections, entry.1 ≤ s.connectionCount) →
      (openAll maxConnections s clients).2 =
        List.replicate (min clients.length (maxConnections - s.connections.length)) false ++
        List.replicate (clients.length - (maxConnections - s.connections.length)) true := by
  induction clients with
  | nil => intro s _ _; simp [openAll]
  | cons client rest ih =>
    intro s hlen hle
    obtain ⟨clientAddress, now⟩ := client
    have hstep := registry_step_invariant maxConnections s (.connection clientAddress now) hlen
    unfold openAll
    simp only
    by_cases hfull : s.connections.length ≥ maxConnections
    · have hs : (onConnection maxConnections s clientAddress now).state.connections
          = s.connections := by
        simp [onConnection, hfull]
      have hd : (onConnection maxConnections s clientAddress now).destroyed = true := by
        simp [onConnection, hfull]
      have hle' : ∀ entry ∈ (onConnection maxConnections s clientAddress now).state.connections,
          entry.1 ≤ (onConnection maxConnections s clientAddress now).state.connectionCount := by
        intro entry he
        rw [hs] at he
        have := hle entry he
        simp only [onConnection, hfull, if_true]
        omega
      rw [ih _ (by rw [hs]; exact hlen) hle', hs, hd]
      have hz : maxConnections - s.connections.length = 0 := by omega
      simp [hz, List.replicate_succ]
    · have hany : s.connections.any (fun entry => entry.1 = s.connectionCount + 1) = false := by
        rw [List.any_eq_false]
        intro entry he
        have := hle entry he
        simp only [decide_eq_true_eq]
        omega
      have hs : (onConnection maxConnections s clientAddress now).state.connections.length
          = s.connections.length + 1 := by
        simp [onConnection, hfull, mapSet, hany]
      have hd : (onConnection maxConnections s clientAddress now).destroyed = false := by
        simp [onConnection, hfull]
      have hle' : ∀ entry ∈ (onConnection maxConnections s clientAddress now).state.connections,
          entry.1 ≤ (onConnection maxConnections s clientAddress now).state.connectionCount := by
        intro entry he
        simp only [onConnection, hfull, if_false, mapSet, hany, Bool.false_eq_true] at he ⊢
        rcases List.mem_append.mp he with h | h
        · exact Nat.le_succ_of_le (hle entry h)
        · rw [List.mem_singleton] at h
          rw [h]
      rw [ih _ (by rw [hs]; omega) hle', hs, hd]
      have h1 : min (rest.length + 1) (maxConnections - s.connections.length)
          = min rest.length (maxConnections - (s.connections.length + 1)) + 1 := by
        omega
      have h2 : rest.length + 1 - (maxConnections - s.connections.length)
          = rest.length - (maxConnections - (s.connections.length + 1)) := by omega
      rw [List.length_cons, h1, h2, List.replicate_succ, List.cons_append]

/-- C26: with `MAX_CONNECTIONS = maxConnections`, in every state reached from
the empty registry by connection and close steps the registry has at most
`maxConnections` entries (and no id twice, so that the length of the list is
`connections.size`); a socket that arrives while the registry has
`maxConnections` entries is destroyed, gets no handler (so nothing is ever
read from it), nothing is written to it and the registry stays as it was;
and of `maxConnections + 1` sockets arriving with no close in between,
exactly the last is destroyed. -/
theorem connection_limit (maxConnections : Nat) :
    (∀ events : List SocketEvent,
      (events.foldl (registryStep maxConnections) initialState).connections.length
        ≤ maxConnections ∧
      ((events.foldl (registryStep maxConnections) initialState).connections.map
        Prod.fst).Nodup) ∧
    (∀ (s : ServerState) (clientAddress : String) (now : Nat),
      s.connections.length = maxConnections →
        (onConnection maxConnections s clientAddress now).destroyed = true ∧
        (onConnection maxConnections s clientAddress now).listening = false ∧
        (onConnection maxConnections s clientAddress now).written = [] ∧
        (onConnection maxConnections s clientAddress now).state.connections = s.connections) ∧
    (∀ clients : List (String × Nat), clients.length = maxConnections + 1 →
      (openAll maxConnections initialState clients).2
        = List.replicate maxConnections false ++ [true]) := by
  refine ⟨?_, ?_, ?_⟩
  · intro events
    exact registry_invariant maxConnections events initialState (Nat.zero_le _)
      List.nodup_nil (fun entry he => absurd he (List.not_mem_nil entry))
  · intro s clientAddress now hfull
    have h : s.connections.length ≥ maxConnections := by omega
    simp [onConnection, h]
  · intro clients hlen
    rw [openAll_destroyed maxConnections clients initialState (Nat.zero_le _)
      (fun entry he => absurd he (List.not_mem_nil entry)), hlen]
    have h0 : initialState.connections.length = 0 := rfl
    rw [h0, Nat.sub_zero, Nat.min_eq_right (Nat.le_succ _), Nat.add_sub_cancel_left]
    rfl

/-- C26, witness: with a limit of 2, the registry holds at most 2 entries
after three arrivals, a close and a fourth arrival; the third of three
arrivals in a row finds the registry full and is destroyed without handlers,
and it is the only one. -/
theorem connection_limit_witness :
    ([SocketEvent.connection "10.0.0.1:5000" 0, .connection "10.0.0.2:5000" 1,
      .connection "10.0.0.3:5000" 2, .close 1, .connection "10.0.0.4:5000" 3].foldl
        (registryStep 2) initialState).connections.length ≤ 2 ∧
    ((openAll 2 initialState [("10.0.0.1:5000", 0), ("10.0.0.2:5000", 1)]).1.connections.length
        = 2 ∧
      (onConnection 2 (openAll 2 initialState [("10.0.0.1:5000", 0), ("10.0.0.2:5000", 1)]).1
        "10.0.0.3:5000" 2).destroyed = true ∧
      (onConnection 2 (openAll 2 initialState [("10.0.0.1:5000", 0), ("10.0.0.2:5000", 1)]).1
        "10.0.0.3:5000" 2).listening = false) ∧
    (openAll 2 initialState
        [("10.0.0.1:5000", 0), ("10.0.0.2:5000", 1), ("10.0.0.3:5000", 2)]).2
      = [false, false, true] :=
  ⟨((connection_limit 2).1 _).1,
   ⟨by decide,
    ((connection_limit 2).2.1 (openAll 2 initialState [("10.0.0.1:5000", 0),
      ("10.0.0.2:5000", 1)]).1 "10.0.0.3:5000" 2 (by decide)).1,
    ((connection_limit 2).2.1 (openAll 2 initialState [("10.0.0.1:5000", 0),
      ("10.0.0.2:5000", 1)]).1 "10.0.0.3:5000" 2 (by decide)).2.1⟩,
   (connection_limit 2).2.2 _ (by decide)⟩

/-! ## C22: decode errors and the connection -/

/-- The socket is closed by the `timeout` handler, and the registry entry of
a connection is gone after its `close` event. -/
theorem timeout_then_close (s : ServerState) (connectionId : Nat) :
    (onTimeout s).destroyed = true ∧ (onTimeout s).state = s ∧
    mapGet (onClose s connectionId).connections connectionId = none := by
  refine ⟨rfl, rfl, ?_⟩
  unfold mapGet onClose mapDelete
  rw [Option.map_eq_none', List.find?_eq_none]
  intro entry hentry
  have hne := (List.mem_filter.mp hentry).2
  simpa using hne

/-- C22, counterexample: with connections 1 and 2 registered, connection 1
sends a frame with the preamble `0x01020304`, then one with the declared
length `0xFFFFFFFF`. Both are rejected and answered with `0x00`; neither run
of the handler closes the socket, and after each of them connection 1 is
still registered. -/
theorem framing_error_keeps_connection :
    readUInt32BE badPreamblePacket 0 = some 0x01020304 ∧
    parseTeltonikaAVLPacket badPreamblePacket = none ∧
    (onData twoConnections 1 5 badPreamblePacket fun _ => true).written = [[0x00]] ∧
    (onData twoConnections 1 5 badPreamblePacket fun _ => true).destroyed = false ∧
    (onData twoConnections 1 5 badPreamblePacket fun _ => true).state.connections.map Prod.fst
      = [1, 2] ∧
    readUInt32BE hugeLengthPacket 4 = some 0xFFFFFFFF ∧
    parseTeltonikaAVLPacket hugeLengthPacket = none ∧
    (onData (onData twoConnections 1 5 badPreamblePacket fun _ => true).state 1 6
      hugeLengthPacket fun _ => true).written = [[0x00]] ∧
    (onData (onData twoConnections 1 5 badPreamblePacket fun _ => true).state 1 6
      hugeLengthPacket fun _ => true).destroyed = false ∧
    (onData (onData twoConnections 1 5 badPreamblePacket fun _ => true).state 1 6
      hugeLengthPacket fun _ => true).state.connections.map Prod.fst = [1, 2] := by
  decide

/-- C22, amended: no decode error is fatal to the connection. Whenever the
buffer of a data event is rejected, be it for its preamble, its declared
length, a record-count mismatch or a truncated field, the handler writes
`0x00`, does not close the socket, and every connection registered before
the event is registered after it; the entry is removed only by the `close`
and `error` events of the socket. -/
theorem decode_error_keeps_connection (s : ServerState) (connectionId now : Nat)
    (data : Buffer) (post : PostBody → Bool) (h : parseTeltonikaAVLPacket data = none) :
    (onData s connectionId now data post).written = [[0x00]] ∧
    (onData s connectionId now data post).destroyed = false ∧
    (onData s connectionId now data post).posted = [] ∧
    (onData s connectionId now data post).state.connections.map Prod.fst
      = s.connections.map Prod.fst ∧
    ∀ key, (mapGet (onData s connectionId now data post).state.connections key).isSome
      = (mapGet s.connections key).isSome := by
  refine ⟨(onData_of_parse_none h s connectionId now post).1, ?_,
    (onData_of_parse_none h s connectionId now post).2.1, ?_, ?_⟩
  · simp [onData, onDataDecode, h]
  · rw [connections_onData]
    exact keys_updateConnection _ _ _
  · intro key
    rw [connections_onData, mapGet_updateConnection]
    split
    · cases mapGet s.connections key <;> rfl
    · rfl

/-- C22, witness: the frame with the preamble `0x01020304` on connection 1
of two registered connections. -/
theorem decode_error_keeps_connection_witness :
    (onData twoConnections 1 5 badPreamblePacket fun _ => true).written = [[0x00]] ∧
    (onData twoConnections 1 5 badPreamblePacket fun _ => true).destroyed = false ∧
    (onData twoConnections 1 5 badPreamblePacket fun _ => true).posted = [] ∧
    (onData twoConnections 1 5 badPreamblePacket fun _ => true).state.connections.map Prod.fst
      = twoConnections.connections.map Prod.fst ∧
    ∀ key, (mapGet (onData twoConnections 1 5 badPreamblePacket
        fun _ => true).state.connections key).isSome
      = (mapGet twoConnections.connections key).isSome :=
  decode_error_keeps_connection twoConnections 1 5 badPreamblePacket (fun _ => true) (by decide)

/-! ## C21: a frame that arrives in two chunks -/

/-- C21, counterexample: the packet of `final-working-test.js` is accepted
in one piece. Delivered as its first 30 bytes and its last 33, each chunk is
rejected and answered with `0x00`: a byte is written after the first chunk
and no `0x01` follows the second. Delivered as its first 35 bytes and its
last 28, the first chunk is answered with `0x00` and the second, which
starts with the zero bytes of the coordinates, is accepted by itself as a
packet with no record and answered with `0x01`; nothing is posted. -/
theorem split_frame_not_reassembled :
    (parseTeltonikaAVLPacket minimalAVLPacket).isSome = true ∧
    minimalAVLPacket.take 30 ++ minimalAVLPacket.drop 30 = minimalAVLPacket ∧
    (onData twoConnections 1 5 (minimalAVLPacket.take 30) fun _ => true).written = [[0x00]] ∧
    (onData (onData twoConnections 1 5 (minimalAVLPacket.take 30) fun _ => true).state 1 6
      (minimalAVLPacket.drop 30) fun _ => true).written = [[0x00]] ∧
    minimalAVLPacket.take 35 ++ minimalAVLPacket.drop 35 = minimalAVLPacket ∧
    (onData twoConnections 1 5 (minimalAVLPacket.take 35) fun _ => true).written = [[0x00]] ∧
    (onData (onData twoConnections 1 5 (minimalAVLPacket.take 35) fun _ => true).state 1 6
      (minimalAVLPacket.drop 35) fun _ => true).written = [[0x01]] ∧
    (onData (onData twoConnections 1 5 (minimalAVLPacket.take 35) fun _ => true).state 1 6
      (minimalAVLPacket.drop 35) fun _ => true).posted = [] ∧
    (parseTeltonikaAVLPacket (minimalAVLPacket.drop 35)).map (fun p => p.recordCount)
      = some 0 := by
  decide

/-- C21, amended: partial reads are not buffered; every data event is
decoded by itself. For every two chunks received in two consecutive data
events on one connection, the session writes exactly one byte after each
chunk: `0x01` when that chunk alone decodes and its forward call succeeds,
`0x00` otherwise. What is written and posted for the second chunk does not
depend on the first, and the concatenation is never decoded. -/
theorem chunks_decoded_separately (s : ServerState) (connectionId now1 now2 : Nat)
    (chunk1 chunk2 : Buffer) (post : PostBody → Bool) :
    (onData s connectionId now1 chunk1 post).written =
      [[if (parseTeltonikaAVLPacket chunk1).map (fun p => (forwardToWebApp p chunk1 post).2)
          = some true then 0x01 else 0x00]] ∧
    (onData (onData s connectionId now1 chunk1 post).state connectionId now2 chunk2 post).written =
      [[if (parseTeltonikaAVLPacket chunk2).map (fun p => (forwardToWebApp p chunk2 post).2)
          = some true then 0x01 else 0x00]] ∧
    (onData (onData s connectionId now1 chunk1 post).state connectionId now2 chunk2 post).posted =
      (onData s connectionId now2 chunk2 post).posted := by
  have key : ∀ (t : ServerState) (now : Nat) (chunk : Buffer),
      (onData t connectionId now chunk post).written =
        [[if (parseTeltonikaAVLPacket chunk).map (fun p => (forwardToWebApp p chunk post).2)
            = some true then 0x01 else 0x00]] ∧
      (onData t connectionId now chunk post).posted =
        match parseTeltonikaAVLPacket chunk with
        | none => []
        | some p => (forwardToWebApp p chunk post).1 := by
    intro t now chunk
    cases hp : parseTeltonikaAVLPacket chunk with
    | none => simp [onData, onDataDecode, hp]
    | some p =>
      cases hf : (forwardToWebApp p chunk post).2 <;>
        simp [onData, onDataDecode, hp, hf, onDataForwarded]
  exact ⟨(key _ _ _).1, (key _ _ _).1, by rw [(key _ _ _).2, (key _ _ _).2]⟩

/-! ## C25: the shape of a posted record -/

/-- C25, the code on every record: the JSON of an element of
`parsedData.records` has the properties `data`, `size` and `nextOffset` and
no property `timestamp`, `priority` or `gpsElement`; these are properties of
its `data`. The reads `record.gpsElement.latitude` and `record.timestamp` of
the downstream handler therefore find nothing, whereas on the record that
`diagnostic-test.js` sends they find the values. -/
theorem posted_record_fields_nested (record : AVLRecord) :
    record.toJson.field "timestamp" = none ∧
    record.toJson.field "priority" = none ∧
    record.toJson.field "gpsElement" = none ∧
    (record.toJson.field "data").bind (Json.field "timestamp")
      = some (.number record.data.timestamp) ∧
    (record.toJson.field "data").bind (Json.field "priority")
      = some (.number record.data.priority) ∧
    (record.toJson.field "data").bind (Json.field "gpsElement")
      = some record.data.gpsElement.toJson ∧
    processGPSLocationReads record.toJson = none ∧
    (processGPSLocationReads diagnosticRecord).isSome = true := by
  refine ⟨rfl, rfl, rfl, rfl, rfl, rfl, rfl, rfl⟩

/-- C25, at the failing input: the one body posted for the packet of
`final-working-test.js` holds one record, and that record has no property
`timestamp` of its own. -/
theorem minimal_packet_posted_record_nested :
    (onData initialState 1 0 minimalAVLPacket fun _ => true).posted.map
      (fun body => body.records.map fun record =>
        ((record.toJson.field "timestamp").isSome, (record.toJson.field "data").isSome))
      = [[(false, true)]] := by
  decide

/-! ## C28: two frames on one connection -/

theorem step_data_of_records {chunk : Buffer}
    (h : (parseTeltonikaAVLPacket chunk).map (fun p => p.records.isEmpty) = some false)
    (l : Loop) (connectionId now : Nat) :
    ∃ body, (l.step (.data connectionId now chunk)).pending
        = l.pending ++ [{ connectionId := connectionId, body := body }] ∧
      (l.step (.data connectionId now chunk)).written = l.written ∧
      (l.step (.data connectionId now chunk)).posted = l.posted ++ [body] := by
  cases hp : parseTeltonikaAVLPacket chunk with
  | none => rw [hp] at h; exact absurd h (by simp)
  | some p =>
    rw [hp] at h
    cases hrec : p.records with
    | nil => rw [Option.map_some', hrec] at h; exact absurd h (by simp)
    | cons record rest =>
      refine ⟨{ imei := p.imei, records := [record], recordCount := 1, codecId := p.codecId,
                rawData := toHex chunk, source := "teltonika-tcp-server" }, ?_, ?_, ?_⟩ <;>
        simp only [Loop.step, onDataDecode, hp, forwardToWebApp, hrec]

theorem step_settle (l : Loop) (index : Nat) (run : Pending) (resolved : Bool)
    (h : l.pending[index]? = some run) :
    (l.step (.settle index resolved)).pending = l.pending.eraseIdx index ∧
    (l.step (.settle index resolved)).written
      = l.written ++ [(run.connectionId, if resolved then [0x01] else [0x00])] := by
  cases resolved <;> simp [Loop.step, h, onDataForwarded]

/-- C28, counterexample: connection 1 sends the packet of
`final-working-test.js` and then the same frame with the other preamble.
After the second data event two runs of the handler are suspended at their
forward call and nothing has been written. When the post of the second frame
succeeds first and the post of the first frame fails after it, the bytes
written are `0x01` then `0x00`: the acknowledgment of the second frame comes
before the negative acknowledgment of the first. -/
theorem acknowledgments_out_of_order :
    (((Loop.start twoConnections).step (.data 1 5 minimalAVLPacket)).step
      (.data 1 6 altPreamblePacket)).pending.map (fun run => run.connectionId) = [1, 1] ∧
    (((Loop.start twoConnections).step (.data 1 5 minimalAVLPacket)).step
      (.data 1 6 altPreamblePacket)).written = [] ∧
    (((((Loop.start twoConnections).step (.data 1 5 minimalAVLPacket)).step
      (.data 1 6 altPreamblePacket)).step (.settle 1 true)).step (.settle 0 false)).written
      = [(1, [0x01]), (1, [0x00])] := by
  decide

/-- C28, amended: nothing serialises the frames of a connection. For every
two frames that decode with at least one record, received one after the
other on one connection while no run is suspended: when the second arrives
before the forward call of the first has settled, both runs are suspended
with nothing written, and the two acknowledgments are then written in the
order in which the forward calls settle, each being `0x01` or `0x00` as its
own forward call succeeded or failed (first frame's first when its call
settles first, second frame's first otherwise); when the forward call of the
first settles before the second frame arrives, the acknowledgments are in
the order of the frames. -/
theorem acknowledgments_follow_completion (l : Loop) (connectionId now1 now2 : Nat)
    (frame1 frame2 : Buffer) (resolved1 resolved2 : Bool) (hidle : l.pending = [])
    (h1 : (parseTeltonikaAVLPacket frame1).map (fun p => p.records.isEmpty) = some false)
    (h2 : (parseTeltonikaAVLPacket frame2).map (fun p => p.records.isEmpty) = some false) :
    ((l.step (.data connectionId now1 frame1)).step
      (.data connectionId now2 frame2)).pending.map (fun run => run.connectionId)
      = [connectionId, connectionId] ∧
    ((l.step (.data connectionId now1 frame1)).step
      (.data connectionId now2 frame2)).written = l.written ∧
    ((((l.step (.data connectionId now1 frame1)).step (.data connectionId now2 frame2)).step
      (.settle 0 resolved1)).step (.settle 0 resolved2)).written
      = l.written ++ [(connectionId, if resolved1 then [0x01] else [0x00]),
                      (connectionId, if resolved2 then [0x01] else [0x00])] ∧
    ((((l.step (.data connectionId now1 frame1)).step (.data connectionId now2 frame2)).step
      (.settle 1 resolved2)).step (.settle 0 resolved1)).written
      = l.written ++ [(connectionId, if resolved2 then [0x01] else [0x00]),
                      (connectionId, if resolved1 then [0x01] else [0x00])] ∧
    ((((l.step (.data connectionId now1 frame1)).step (.settle 0 resolved1)).step
      (.data connectionId now2 frame2)).step (.settle 0 resolved2)).written
      = l.written ++ [(connectionId, if resolved1 then [0x01] else [0x00]),
                      (connectionId, if resolved2 then [0x01] else [0x00])] := by
  obtain ⟨body1, hp1, hw1, _⟩ := step_data_of_records h1 l connectionId now1
  rw [hidle, List.nil_append] at hp1
  obtain ⟨body2, hp2, hw2, _⟩ :=
    step_data_of_records h2 (l.step (.data connectionId now1 frame1)) connectionId now2
  rw [hp1] at hp2
  rw [hw1] at hw2
  refine ⟨?_, hw2, ?_, ?_, ?_⟩
  · rw [hp2]; rfl
  · obtain ⟨hpa, hwa⟩ := step_settle ((l.step (.data connectionId now1 frame1)).step
      (.data connectionId now2 frame2)) 0 _ resolved1
      (by rw [hp2]; rfl)
    rw [hp2] at hpa
    obtain ⟨_, hwb⟩ := step_settle (((l.step (.data connectionId now1 frame1)).step
      (.data connectionId now2 frame2)).step (.settle 0 resolved1)) 0 _ resolved2
      (by rw [hpa]; rfl)
    rw [hwb, hwa, hw2, List.append_assoc]
    rfl
  · obtain ⟨hpa, hwa⟩ := step_settle ((l.step (.data connectionId now1 frame1)).step
      (.data connectionId now2 frame2)) 1 _ resolved2
      (by rw [hp2]; rfl)
    rw [hp2] at hpa
    obtain ⟨_, hwb⟩ := step_settle (((l.step (.data connectionId now1 frame1)).step
      (.data connectionId now2 frame2)).step (.settle 1 resolved2)) 0 _ resolved1
      (by rw [hpa]; rfl)
    rw [hwb, hwa, hw2, List.append_assoc]
    rfl
  · obtain ⟨hpa, hwa⟩ := step_settle (l.step (.data connectionId now1 frame1)) 0 _ resolved1
      (by rw [hp1]; rfl)
    rw [hp1] at hpa
    obtain ⟨body3, hpc, hwc, _⟩ := step_data_of_records h2
      ((l.step (.data connectionId now1 frame1)).step (.settle 0 resolved1)) connectionId now2
    rw [hpa] at hpc
    obtain ⟨_, hwb⟩ := step_settle (((l.step (.data connectionId now1 frame1)).step
      (.settle 0 resolved1)).step (.data connectionId now2 frame2)) 0 _ resolved2
      (by rw [hpc]; rfl)
    rw [hwb, hwc, hwa, hw1, List.append_assoc]
    rfl

/-- C28, witness: the packet of `final-working-test.js` and the same frame
with the other preamble on connection 1; the post of the second succeeds
before the post of the first fails. -/
theorem acknowledgments_follow_completion_witness :
    (((((Loop.start twoConnections).step (.data 1 5 minimalAVLPacket)).step
      (.data 1 6 altPreamblePacket)).step (.settle 1 true)).step (.settle 0 false)).written
      = (Loop.start twoConnections).written ++
          [(1, if true then [0x01] else [0x00]), (1, if false then [0x01] else [0x00])] :=
  (acknowledgments_follow_completion (Loop.start twoConnections) 1 5 6 minimalAVLPacket
    altPreamblePacket false true rfl (by decide) (by decide)).2.2.2.1

/-- The event loop agrees with `onData`: a data event that finds no run
suspended, followed at once by the settling of its forward call when there is
one, leaves the state of `onData` and has written what `onData` writes. -/
theorem loop_settled_at_once (l : Loop) (connectionId now : Nat) (chunk : Buffer)
    (post : PostBody → Bool) (hidle : l.pending = []) :
    ∃ l' : Loop,
      (l' = l.step (.data connectionId now chunk) ∨
        ∃ resolved, l' = (l.step (.data connectionId now chunk)).step (.settle 0 resolved)) ∧
      l'.pending = [] ∧
      l'.state = (onData l.state connectionId now chunk post).state ∧
      l'.written = l.written ++
        (onData l.state connectionId now chunk post).written.map fun w => (connectionId, w) := by
  cases hp : parseTeltonikaAVLPacket chunk with
  | none =>
    refine ⟨_, Or.inl rfl, ?_, ?_, ?_⟩ <;>
      simp [Loop.step, onData, onDataDecode, hp, hidle]
  | some p =>
    cases hrec : p.records with
    | nil =>
      refine ⟨_, Or.inl rfl, ?_, ?_, ?_⟩ <;>
        simp [Loop.step, onData, onDataDecode, hp, hidle, forwardToWebApp, hrec,
          onDataForwarded]
    | cons record rest =>
      refine ⟨_, Or.inr ⟨post (PostBody.mk p.imei [record] 1 p.codecId (toHex chunk)
        "teltonika-tcp-server"), rfl⟩, ?_, ?_, ?_⟩ <;>
        simp [Loop.step, onData, onDataDecode, hp, hidle, forwardToWebApp, hrec,
          onDataForwarded]

/-! ## C29: no exception leaves the decoder -/

theorem orThrow_bind {α β : Type} (read : Option α) (f : α → Except Thrown β)
    (g : α → Option β) (h : ∀ a, f a = orThrow (g a)) :
    (orThrow read >>= f) = orThrow (read >>= g) := by
  cases read with
  | none => rfl
  | some a => exact h a

theorem catchNull_bind {α β : Type} (read : Option α) (f : α → Except Thrown (Option β))
    (g : α → Option β) (h : ∀ a, catchNull (f a) = .ok (g a)) :
    catchNull (orThrow read >>= f) = .ok (read >>= g) := by
  cases read with
  | none => rfl
  | some a => exact h a

theorem readItemsThrowing_eq (readValue : Buffer → Nat → Option Nat) (width : Nat)
    (buffer : Buffer) (n : Nat) :
    ∀ offset, readItemsThrowing readValue width buffer n offset
      = orThrow (readItems readValue width buffer n offset) := by
  induction n with
  | zero => intro offset; rfl
  | succ n ih =>
    intro offset
    unfold readItemsThrowing readItems
    rw [ih]
    refine orThrow_bind _ _ _ fun id => ?_
    refine orThrow_bind _ _ _ fun value => ?_
    refine orThrow_bind _ _ _ fun x => ?_
    rfl

theorem readItems8Throwing_eq (buffer : Buffer) (n : Nat) :
    ∀ offset, readItems8Throwing buffer n offset = orThrow (readItems8 buffer n offset) := by
  induction n with
  | zero => intro offset; rfl
  | succ n ih =>
    intro offset
    unfold readItems8Throwing readItems8
    rw [ih]
    refine orThrow_bind _ _ _ fun id => ?_
    refine orThrow_bind _ _ _ fun x => ?_
    rfl

theorem parseIOGroupsThrowing_eq (buffer : Buffer) (offset : Nat) :
    parseIOGroupsThrowing buffer offset = orThrow (parseIOGroups buffer offset) := by
  unfold parseIOGroupsThrowing parseIOGroups
  simp only [readItemsThrowing_eq, readItems8Throwing_eq]
  refine orThrow_bind _ _ _ fun eventIOID => ?_
  refine orThrow_bind _ _ _ fun nOfTotalIO => ?_
  refine orThrow_bind _ _ _ fun nOfData1 => ?_
  refine orThrow_bind _ _ _ fun x1 => ?_
  refine orThrow_bind _ _ _ fun nOfData2 => ?_
  refine orThrow_bind _ _ _ fun x2 => ?_
  refine orThrow_bind _ _ _ fun nOfData4 => ?_
  refine orThrow_bind _ _ _ fun x4 => ?_
  refine orThrow_bind _ _ _ fun nOfData8 => ?_
  refine orThrow_bind _ _ _ fun x8 => ?_
  rfl

theorem parseGPSElementCaught_eq (buffer : Buffer) (offset : Nat) :
    parseGPSElementCaught buffer offset = .ok (parseGPSElement buffer offset) := by
  unfold parseGPSElementCaught parseGPSElementBody parseGPSElement
  by_cases hb : offset + 20 > buffer.length
  · simp only [if_pos hb]; rfl
  simp only [if_neg hb, parseIOGroupsThrowing_eq]
  refine catchNull_bind _ _ _ fun longitude => ?_
  refine catchNull_bind _ _ _ fun latitude => ?_
  refine catchNull_bind _ _ _ fun altitude => ?_
  refine catchNull_bind _ _ _ fun angle => ?_
  refine catchNull_bind _ _ _ fun satellites => ?_
  refine catchNull_bind _ _ _ fun speed => ?_
  refine catchNull_bind _ _ _ fun x => ?_
  rfl

theorem parseIOElementCaught_eq (buffer : Buffer) (offset : Nat) :
    parseIOElementCaught buffer offset = .ok (parseIOElement buffer offset) := by
  unfold parseIOElementCaught parseIOElementBody parseIOElement
  by_cases hb : offset + 3 > buffer.length
  · simp only [if_pos hb]; rfl
  simp only [if_neg hb, parseIOGroupsThrowing_eq]
  refine catchNull_bind _ _ _ fun x => ?_
  rfl

theorem readTimestampThrowing_eq (buffer : Buffer) (offset : Nat) :
    readTimestampThrowing buffer offset = orThrow (readTimestamp buffer offset) := by
  unfold readTimestampThrowing readTimestamp
  by_cases hb : offset + 8 ≤ buffer.length
  · simp only [if_pos hb]
    refine orThrow_bind _ _ _ fun timestampHigh => ?_
    refine orThrow_bind _ _ _ fun timestampLow => ?_
    rfl
  · simp only [if_neg hb]
    refine orThrow_bind _ _ _ fun timestamp => ?_
    rfl

theorem parseAVLRecordCaught_eq (buffer : Buffer) (offset : Nat) :
    parseAVLRecordCaught buffer offset = .ok (parseAVLRecord buffer offset) := by
  unfold parseAVLRecordCaught parseAVLRecordBody parseAVLRecord
  by_cases hb : offset + 4 > buffer.length
  · simp only [if_pos hb]; rfl
  simp only [if_neg hb, readTimestampThrowing_eq, parseGPSElementCaught_eq,
    parseIOElementCaught_eq]
  refine catchNull_bind _ _ _ fun x => ?_
  obtain ⟨timestamp, offset1⟩ := x
  refine catchNull_bind _ _ _ fun priority => ?_
  rcases parseGPSElement buffer (offset1 + 1) with _ | gpsElement
  · rfl
  show catchNull (do
      let ioElement ←
        if offset1 + 1 + gpsElement.size < buffer.length then
          (Except.ok (parseIOElement buffer (offset1 + 1 + gpsElement.size)) : Except Thrown _)
        else pure none
      _) = _
  by_cases hio : offset1 + 1 + gpsElement.size < buffer.length
  · rw [if_pos hio]
    show _ = Except.ok (some (AVLRecord.mk _ _ _))
    simp only [if_pos hio]
    rfl
  · rw [if_neg hio]
    show _ = Except.ok (some (AVLRecord.mk _ _ _))
    simp only [if_neg hio]
    rfl

theorem parseRecordsBody_eq (buffer : Buffer) (n : Nat) :
    ∀ offset, parseRecordsBody buffer n offset = .ok (parseRecords buffer n offset) := by
  induction n with
  | zero => intro offset; rfl
  | succ n ih =>
    intro offset
    unfold parseRecordsBody parseRecords
    simp only [parseAVLRecordCaught_eq, ih]
    rcases parseAVLRecord buffer offset with _ | record
    · rfl
    show (match parseRecords buffer n record.nextOffset with
      | none => (pure none : Except Thrown _)
      | some (rest, stop) => pure (some (record :: rest, stop)))
      = Except.ok (parseRecords buffer n record.nextOffset >>= _)
    rcases parseRecords buffer n record.nextOffset with _ | ⟨rest, stop⟩
    · rfl
    rfl

theorem parseTeltonikaAVLPacketCaught_eq (buffer : Buffer) :
    parseTeltonikaAVLPacketCaught buffer = .ok (parseTeltonikaAVLPacket buffer) := by
  unfold parseTeltonikaAVLPacketCaught parseTeltonikaAVLPacketBody parseTeltonikaAVLPacket
  by_cases h12 : buffer.length < 12
  · simp only [if_pos h12]; rfl
  simp only [if_neg h12, parseRecordsBody_eq]
  refine catchNull_bind _ _ _ fun preamble => ?_
  by_cases hpre : preamble ≠ TELTONIKA_PREAMBLE ∧ preamble ≠ TELTONIKA_PREAMBLE_ALT
  · simp only [if_pos hpre]; rfl
  simp only [if_neg hpre]
  refine catchNull_bind _ _ _ fun dataFieldLength => ?_
  by_cases hlen : buffer.length < 4 + 4 + dataFieldLength + 4
  · simp only [if_pos hlen]; rfl
  simp only [if_neg hlen]
  by_cases h8 : 8 ≥ buffer.length
  · simp only [if_pos h8]; rfl
  simp only [if_neg h8]
  refine catchNull_bind _ _ _ fun imeiLength => ?_
  by_cases himei : 9 + imeiLength > buffer.length
  · simp only [if_pos himei]; rfl
  simp only [if_neg himei]
  by_cases hcodec : 9 + imeiLength ≥ buffer.length
  · simp only [if_pos hcodec]; rfl
  simp only [if_neg hcodec]
  refine catchNull_bind _ _ _ fun codecId => ?_
  by_cases hn1 : 9 + imeiLength + 1 ≥ buffer.length
  · simp only [if_pos hn1]; rfl
  simp only [if_neg hn1]
  refine catchNull_bind _ _ _ fun numberOfData1 => ?_
  rcases parseRecords buffer numberOfData1 (9 + imeiLength + 2) with _ | ⟨records, stop⟩
  · rfl
  show catchNull (if stop ≥ buffer.length then pure none else _)
    = Except.ok (if stop ≥ buffer.length then none else _)
  by_cases hn2 : stop ≥ buffer.length
  · simp only [if_pos hn2]; rfl
  simp only [if_neg hn2]
  refine catchNull_bind _ _ _ fun numberOfData2 => ?_
  by_cases hne : numberOfData1 ≠ numberOfData2
  · simp only [if_pos hne]; rfl
  simp only [if_neg hne]
  by_cases hcrc : stop + 1 + 4 > buffer.length
  · simp only [if_pos hcrc]; rfl
  simp only [if_neg hcrc]
  refine catchNull_bind _ _ _ fun crc => ?_
  rfl

/-- C29: `parseTeltonikaAVLPacket` is total and no exception leaves it. With
the `RangeError` of an out-of-range read and the `try`/`catch` blocks made
explicit, the function returns on every buffer (`Except.ok`), and what it
returns is `null` or a packet; the same holds of `parseAVLRecord`,
`parseGPSElement` and `parseIOElement` at every offset, and whenever the body
of one of them throws, its result is `null`. -/
theorem decoder_never_throws (buffer : Buffer) (offset : Nat) :
    (∃ result : Option Packet, parseTeltonikaAVLPacketCaught buffer = .ok result ∧
      result = parseTeltonikaAVLPacket buffer) ∧
    parseAVLRecordCaught buffer offset = .ok (parseAVLRecord buffer offset) ∧
    parseGPSElementCaught buffer offset = .ok (parseGPSElement buffer offset) ∧
    parseIOElementCaught buffer offset = .ok (parseIOElement buffer offset) ∧
    (∀ e, parseAVLRecordBody buffer offset = .error e → parseAVLRecord buffer offset = none) ∧
    (∀ e, parseGPSElementBody buffer offset = .error e → parseGPSElement buffer offset = none) ∧
    (∀ e, parseIOElementBody buffer offset = .error e → parseIOElement buffer offset = none) ∧
    (∀ e, parseTeltonikaAVLPacketBody buffer = .error e →
      parseTeltonikaAVLPacket buffer = none) := by
  have key : ∀ {α : Type} (body : Except Thrown (Option α)) (v : Option α) (e : Thrown),
      catchNull body = .ok v → body = .error e → v = none := by
    intro α body v e hc hb
    rw [hb] at hc
    exact (Except.ok.inj hc).symm
  exact ⟨⟨_, parseTeltonikaAVLPacketCaught_eq buffer, rfl⟩,
    parseAVLRecordCaught_eq buffer offset, parseGPSElementCaught_eq buffer offset,
    parseIOElementCaught_eq buffer offset,
    fun e h => key _ _ e (parseAVLRecordCaught_eq buffer offset) h,
    fun e h => key _ _ e (parseGPSElementCaught_eq buffer offset) h,
    fun e h => key _ _ e (parseIOElementCaught_eq buffer offset) h,
    fun e h => key _ _ e (parseTeltonikaAVLPacketCaught_eq buffer) h⟩

/-- C29, witness: twenty zero bytes. The body of `parseGPSElement` at offset
0 passes its length check and throws at the read of the 8-byte group count
at offset 20; the function catches the exception and returns `null`. -/
theorem decoder_never_throws_witness :
    parseGPSElementBody (List.replicate 20 0) 0 = .error .rangeError ∧
    parseGPSElement (List.replicate 20 0) 0 = none ∧
    parseGPSElementCaught (List.replicate 20 0) 0
      = .ok (parseGPSElement (List.replicate 20 0) 0) :=
  ⟨rfl,
   (decoder_never_throws (List.replicate 20 0) 0).2.2.2.2.2.1 .rangeError rfl,
   (decoder_never_throws (List.replicate 20 0) 0).2.2.1⟩

/-! ## C31: the accuracy estimate -/

/-- C31: `calculateAccuracy` returns 2 for counts of at least 10, 5 for 7 to
9, 10 for 5 and 6, 20 for 3 and 4 and 50 below 3, and it does not increase
when the satellite count grows. -/
theorem calculateAccuracy_steps (a b : Nat) :
    (10 ≤ a → calculateAccuracy a = 2) ∧
    (7 ≤ a → a ≤ 9 → calculateAccuracy a = 5) ∧
    (5 ≤ a → a ≤ 6 → calculateAccuracy a = 10) ∧
    (3 ≤ a → a ≤ 4 → calculateAccuracy a = 20) ∧
    (a < 3 → calculateAccuracy a = 50) ∧
    (a ≤ b → calculateAccuracy b ≤ calculateAccuracy a) := by
  unfold calculateAccuracy
  refine ⟨?_, ?_, ?_, ?_, ?_, ?_⟩
  · intro h; rw [if_pos h]
  · intro h1 h2
    rw [if_neg (by omega), if_pos h1]
  · intro h1 h2
    rw [if_neg (by omega), if_neg (by omega), if_pos h1]
  · intro h1 h2
    rw [if_neg (by omega), if_neg (by omega), if_neg (by omega), if_pos h1]
  · intro h
    rw [if_neg (by omega), if_neg (by omega), if_neg (by omega), if_neg (by omega)]
  · intro h
    split_ifs <;> omega

/-- C31, witness: 8 satellites give 5, 4 satellites give 20, and the
estimate for 8 is not above the estimate for 4. -/
theorem calculateAccuracy_steps_witness :
    calculateAccuracy 8 = 5 ∧ calculateAccuracy 4 = 20 ∧
    calculateAccuracy 8 ≤ calculateAccuracy 4 :=
  ⟨(calculateAccuracy_steps 8 8).2.1 (by decide) (by decide),
   (calculateAccuracy_steps 4 4).2.2.2.1 (by decide) (by decide),
   (calculateAccuracy_steps 4 8).2.2.2.2.2 (by decide)⟩

/-! ## C34: the size reported by `parseGPSElement` and `parseIOElement` -/

/-- C34, the code at the failing input: on the 24 bytes of
`truncatedIOBuffer`, `parseIOElement` at offset 0 returns a result whose last
8-byte value has only the five bytes that are left (ten hex digits) and whose
`size` is 27, so that `offset + size` is beyond the buffer; `parseGPSElement`
does the same on the 39 bytes of `truncatedGPSBuffer`, with `size` 42. -/
theorem size_beyond_buffer :
    truncatedIOBuffer.length = 24 ∧
    (parseIOElement truncatedIOBuffer 0).map (fun r => (r.size, r.data.data8))
      = some (27, [{ id := 0x4E, value := "0000000000" }]) ∧
    truncatedGPSBuffer.length = 39 ∧
    (parseGPSElement truncatedGPSBuffer 0).map (fun r => (r.size, r.data.data8))
      = some (42, [{ id := 0x4E, value := "0000000000" }]) := by
  decide

/-! ## C37: the packet counters -/

theorem counters_step (l : Loop) (e : LoopEvent)
    (h : l.state.totalPacketsReceived
      = l.state.totalPacketsProcessed + l.state.totalPacketsFailed + l.pending.length) :
    (l.step e).state.totalPacketsReceived
      = (l.step e).state.totalPacketsProcessed + (l.step e).state.totalPacketsFailed
        + (l.step e).pending.length := by
  cases e with
  | data connectionId now chunk =>
    cases hp : parseTeltonikaAVLPacket chunk with
    | none =>
      simp only [Loop.step, onDataDecode, hp]
      omega
    | some p =>
      cases hrec : p.records with
      | nil =>
        simp only [Loop.step, onDataDecode, hp, forwardToWebApp, hrec, onDataForwarded,
          if_true]
        omega
      | cons record rest =>
        simp only [Loop.step, onDataDecode, hp, forwardToWebApp, hrec, List.length_append,
          List.length_singleton]
        omega
  | settle index resolved =>
    cases hrun : l.pending[index]? with
    | none =>
      simp only [Loop.step, hrun]
      exact h
    | some run =>
      have hlt : index < l.pending.length := by
        rcases List.getElem?_eq_some.mp hrun with ⟨hl, _⟩
        exact hl
      have hlen : (l.pending.eraseIdx index).length = l.pending.length - 1 :=
        List.length_eraseIdx_of_lt hlt
      cases resolved <;>
        simp only [Loop.step, hrun, onDataForwarded, if_true, Bool.false_eq_true, if_false,
          hlen] <;> omega

theorem counters_run (events : List LoopEvent) :
    ∀ l : Loop,
      l.state.totalPacketsReceived
        = l.state.totalPacketsProcessed + l.state.totalPacketsFailed + l.pending.length →
      (events.foldl Loop.step l).state.totalPacketsReceived
        = (events.foldl Loop.step l).state.totalPacketsProcessed
          + (events.foldl Loop.step l).state.totalPacketsFailed
          + (events.foldl Loop.step l).pending.length := by
  induction events with
  | nil => intro l h; exact h
  | cons e rest ih => intro l h; exact ih _ (counters_step l e h)

/-- C37: in every state reached from the start of the server by data events
and by the settling of forward calls, `totalPacketsReceived` is
`totalPacketsProcessed + totalPacketsFailed` plus the number of handler runs
suspended at their forward call; so it is at least the sum, and equal to it
when no run is in flight. A complete run of the data handler adds one to
`totalPacketsReceived` and one to exactly one of `totalPacketsProcessed` and
`totalPacketsFailed`. -/
theorem counter_invariant (events : List LoopEvent) (s : ServerState)
    (connectionId now : Nat) (data : Buffer) (post : PostBody → Bool) :
    (events.foldl Loop.step (Loop.start initialState)).state.totalPacketsReceived
      = (events.foldl Loop.step (Loop.start initialState)).state.totalPacketsProcessed
        + (events.foldl Loop.step (Loop.start initialState)).state.totalPacketsFailed
        + (events.foldl Loop.step (Loop.start initialState)).pending.length ∧
    (events.foldl Loop.step (Loop.start initialState)).state.totalPacketsReceived
      ≥ (events.foldl Loop.step (Loop.start initialState)).state.totalPacketsProcessed
        + (events.foldl Loop.step (Loop.start initialState)).state.totalPacketsFailed ∧
    ((events.foldl Loop.step (Loop.start initialState)).pending = [] →
      (events.foldl Loop.step (Loop.start initialState)).state.totalPacketsReceived
        = (events.foldl Loop.step (Loop.start initialState)).state.totalPacketsProcessed
          + (events.foldl Loop.step (Loop.start initialState)).state.totalPacketsFailed) ∧
    (onData s connectionId now data post).state.totalPacketsReceived
      = s.totalPacketsReceived + 1 ∧
    (((onData s connectionId now data post).state.totalPacketsProcessed
          = s.totalPacketsProcessed + 1 ∧
        (onData s connectionId now data post).state.totalPacketsFailed
          = s.totalPacketsFailed) ∨
      ((onData s connectionId now data post).state.totalPacketsProcessed
          = s.totalPacketsProcessed ∧
        (onData s connectionId now data post).state.totalPacketsFailed
          = s.totalPacketsFailed + 1)) := by
  have hrun := counters_run events (Loop.start initialState) rfl
  refine ⟨hrun, by omega, ?_, ?_, ?_⟩
  · intro hidle
    rw [hidle] at hrun
    exact hrun
  · cases hp : parseTeltonikaAVLPacket data with
    | none => simp [onData, onDataDecode, hp]
    | some p =>
      cases hf : (forwardToWebApp p data post).2 <;>
        simp [onData, onDataDecode, hp, hf, onDataForwarded]
  · cases hp : parseTeltonikaAVLPacket data with
    | none => right; simp [onData, onDataDecode, hp]
    | some p =>
      cases hf : (forwardToWebApp p data post).2
      · right; simp [onData, onDataDecode, hp, hf, onDataForwarded]
      · left; simp [onData, onDataDecode, hp, hf, onDataForwarded]

/-- C37, witness: connection 1 sends the packet of `final-working-test.js`
twice and then the buffer `01 02 03`; the first forward call then succeeds
and the second fails. No run is in flight at the end, and
`totalPacketsReceived` is the sum of the two other counters. -/
theorem counter_invariant_witness :
    ([LoopEvent.data 1 5 minimalAVLPacket, .data 1 6 minimalAVLPacket,
      .data 1 7 [0x01, 0x02, 0x03], .settle 0 true, .settle 0 false].foldl Loop.step
        (Loop.start initialState)).pending = [] ∧
    ([LoopEvent.data 1 5 minimalAVLPacket, .data 1 6 minimalAVLPacket,
      .data 1 7 [0x01, 0x02, 0x03], .settle 0 true, .settle 0 false].foldl Loop.step
        (Loop.start initialState)).state.totalPacketsReceived
      = ([LoopEvent.data 1 5 minimalAVLPacket, .data 1 6 minimalAVLPacket,
          .data 1 7 [0x01, 0x02, 0x03], .settle 0 true, .settle 0 false].foldl Loop.step
            (Loop.start initialState)).state.totalPacketsProcessed
        + ([LoopEvent.data 1 5 minimalAVLPacket, .data 1 6 minimalAVLPacket,
          .data 1 7 [0x01, 0x02, 0x03], .settle 0 true, .settle 0 false].foldl Loop.step
            (Loop.start initialState)).state.totalPacketsFailed :=
  ⟨by decide,
   (counter_invariant [LoopEvent.data 1 5 minimalAVLPacket, .data 1 6 minimalAVLPacket,
      .data 1 7 [0x01, 0x02, 0x03], .settle 0 true, .settle 0 false] initialState 1 0 []
      (fun _ => true)).2.2.1 (by decide)⟩

/-! ## C38: the residue of the checksum -/

theorem referenceShift_lt (c : Nat) : referenceShift c < 65536 := by
  unfold referenceShift
  split <;> exact Nat.mod_lt _ (by decide)

theorem referenceShift_of_lt {c : Nat} (h : c < 32768) : referenceShift c = c * 2 := by
  unfold referenceShift
  have h0 : c &&& 0x8000 = 0 := by
    have : (0x8000 : Nat) = 2 ^ 15 := by norm_num
    rw [this, Nat.and_two_pow, Nat.testBit_eq_false_of_lt (by omega)]
    rfl
  rw [if_neg (by rw [h0]; exact fun h => h rfl)]
  exact Nat.mod_eq_of_lt (by omega)

theorem iterate_referenceShift_of_lt (k : Nat) :
    ∀ c : Nat, c * 2 ^ k < 65536 → referenceShift^[k] c = c * 2 ^ k := by
  induction k with
  | zero => intro c _; simp
  | succ k ih =>
    intro c h
    have hpos : 0 < 2 ^ k := Nat.two_pow_pos k
    have hc : c < 32768 := by
      rw [pow_succ] at h
      nlinarith
    rw [Function.iterate_succ_apply, referenceShift_of_lt hc, ih]
    · rw [pow_succ]; ring
    · rw [pow_succ] at h
      calc c * 2 * 2 ^ k = c * (2 ^ k * 2) := by ring
        _ < 65536 := h

theorem iterate_referenceShift_lt (k c : Nat) (hc : c < 65536) :
    referenceShift^[k] c < 65536 := by
  induction k with
  | zero => exact hc
  | succ k _ =>
    rw [Function.iterate_succ_apply']
    exact referenceShift_lt _

theorem foldl_reference_lt (buffer : Buffer) :
    ∀ c : Nat, c < 65536 →
      buffer.foldl (fun crc b => referenceShift^[8] (crc ^^^ (b.toNat * 256))) c < 65536 := by
  induction buffer with
  | nil => intro c hc; exact hc
  | cons b rest ih =>
    intro c hc
    rw [List.foldl_cons]
    apply ih
    rw [Function.iterate_succ_apply']
    exact referenceShift_lt _

theorem crc16Reference_lt (buffer : Buffer) : crc16Reference buffer < 65536 :=
  foldl_reference_lt buffer 0 (by decide)

theorem calculateCRC16_masked (buffer : Buffer) :
    calculateCRC16 buffer = crc16Reference buffer := by
  have hm : ∀ x : Nat, x &&& 0xFFFF = x % 65536 := fun x => by
    have := Nat.and_pow_two_sub_one_eq_mod x 16
    norm_num at this
    exact this
  unfold calculateCRC16
  rw [hm, foldl_crcByte_mod]
  rfl

theorem xor_high_byte (c : Nat) : c ^^^ (c / 256 * 256) = c % 256 := by
  apply Nat.eq_of_testBit_eq
  intro i
  have h1 : c / 256 * 256 = (c >>> 8) <<< 8 := by
    rw [Nat.shiftLeft_eq, Nat.shiftRight_eq_div_pow]
  have h2 : c % 256 = c % 2 ^ 8 := rfl
  rw [h1, h2, Nat.testBit_xor, Nat.testBit_shiftLeft, Nat.testBit_shiftRight,
    Nat.testBit_mod_two_pow]
  by_cases hi : i < 8
  · simp [hi, Nat.not_le.mpr hi]
  · have hge : 8 ≤ i := Nat.le_of_not_lt hi
    simp [hi, hge, Nat.add_sub_cancel' hge]

/-- C38: for every byte sequence `m` with `c = calculateCRC16(m)`, the
checksum of `m` followed by the two bytes `c >> 8` and `c & 0xFF` is 0. -/
theorem calculateCRC16_residue (m : Buffer) :
    calculateCRC16
      (m ++ [UInt8.ofNat (calculateCRC16 m >>> 8), UInt8.ofNat (calculateCRC16 m &&& 0xFF)])
      = 0 := by
  have hlt := crc16Reference_lt m
  have hlow : ∀ x : Nat, x &&& 0xFF = x % 256 := fun x => by
    have := Nat.and_pow_two_sub_one_eq_mod x 8
    norm_num at this
    exact this
  rw [calculateCRC16_masked, calculateCRC16_masked m]
  generalize hc : crc16Reference m = c at hlt
  have hb1 : (UInt8.ofNat (c >>> 8)).toNat = c / 256 := by
    rw [toNat_ofNat, Nat.shiftRight_eq_div_pow]
    exact Nat.mod_eq_of_lt (by omega)
  have hb2 : (UInt8.ofNat (c &&& 0xFF)).toNat = c % 256 := by
    rw [toNat_ofNat, hlow]
    exact Nat.mod_eq_of_lt (Nat.mod_lt _ (by decide))
  unfold crc16Reference at hc ⊢
  rw [List.foldl_append, hc, List.foldl_cons, List.foldl_cons, List.foldl_nil, hb1, hb2,
    xor_high_byte, iterate_referenceShift_of_lt 8 (c % 256) (by omega)]
  have h256 : (2 : Nat) ^ 8 = 256 := by norm_num
  rw [h256, Nat.xor_self]
  decide

/-! ## The records of a returned packet -/

theorem parseRecords_mem (buffer : Buffer) (n : Nat) :
    ∀ (offset : Nat) (records : List AVLRecord) (stop : Nat),
      parseRecords buffer n offset = some (records, stop) →
      offset ≤ stop ∧
      stop = (records.getLast?.map fun r => r.nextOffset).getD offset ∧
      ∀ r ∈ records, ∃ start, offset ≤ start ∧ parseAVLRecord buffer start = some r ∧
        r.nextOffset ≤ stop := by
  induction n with
  | zero =>
    intro offset records stop h
    simp only [parseRecords, Option.some.injEq, Prod.mk.injEq] at h
    obtain ⟨rfl, rfl⟩ := h
    exact ⟨Nat.le_refl _, rfl, fun r hr => absurd hr (List.not_mem_nil r)⟩
  | succ n ih =>
    intro offset records stop h
    unfold parseRecords at h
    cases hr : parseAVLRecord buffer offset with
    | none => rw [hr] at h; cases h
    | some record =>
      rw [hr] at h
      change (parseRecords buffer n record.nextOffset >>= _) = some (records, stop) at h
      cases hrest : parseRecords buffer n record.nextOffset with
      | none => rw [hrest] at h; cases h
      | some x =>
        obtain ⟨rest, stop'⟩ := x
        rw [hrest] at h
        simp only [Option.some_bind, Option.bind_eq_bind, pure, Option.some.injEq,
          Prod.mk.injEq] at h
        obtain ⟨rfl, rfl⟩ := h
        obtain ⟨hle, hstop, hmem⟩ := ih _ _ _ hrest
        obtain ⟨h30, _, _, _, _, _, _, _, _, _, _, _, hnext, _⟩ := parseAVLRecord_some_inv hr
        refine ⟨by omega, ?_, ?_⟩
        · cases rest with
          | nil => simpa using hstop
          | cons r2 rest2 =>
            rw [List.getLast?_cons_cons]
            cases hl : (r2 :: rest2).getLast? with
            | none => simp at hl
            | some l =>
              rw [hl] at hstop
              simpa using hstop
        · intro r hmemr
          rcases List.mem_cons.mp hmemr with rfl | hin
          · exact ⟨offset, Nat.le_refl _, hr, hle⟩
          · obtain ⟨start, hs, hp, hn⟩ := hmem r hin
            exact ⟨start, by omega, hp, hn⟩

theorem length_toHex (buffer : Buffer) : (toHex buffer).length = 2 * buffer.length := by
  unfold toHex
  show (buffer.flatMap _).length = _
  induction buffer with
  | nil => rfl
  | cons b rest ih =>
    rw [List.flatMap_cons, List.length_append, ih, List.length_cons]
    simp only [List.length_cons, List.length_nil]
    omega

theorem parseIOElement_some_inv {buffer : Buffer} {offset : Nat} {e : Sized IOElement}
    (h : parseIOElement buffer offset = some e) :
    ∃ stop, parseIOGroups buffer offset = some (e.data, stop) ∧ e.size = stop - offset := by
  unfold parseIOElement at h
  by_cases hb : offset + 3 > buffer.length
  · rw [if_pos hb] at h; cases h
  rw [if_neg hb] at h
  simp only [Option.bind_eq_bind, Option.bind_eq_some, Option.pure_def, Option.some.injEq] at h
  obtain ⟨x, hx, rfl⟩ := h
  obtain ⟨io, stop⟩ := x
  exact ⟨stop, hx, rfl⟩

/-- Reading `parseAVLRecord` backwards for the optional IO element: either
there is none and the record ends with its GPS element, or `parseIOElement`
succeeded right after the GPS element and the record ends with it. -/
theorem parseAVLRecord_io_inv {buffer : Buffer} {offset : Nat} {record : AVLRecord}
    (h : parseAVLRecord buffer offset = some record) :
    ∃ g, parseGPSElement buffer (offset + 9) = some g ∧ record.data.gpsElement = g.data ∧
      ((record.data.ioElement = none ∧ record.nextOffset = offset + 9 + g.size ∧
          (offset + 9 + g.size < buffer.length →
            parseIOElement buffer (offset + 9 + g.size) = none)) ∨
        (∃ e, offset + 9 + g.size < buffer.length ∧
          parseIOElement buffer (offset + 9 + g.size) = some e ∧
          record.data.ioElement = some e.data ∧
          record.nextOffset = offset + 9 + g.size + e.size)) := by
  have h30 : offset + 30 ≤ buffer.length := (parseAVLRecord_some_inv h).1
  unfold parseAVLRecord at h
  rw [if_neg (show ¬ offset + 4 > buffer.length by omega)] at h
  unfold readTimestamp at h
  rw [if_pos (show offset + 8 ≤ buffer.length by omega)] at h
  simp only [Option.bind_eq_bind, Option.bind_eq_some, Option.pure_def, Option.some.injEq,
    exists_exists_and_eq_and] at h
  obtain ⟨x, ⟨hi, hhi, lo, hlo, rfl⟩, pr, hpr, g, hg, rfl⟩ := h
  refine ⟨g, hg, rfl, ?_⟩
  dsimp only
  by_cases hlt : offset + 8 + 1 + g.size < buffer.length
  · rw [if_pos hlt]
    cases hio : parseIOElement buffer (offset + 8 + 1 + g.size) with
    | none => exact Or.inl ⟨rfl, rfl, fun _ => rfl⟩
    | some e => exact Or.inr ⟨e, hlt, rfl, rfl, rfl⟩
  · rw [if_neg hlt]
    exact Or.inl ⟨rfl, rfl, fun hc => absurd hc hlt⟩

theorem readUInt32BE_isSome {buffer : Buffer} {offset : Nat} (h : offset + 4 ≤ buffer.length) :
    ∃ v, readUInt32BE buffer offset = some v := by
  obtain ⟨b0, h0⟩ := @readUInt8_isSome buffer offset (by omega)
  obtain ⟨b1, h1⟩ := @readUInt8_isSome buffer (offset + 1) (by omega)
  obtain ⟨b2, h2⟩ := @readUInt8_isSome buffer (offset + 2) (by omega)
  obtain ⟨b3, h3⟩ := @readUInt8_isSome buffer (offset + 3) (by omega)
  refine ⟨b0 * 16777216 + b1 * 65536 + b2 * 256 + b3, ?_⟩
  simp only [readUInt32BE, h0, h1, h2, h3, Option.bind_eq_bind, Option.some_bind,
    Option.pure_def]

/-- Reading `parseTeltonikaAVLPacket` forwards: when every check passes, the
packet is made of what was read on the way. The converse of
`parse_some_inv`. -/
theorem parse_of_reads {buffer : Buffer}
    {preamble dataFieldLength imeiLength codecId numberOfData1 : Nat}
    {records : List AVLRecord} {offset : Nat}
    (h0 : readUInt32BE buffer 0 = some preamble) (hp : preamble = 0 ∨ preamble = 255)
    (hd : readUInt32BE buffer 4 = some dataFieldLength)
    (hfit : 4 + 4 + dataFieldLength + 4 ≤ buffer.length)
    (hil : readUInt8 buffer 8 = some imeiLength)
    (hc : readUInt8 buffer (9 + imeiLength) = some codecId)
    (hn1 : readUInt8 buffer (9 + imeiLength + 1) = some numberOfData1)
    (hrec : parseRecords buffer numberOfData1 (9 + imeiLength + 2) = some (records, offset))
    (hn2 : readUInt8 buffer offset = some numberOfData1)
    (hcrc : offset + 1 + 4 ≤ buffer.length) :
    parseTeltonikaAVLPacket buffer =
      some { imei := toAscii (subarray buffer 9 (9 + imeiLength)), codecId := codecId,
             recordCount := numberOfData1, records := records } := by
  have hpre : ¬ (preamble ≠ TELTONIKA_PREAMBLE ∧ preamble ≠ TELTONIKA_PREAMBLE_ALT) := by
    simp only [TELTONIKA_PREAMBLE, TELTONIKA_PREAMBLE_ALT]; omega
  have hn1lt := (readUInt8_eq_some_lt hn1).1
  have hn2lt := (readUInt8_eq_some_lt hn2).1
  obtain ⟨crc, hcrcv⟩ := @readUInt32BE_isSome buffer (offset + 1) (by omega)
  unfold parseTeltonikaAVLPacket
  rw [if_neg (show ¬ buffer.length < 12 by omega)]
  simp only [h0, Option.bind_eq_bind, Option.some_bind]
  rw [if_neg hpre]
  simp only [hd, Option.bind_eq_bind, Option.some_bind]
  rw [if_neg (show ¬ buffer.length < 4 + 4 + dataFieldLength + 4 by omega),
    if_neg (show ¬ 8 ≥ buffer.length by omega)]
  simp only [hil, Option.bind_eq_bind, Option.some_bind]
  rw [if_neg (show ¬ 9 + imeiLength > buffer.length by omega),
    if_neg (show ¬ 9 + imeiLength ≥ buffer.length by omega)]
  simp only [hc, Option.bind_eq_bind, Option.some_bind]
  rw [if_neg (show ¬ 9 + imeiLength + 1 ≥ buffer.length by omega)]
  simp only [hn1, Option.bind_eq_bind, Option.some_bind, hrec]
  rw [if_neg (show ¬ offset ≥ buffer.length by omega)]
  simp only [hn2, Option.bind_eq_bind, Option.some_bind]
  rw [if_neg (fun h => h rfl), if_neg (show ¬ offset + 1 + 4 > buffer.length by omega)]
  simp only [hcrcv, Option.bind_eq_bind, Option.some_bind, Option.pure_def]

/-! ## C32: the record count -/

/-- C32: for every buffer on which `parseTeltonikaAVLPacket` succeeds, the
list `records` has exactly `recordCount` elements, `recordCount` is the
leading count byte (the byte after the codec id, which follows the IMEI) and
it is also the byte that the decoder read as the trailing count, the one at
the `nextOffset` of the last record (at the start of the records when there
is none). -/
theorem record_count_consistent (buffer : Buffer)
    (h : (parseTeltonikaAVLPacket buffer).isSome = true) :
    ∃ (packet : Packet) (imeiLength : Nat),
      parseTeltonikaAVLPacket buffer = some packet ∧
      packet.records.length = packet.recordCount ∧
      readUInt8 buffer 8 = some imeiLength ∧
      readUInt8 buffer (9 + imeiLength + 1) = some packet.recordCount ∧
      readUInt8 buffer
        ((packet.records.getLast?.map fun r => r.nextOffset).getD (9 + imeiLength + 2))
        = some packet.recordCount := by
  obtain ⟨packet, hp⟩ := Option.isSome_iff_exists.mp h
  obtain ⟨_, _, imeiLength, _, n, records, offset, _, _, _, _, hil, _, _, hn1, hrec, hn2, _,
    hpk⟩ := parse_some_inv hp
  obtain ⟨_, hstop, _⟩ := parseRecords_mem buffer n _ _ _ hrec
  refine ⟨packet, imeiLength, hp, ?_, hil, ?_, ?_⟩
  · rw [hpk]; exact parseRecords_length buffer n _ _ _ hrec
  · rw [hpk]; exact hn1
  · rw [hpk]
    show readUInt8 buffer ((records.getLast?.map fun r => r.nextOffset).getD _) = some n
    rw [← hstop]
    exact hn2

/-- C32, witness: the packet of `final-working-test.js`. -/
theorem record_count_consistent_witness :
    ∃ (packet : Packet) (imeiLength : Nat),
      parseTeltonikaAVLPacket minimalAVLPacket = some packet ∧
      packet.records.length = packet.recordCount ∧
      readUInt8 minimalAVLPacket 8 = some imeiLength ∧
      readUInt8 minimalAVLPacket (9 + imeiLength + 1) = some packet.recordCount ∧
      readUInt8 minimalAVLPacket
        ((packet.records.getLast?.map fun r => r.nextOffset).getD (9 + imeiLength + 2))
        = some packet.recordCount :=
  record_count_consistent minimalAVLPacket (by decide)

/-! ## C33: what an accepted buffer was read from -/

theorem data8_full {buffer : Buffer} {offset : Nat} {x : IOElement × Nat}
    (h : parseIOGroups buffer offset = some x) (hin : x.2 ≤ buffer.length) :
    ∀ i ∈ x.1.data8, i.value.length = 16 := by
  obtain ⟨block, hv, _, hdec, _, _⟩ := parseIOGroups_some_inv h hin
  obtain ⟨_, _, _, _, _, _, _, _, _, h8⟩ := hv
  intro i hi
  rw [hdec] at hi
  obtain ⟨e, he, rfl⟩ := List.mem_map.mp hi
  show (toHex e.2).length = 16
  rw [length_toHex, (h8 e he).2]

/-- C33: for every buffer on which `parseTeltonikaAVLPacket` succeeds, the
`nextOffset` of each record is at most `buffer.length - 5`, and every value
of `data8`, in the GPS element and in the optional IO element of each
record, is the hex string of eight bytes of the buffer: sixteen digits. -/
theorem accepted_records_in_bounds (buffer : Buffer)
    (h : (parseTeltonikaAVLPacket buffer).isSome = true) :
    ∃ packet : Packet, parseTeltonikaAVLPacket buffer = some packet ∧
      ∀ r ∈ packet.records,
        r.nextOffset + 5 ≤ buffer.length ∧
        (∀ i ∈ r.data.gpsElement.data8, i.value.length = 16) ∧
        (∀ io, r.data.ioElement = some io → ∀ i ∈ io.data8, i.value.length = 16) := by
  obtain ⟨packet, hp⟩ := Option.isSome_iff_exists.mp h
  obtain ⟨_, _, imeiLength, _, n, records, offset, _, _, _, _, _, _, _, _, hrec, _, hcrc,
    hpk⟩ := parse_some_inv hp
  obtain ⟨_, _, hmem⟩ := parseRecords_mem buffer n _ _ _ hrec
  refine ⟨packet, hp, ?_⟩
  rw [hpk]
  intro r hr
  obtain ⟨start, _, hpr, hnext⟩ := hmem r hr
  obtain ⟨g, hg, hgd, hio⟩ := parseAVLRecord_io_inv hpr
  obtain ⟨_, _, _, _, _, _, _, io, stop, _, _, _, _, _, _, hgroups, hsize, hdata⟩ :=
    parseGPSElement_some_inv hg
  have hstop := (parseIOGroups_some_le hgroups).2
  have hd8 : g.data.data8 = io.data8 := by rw [hdata]
  refine ⟨by omega, ?_, ?_⟩
  · rw [hgd, hd8]
    apply data8_full hgroups
    show stop ≤ buffer.length
    rcases hio with ⟨_, hn, _⟩ | ⟨e, _, _, _, hn⟩ <;> omega
  · intro io' hio'
    rcases hio with ⟨hnone, _, _⟩ | ⟨e, _, he, hsome, hn⟩
    · rw [hnone] at hio'; cases hio'
    · rw [hsome] at hio'
      obtain ⟨stop', hgroups', hsize'⟩ := parseIOElement_some_inv he
      have hstop' := (parseIOGroups_some_le hgroups').2
      have : io' = e.data := (Option.some.inj hio').symm
      rw [this]
      apply data8_full hgroups'
      show stop' ≤ buffer.length
      omega

/-- C33, witness: the packet `testPacket` of `debug-avl-parsing.js`, whose
record has an 8-byte entry. -/
theorem accepted_records_in_bounds_witness :
    ∃ packet : Packet, parseTeltonikaAVLPacket testPacket = some packet ∧
      ∀ r ∈ packet.records,
        r.nextOffset + 5 ≤ testPacket.length ∧
        (∀ i ∈ r.data.gpsElement.data8, i.value.length = 16) ∧
        (∀ io, r.data.ioElement = some io → ∀ i ∈ io.data8, i.value.length = 16) :=
  accepted_records_in_bounds testPacket (by decide)

/-! ## C35: the optional IO element of the last record -/

theorem parseAVLRecord_start {buffer : Buffer} {offset : Nat} {record : AVLRecord}
    (h : parseAVLRecord buffer offset = some record) :
    record.nextOffset - record.size = offset := by
  obtain ⟨_, _, _, _, _, _, _, _, _, _, _, _, hnext, hsize⟩ := parseAVLRecord_some_inv h
  omega

/-- C35: for every buffer that decodes successfully and in which the GPS
element of the last record is followed by exactly five bytes (the trailing
count and the four checksum bytes), the optional `parseIOElement` attempted
on these five bytes fails and the last record has no `ioElement`; the record
ends with its GPS element, which holds all its IO data. -/
theorem last_record_without_io_element (buffer : Buffer) (packet : Packet) (r : AVLRecord)
    (gpsSize : Nat) (h : parseTeltonikaAVLPacket buffer = some packet)
    (hlast : packet.records.getLast? = some r)
    (hg : (parseGPSElement buffer (r.nextOffset - r.size + 9)).map (fun g => g.size)
      = some gpsSize)
    (hend : r.nextOffset - r.size + 9 + gpsSize + 5 = buffer.length) :
    parseIOElement buffer (r.nextOffset - r.size + 9 + gpsSize) = none ∧
    r.data.ioElement = none ∧
    r.nextOffset + 5 = buffer.length ∧
    (parseGPSElement buffer (r.nextOffset - r.size + 9)).map (fun g => g.data)
      = some r.data.gpsElement := by
  obtain ⟨_, _, imeiLength, _, n, records, offset, _, _, _, _, _, _, _, _, hrec, _, _,
    hpk⟩ := parse_some_inv h
  obtain ⟨_, _, hmem⟩ := parseRecords_mem buffer n _ _ _ hrec
  have hr : r ∈ records := by
    rw [hpk] at hlast
    exact List.mem_of_getLast?_eq_some hlast
  obtain ⟨start, _, hpr, _⟩ := hmem r hr
  have hstart := parseAVLRecord_start hpr
  rw [hstart] at hg hend ⊢
  obtain ⟨g, hgp, hgd, hio⟩ := parseAVLRecord_io_inv hpr
  rw [hgp] at hg ⊢
  have hgs : g.size = gpsSize := by simpa using hg
  rw [hgs] at hio
  have hshort : parseIOElement buffer (start + 9 + gpsSize) = none :=
    parseIOElement_eq_none_of_short (by omega)
  refine ⟨hshort, ?_, ?_, ?_⟩
  · rcases hio with ⟨hnone, _, _⟩ | ⟨e, _, he, _, _⟩
    · exact hnone
    · rw [hshort] at he; cases he
  · rcases hio with ⟨_, hn, _⟩ | ⟨e, _, he, _, _⟩
    · omega
    · rw [hshort] at he; cases he
  · rw [Option.map_some', hgd]

/-- C35, witness: the packet of `final-working-test.js`; its record starts at
offset 26, its GPS element has 23 bytes and ends at offset 58, five bytes
before the end. -/
theorem last_record_without_io_element_witness :
    parseIOElement minimalAVLPacket
      ((minimalRecord.parsed 15).nextOffset - (minimalRecord.parsed 15).size + 9 + 23) = none ∧
    (minimalRecord.parsed 15).data.ioElement = none ∧
    (minimalRecord.parsed 15).nextOffset + 5 = minimalAVLPacket.length ∧
    (parseGPSElement minimalAVLPacket
      ((minimalRecord.parsed 15).nextOffset - (minimalRecord.parsed 15).size + 9)).map
        (fun g => g.data) = some (minimalRecord.parsed 15).data.gpsElement := by
  have hf : frame 0 0x1B testIMEI 8 1 [minimalRecord] 1 0xF22A = minimalAVLPacket := by decide
  have hp := parse_frame_single 0 0x1B testIMEI 8 minimalRecord 1 0xF22A (Or.inl rfl)
    (by decide) (by decide) (by decide) (by decide) (by decide)
  rw [hf, if_pos rfl] at hp
  exact last_record_without_io_element minimalAVLPacket _ (minimalRecord.parsed 15) 23 hp rfl
    (by decide) (by decide)

/-! ## C36: the declared length only gates acceptance -/

theorem readUInt8_take {buffer : Buffer} {n offset : Nat} (h : offset < n) :
    readUInt8 (buffer.take n) offset = readUInt8 buffer offset := by
  unfold readUInt8
  rw [List.getElem?_take_of_lt h]

theorem readUInt32BE_take_four (buffer : Buffer) :
    readUInt32BE (buffer.take 4) 0 = readUInt32BE buffer 0 := by
  unfold readUInt32BE
  rw [readUInt8_take (by decide), readUInt8_take (by decide), readUInt8_take (by decide),
    readUInt8_take (by decide)]

theorem readUInt8_drop (buffer : Buffer) (n k : Nat) :
    readUInt8 (buffer.drop n) k = readUInt8 buffer (n + k) := by
  unfold readUInt8
  rw [List.getElem?_drop]

/-- Two buffers of at least eight bytes with the same bytes from offset 8 on
give the same records from any offset past the length field. -/
theorem parseRecords_congr {b1 b2 : Buffer} (h1 : 8 ≤ b1.length) (h2 : 8 ≤ b2.length)
    (hrest : b1.drop 8 = b2.drop 8) (n k : Nat) :
    parseRecords b1 n (8 + k) = parseRecords b2 n (8 + k) := by
  have e1 : b1 = b1.take 8 ++ b1.drop 8 := (List.take_append_drop 8 b1).symm
  have e2 : b2 = b2.take 8 ++ b2.drop 8 := (List.take_append_drop 8 b2).symm
  have l1 : (b1.take 8).length = 8 := by rw [List.length_take]; omega
  have l2 : (b2.take 8).length = 8 := by rw [List.length_take]; omega
  have p1 := parseRecords_append (b1.take 8) (b1.drop 8) n k
  have p2 := parseRecords_append (b2.take 8) (b2.drop 8) n k
  rw [← e1, l1] at p1
  rw [← e2, l2] at p2
  rw [p1, p2, hrest]

theorem subarray_congr {b1 b2 : Buffer} (h1 : 8 ≤ b1.length) (h2 : 8 ≤ b2.length)
    (hrest : b1.drop 8 = b2.drop 8) (a b : Nat) :
    subarray b1 (8 + a) (8 + b) = subarray b2 (8 + a) (8 + b) := by
  have e1 : b1 = b1.take 8 ++ b1.drop 8 := (List.take_append_drop 8 b1).symm
  have e2 : b2 = b2.take 8 ++ b2.drop 8 := (List.take_append_drop 8 b2).symm
  have l1 : (b1.take 8).length = 8 := by rw [List.length_take]; omega
  have l2 : (b2.take 8).length = 8 := by rw [List.length_take]; omega
  have p1 := subarray_append (b1.take 8) (b1.drop 8) a b
  have p2 := subarray_append (b2.take 8) (b2.drop 8) a b
  rw [← e1, l1] at p1
  rw [← e2, l2] at p2
  rw [p1, p2, hrest]

theorem parse_transfer {b1 b2 : Buffer} {d2 : Nat} {packet : Packet}
    (hpre : b1.take 4 = b2.take 4) (hrest : b1.drop 8 = b2.drop 8)
    (hd2 : readUInt32BE b2 4 = some d2) (hfit2 : 12 + d2 ≤ b2.length)
    (h : parseTeltonikaAVLPacket b1 = some packet) :
    parseTeltonikaAVLPacket b2 = some packet := by
  obtain ⟨preamble, d1, imeiLength, codecId, n, records, offset, h0, hp, _, hfit1, hil, hlt,
    hc, hn1, hrec, hn2, hcrc, hpk⟩ := parse_some_inv h
  have hl1 : 8 ≤ b1.length := by omega
  have hl2 : 8 ≤ b2.length := by omega
  have hlen : b1.length = b2.length := by
    have := congrArg List.length hrest
    rw [List.length_drop, List.length_drop] at this
    omega
  have hread : ∀ k, readUInt8 b1 (8 + k) = readUInt8 b2 (8 + k) := by
    intro k
    rw [← readUInt8_drop, ← readUInt8_drop, hrest]
  have hoff : 8 ≤ offset := by
    have := (parseRecords_mem b1 n _ _ _ hrec).1
    omega
  rw [hpk]
  have e9 : subarray b1 9 (9 + imeiLength) = subarray b2 9 (9 + imeiLength) := by
    have := subarray_congr hl1 hl2 hrest 1 (1 + imeiLength)
    rw [show 8 + 1 = 9 by rfl, show 8 + (1 + imeiLength) = 9 + imeiLength by omega] at this
    exact this
  rw [e9]
  refine @parse_of_reads b2 preamble d2 imeiLength codecId n records offset ?_ hp hd2 ?_ ?_ ?_
    ?_ ?_ ?_ ?_
  · rw [← readUInt32BE_take_four, ← hpre, readUInt32BE_take_four]; exact h0
  · omega
  · rw [← hread 0]; exact hil
  · rw [show 9 + imeiLength = 8 + (1 + imeiLength) by omega, ← hread]
    rw [show 8 + (1 + imeiLength) = 9 + imeiLength by omega]; exact hc
  · rw [show 9 + imeiLength + 1 = 8 + (2 + imeiLength) by omega, ← hread]
    rw [show 8 + (2 + imeiLength) = 9 + imeiLength + 1 by omega]; exact hn1
  · rw [show 9 + imeiLength + 2 = 8 + (3 + imeiLength) by omega,
      ← parseRecords_congr hl1 hl2 hrest]
    rw [show 8 + (3 + imeiLength) = 9 + imeiLength + 2 by omega]; exact hrec
  · rw [show offset = 8 + (offset - 8) by omega, ← hread]
    rw [show 8 + (offset - 8) = offset by omega]; exact hn2
  · omega

/-- C36: two buffers that differ only in bytes 4 to 7, the declared length,
and that both pass the length check `12 + declaredLength <= buffer.length`
give the same result, `null` or the same packet with the same records and
the same `nextOffset` of each record. -/
theorem declared_length_only_gates (b1 b2 : Buffer) (d1 d2 : Nat)
    (hpre : b1.take 4 = b2.take 4) (hrest : b1.drop 8 = b2.drop 8)
    (hd1 : readUInt32BE b1 4 = some d1) (hd2 : readUInt32BE b2 4 = some d2)
    (hfit1 : 12 + d1 ≤ b1.length) (hfit2 : 12 + d2 ≤ b2.length) :
    parseTeltonikaAVLPacket b1 = parseTeltonikaAVLPacket b2 := by
  cases h1 : parseTeltonikaAVLPacket b1 with
  | some packet => exact (parse_transfer hpre hrest hd2 hfit2 h1).symm
  | none =>
    cases h2 : parseTeltonikaAVLPacket b2 with
    | none => rfl
    | some packet =>
      have := parse_transfer hpre.symm hrest.symm hd1 hfit1 h2
      rw [h1] at this
      cases this

/-- C36, witness: the packet of `final-working-test.js`, which declares 27,
and the same bytes with the declared length 51. -/
theorem declared_length_only_gates_witness :
    readUInt32BE minimalAVLPacket 4 = some 27 ∧ readUInt32BE otherLengthPacket 4 = some 51 ∧
    parseTeltonikaAVLPacket minimalAVLPacket = parseTeltonikaAVLPacket otherLengthPacket :=
  ⟨by decide, by decide,
   declared_length_only_gates minimalAVLPacket otherLengthPacket 27 51 (by decide) (by decide)
     (by decide) (by decide) (by decide) (by decide)⟩

end Teltonika
